import Mathlib

/-!
# Chunk migration sender (tendisplus/cluster/migrate_sender.cpp)

A shallow embedding of `ChunkMigrateSender`: the sender object is a record of its
fields, the external collaborators (connection, store, replication primitive,
migrate manager, cluster state) are oracles indexed by the number of calls made
so far, and every external call is appended to a trace kept in the sender state.
-/

namespace Tendis

/-! ## Status and Expected -/

/-- Error codes used by the sender (`ErrorCodes::ERR_*`); `ERR_OTHER` stands for
any code the sender never names itself. -/
inductive ErrorCodes where
  | ERR_OK
  | ERR_NETWORK
  | ERR_TIMEOUT
  | ERR_INTERNAL
  | ERR_CLUSTER
  | ERR_EXHAUST
  | ERR_OTHER (n : Nat)
  deriving DecidableEq, Repr

/-- The class `Status`: a code and a reason string. -/
structure Status where
  code : ErrorCodes
  reason : String
  deriving DecidableEq, Repr

/-- The method `Status::ok()`. -/
def Status.ok (s : Status) : Bool := decide (s.code = ErrorCodes.ERR_OK)

/-- The class `Expected<T>`: either a value, or a status that is not ok. -/
inductive Expected (α : Type) where
  | value (a : α)
  | error (s : Status) (h : s.ok = false)
  deriving DecidableEq

/-- The method `Expected<T>::ok()`. -/
def Expected.ok {α : Type} : Expected α → Bool
  | .value _ => true
  | .error _ _ => false

/-- The method `Expected<T>::status()`. -/
def Expected.status {α : Type} : Expected α → Status
  | .value _ => ⟨ErrorCodes.ERR_OK, ""⟩
  | .error s _ => s

/-! ## Data model -/

/-- A storage record as the sender sees it: `rcdKey.encode()` and `rcdValue.encode()`. -/
structure Record where
  key : String
  value : String
  deriving DecidableEq, Repr

/-- What is handed to `writeData`: a byte string, or the four in-memory bytes of a
`uint32_t` (`string((char*)&n, sizeof(uint32_t))`, host byte order). -/
inductive Payload where
  | str (s : String)
  | raw32 (n : Nat)
  deriving DecidableEq, Repr

/-- Modelled from the spec: the enum `MigrateSenderStatus` is declared in
migrate_sender.h; the spec gives the tagged variant
`snapshot_begin, snapshot_done, binlog_done, metachange_done, failed(kind)`. -/
inductive MigrateSenderStatus where
  | SNAPSHOT_BEGIN
  | SNAPSHOT_DONE
  | BINLOG_DONE
  | METACHANGE_DONE
  | failed (kind : ErrorCodes)
  deriving DecidableEq, Repr

/-- One observable action of the sender, with the collaborator's answer. -/
inductive Event where
  | getDb (storeid : Nat) (r : Expected Unit)
  | getHighestBinlogId (r : Nat)
  | createTransaction (r : Expected Unit)
  | createSlotsCursor (txn b e : Nat)
  | writeData (d : Payload) (r : Status)
  | read (len timeoutSec : Nat) (r : Expected String)
  | readLine (secs : Nat) (r : Expected String)
  | SendSlotsBinlog (start stop : Nat) (slots : Nat) (r : Expected Nat)
  | getMaxBinlogId (r : Expected Nat)
  | lockChunks (slots : Nat) (r : Status)
  | unlockChunks (slots : Nat) (r : Status)
  | setSlots (node slots : Nat) (r : Status)
  | setStatus (st : MigrateSenderStatus)
  | delKV (txn : Nat) (key : String) (r : Status)
  | commit (txn : Nat) (r : Expected Nat)
  deriving DecidableEq

/-- The collaborators of the sender and the constants it reads. Every oracle is
indexed by the number of earlier calls of the same operation. A slot cursor is
the list of answers `next()` gives before it is exhausted (an answer with code
`ERR_EXHAUST` also ends it). -/
structure Env where
  /-- The constant `CLUSTER_SLOTS` (declared outside this file). -/
  CLUSTER_SLOTS : Nat
  /-- The parameter `migrateDistance` (`uint32_t`). -/
  migrateDistance : Nat
  /-- The parameter `timeoutSecBinlogWaitRsp`. -/
  timeoutSecBinlogWaitRsp : Nat
  /-- What `Expected<uint64_t>::value()` yields on an object holding an error:
  `none` when the call does not return. -/
  failedValue : Option Nat
  getDb : Nat → Expected Unit
  createTransaction : Nat → Expected Unit
  getHighestBinlogId : Nat → Nat
  createSlotsCursor : Nat → Nat → Nat → List (Expected Record)
  writeData : Nat → Status
  read : Nat → Expected String
  readLine : Nat → Expected String
  SendSlotsBinlog : Nat → Expected Nat
  getMaxBinlogId : Nat → Expected Nat
  lockChunks : Nat → Status
  unlockChunks : Nat → Status
  getNodeBySlot : Nat → Nat
  setSlots : Nat → Status
  delKV : Nat → Status
  commit : Nat → Expected Nat

/-- The fields of `ChunkMigrateSender`, the call counters of the oracles, and the
trace of actions. `slots` is the bitset as a number (bit `i` is slot `i`); node
pointers are numbers. -/
structure Sender where
  slots : Nat
  storeid : Nat
  dstStoreid : Nat
  dstNode : Nat
  sendstate : MigrateSenderStatus
  consistency : Bool
  snapshotKeyNum : Nat
  binlogNum : Nat
  delNum : Nat
  delSlot : Nat
  curBinlogid : Nat
  endBinlogid : Nat
  nGetDb : Nat
  nTxn : Nat
  nHighest : Nat
  nWrite : Nat
  nRead : Nat
  nReadLine : Nat
  nSendBinlog : Nat
  nMaxBinlog : Nat
  nLock : Nat
  nUnlock : Nat
  nSetSlots : Nat
  nDelKV : Nat
  nCommit : Nat
  trace : List Event

/-- The outcome of a call that may fail to return (a `value()` taken from an
`Expected` that holds an error). -/
inductive Run (α : Type) where
  | ret (a : α) (s : Sender)
  | abort (s : Sender)

def UINT64_MAX : Nat := 2 ^ 64 - 1

/-- The constructor `ChunkMigrateSender::ChunkMigrateSender`; the fields it does not
set are the arguments `snapshotKeyNum` to `endBinlogid`. -/
def ChunkMigrateSender (slots storeid dstStoreid dstNode : Nat)
    (snapshotKeyNum binlogNum delNum delSlot endBinlogid : Nat) : Sender :=
  { slots := slots, storeid := storeid, dstStoreid := dstStoreid, dstNode := dstNode,
    sendstate := MigrateSenderStatus.SNAPSHOT_BEGIN, consistency := false,
    snapshotKeyNum := snapshotKeyNum, binlogNum := binlogNum, delNum := delNum,
    delSlot := delSlot, curBinlogid := UINT64_MAX, endBinlogid := endBinlogid,
    nGetDb := 0, nTxn := 0, nHighest := 0, nWrite := 0, nRead := 0, nReadLine := 0,
    nSendBinlog := 0, nMaxBinlog := 0, nLock := 0, nUnlock := 0, nSetSlots := 0,
    nDelKV := 0, nCommit := 0, trace := [] }

/-- The assignment `_sendstate = st`. -/
def setSenderStatus (st : MigrateSenderStatus) (s : Sender) : Sender :=
  { s with sendstate := st, trace := s.trace ++ [Event.setStatus st] }

/-! ## Snapshot shipping -/

/-- The call `_client->writeData(data)`. -/
def writeData (env : Env) (data : Payload) (s : Sender) : Status × Sender :=
  let r := env.writeData s.nWrite
  (r, { s with nWrite := s.nWrite + 1, trace := s.trace ++ [Event.writeData data r] })

/-- The call `_client->read(len, std::chrono::seconds(timeout))`. -/
def readData (env : Env) (len timeoutSec : Nat) (s : Sender) : Expected String × Sender :=
  let r := env.read s.nRead
  (r, { s with nRead := s.nRead + 1, trace := s.trace ++ [Event.read len timeoutSec r] })

/-- Modelled from the spec: the statement macro `SyncWriteData(data)` is defined
outside this file; it writes `data` to the connection and makes the enclosing
function return the status when the write fails ("any I/O error aborts with that
status"). `k` is the rest of the enclosing function. -/
def SyncWriteData {ρ : Type} (fail : (st : Status) → st.ok = false → ρ) (env : Env)
    (data : Payload) (s : Sender) (k : Sender → ρ × Sender) : ρ × Sender :=
  if h : (writeData env data s).1.ok = true then k (writeData env data s).2
  else (fail (writeData env data s).1 (by simpa using h), (writeData env data s).2)

/-- Modelled from the spec: the statement macro `SyncReadData(exptData, len, timeout)`
is defined outside this file; it reads `len` bytes from the connection into
`exptData` and makes the enclosing function return the status when the read
fails. `k` is the rest of the enclosing function, given the data read. -/
def SyncReadData {ρ : Type} (fail : (st : Status) → st.ok = false → ρ) (env : Env)
    (len timeoutSec : Nat) (s : Sender) (k : String → Sender → ρ × Sender) : ρ × Sender :=
  match (readData env len timeoutSec s).1 with
  | .value v => k v (readData env len timeoutSec s).2
  | .error st h => (fail st h, (readData env len timeoutSec s).2)

/-- The end of `sendRange`, after the loop: tag `'2'`, one ack, the count. -/
def sendRangeEnd (env : Env) (totalWriteNum : Nat) (s : Sender) : Expected Nat × Sender :=
  SyncWriteData Expected.error env (.str "2") s fun s =>
  SyncReadData Expected.error env 3 100 s fun v s =>
  if v ≠ "+OK" then (.error ⟨.ERR_INTERNAL, "read +OK failed"⟩ rfl, s)
  else (.value totalWriteNum, s)

/-- The loop of `sendRange` over the answers of the cursor; `totalWriteNum` and
`curWriteNum` are `uint32_t` (`curWriteLen` is written and never read). -/
def sendRangeLoop (env : Env) :
    List (Expected Record) → Nat → Nat → Sender → Expected Nat × Sender
  | [], totalWriteNum, _, s => sendRangeEnd env totalWriteNum s
  | .error st h :: _, totalWriteNum, _, s =>
    if st.code = ErrorCodes.ERR_EXHAUST then sendRangeEnd env totalWriteNum s
    else (.error st h, s)
  | .value rcd :: rest, totalWriteNum, curWriteNum, s =>
    SyncWriteData Expected.error env (.str "0") s fun s =>
    SyncWriteData Expected.error env (.raw32 (rcd.key.length % 2 ^ 32)) s fun s =>
    SyncWriteData Expected.error env (.str rcd.key) s fun s =>
    SyncWriteData Expected.error env (.raw32 (rcd.value.length % 2 ^ 32)) s fun s =>
    SyncWriteData Expected.error env (.str rcd.value) s fun s =>
    let curWriteNum := (curWriteNum + 1) % 2 ^ 32
    let totalWriteNum := (totalWriteNum + 1) % 2 ^ 32
    if curWriteNum ≥ 1000 then
      SyncWriteData Expected.error env (.str "1") s fun s =>
      SyncReadData Expected.error env 3 100 s fun v s =>
      if v ≠ "+OK" then (.error ⟨.ERR_INTERNAL, "read +OK failed"⟩ rfl, s)
      else sendRangeLoop env rest totalWriteNum 0 s
    else sendRangeLoop env rest totalWriteNum curWriteNum s

/-- The method `ChunkMigrateSender::sendRange(txn, begin, end)`. -/
def sendRange (env : Env) (txn b e : Nat) (s : Sender) : Expected Nat × Sender :=
  let s1 := { s with trace := s.trace ++ [Event.createSlotsCursor txn b e] }
  sendRangeLoop env (env.createSlotsCursor txn b e) 0 0 s1

/-- The end of `sendSnapshot`, after the loop over the slots: tag `'3'`, one ack. -/
def sendSnapshotEnd (env : Env) (s : Sender) : Status × Sender :=
  SyncWriteData (fun st _ => st) env (.str "3") s fun s =>
  SyncReadData (fun st _ => st) env 3 160 s fun v s =>
  if v ≠ "+OK" then (⟨.ERR_INTERNAL, "read +OK failed"⟩, s)
  else (⟨.ERR_OK, "finish snapshot of bitmap"⟩, s)

/-- The loop of `sendSnapshot` over the slot indices still to visit. The counter
`_snapshotKeyNum` is `uint64_t`; a slot index is below `CLUSTER_SLOTS`, so the
`uint32_t` parameters of `sendRange` hold `i` and `i+1` unchanged. -/
def sendSnapshotLoop (env : Env) (slots txn : Nat) : List Nat → Sender → Status × Sender
  | [], s => sendSnapshotEnd env s
  | i :: rest, s =>
    if slots.testBit i then
      match sendRange env txn i (i + 1) s with
      | (.error st _, s1) => (st, s1)
      | (.value n, s1) =>
        sendSnapshotLoop env slots txn rest
          { s1 with snapshotKeyNum := (s1.snapshotKeyNum + n) % 2 ^ 64 }
    else sendSnapshotLoop env slots txn rest s

/-- The method `ChunkMigrateSender::initTxn`; a transaction is named by the index
of the `createTransaction` call that made it. -/
def initTxn (env : Env) (s : Sender) : Expected Nat × Sender :=
  let r := env.createTransaction s.nTxn
  let s1 := { s with nTxn := s.nTxn + 1, trace := s.trace ++ [Event.createTransaction r] }
  match r with
  | .error st h => (.error st h, s1)
  | .value _ => (.value s.nTxn, s1)

/-- The method `ChunkMigrateSender::sendSnapshot(slots)`. -/
def sendSnapshot (env : Env) (slots : Nat) (s : Sender) : Status × Sender :=
  let r := env.getDb s.nGetDb
  let s1 := { s with nGetDb := s.nGetDb + 1, trace := s.trace ++ [Event.getDb s.storeid r] }
  match r with
  | .error st _ => (st, s1)
  | .value _ =>
    let high := env.getHighestBinlogId s1.nHighest % 2 ^ 64
    let s2 := { s1 with curBinlogid := high, nHighest := s1.nHighest + 1,
                        trace := s1.trace ++ [Event.getHighestBinlogId high] }
    match initTxn env s2 with
    | (.error st _, s3) => (st, s3)
    | (.value txn, s3) => sendSnapshotLoop env slots txn (List.range env.CLUSTER_SLOTS) s3

/-! ## Binlog catch-up -/

/-- The method `ChunkMigrateSender::getMaxBinLog(ptxn)`: `0` when the binlog cursor
is exhausted, otherwise `value()` of what `getMaxBinlogId` returned. -/
def getMaxBinLog (env : Env) (s : Sender) : Run Nat :=
  let r := env.getMaxBinlogId s.nMaxBinlog
  let s1 := { s with nMaxBinlog := s.nMaxBinlog + 1,
                     trace := s.trace ++ [Event.getMaxBinlogId r] }
  match r with
  | .value v => .ret (v % 2 ^ 64) s1
  | .error st _ =>
    if st.code = ErrorCodes.ERR_EXHAUST then .ret 0 s1
    else match env.failedValue with
      | some v => .ret (v % 2 ^ 64) s1
      | none => .abort s1

/-- The method `ChunkMigrateSender::catchupBinlog(start, end, slots)`: it logs a
failure of `SendSlotsBinlog` and returns `s.value()` either way, which the
return type turns into an `Expected` holding a value. -/
def catchupBinlog (env : Env) (start stop slots : Nat) (s : Sender) : Run (Expected Nat) :=
  let r := env.SendSlotsBinlog s.nSendBinlog
  let s1 := { s with nSendBinlog := s.nSendBinlog + 1,
                     trace := s.trace ++ [Event.SendSlotsBinlog start stop slots r] }
  match r with
  | .value v => .ret (.value (v % 2 ^ 64)) s1
  | .error _ _ =>
    match env.failedValue with
    | some v => .ret (.value (v % 2 ^ 64)) s1
    | none => .abort s1

/-- The loop of `pursueBinLog`; the first argument is `maxTime - catchupTimes`.
`startBinLog` is a reference to `_curBinlogid`; the result is `finishCatchup`
with the final `binlogHigh`. -/
def pursueBinLogLoop (env : Env) : Nat → Nat → Bool → Sender → Run (Bool × Nat)
  | 0, binlogHigh, finishCatchup, s => .ret (finishCatchup, binlogHigh) s
  | n + 1, binlogHigh, finishCatchup, s =>
    match catchupBinlog env s.curBinlogid binlogHigh s.slots s with
    | .abort s1 => .abort s1
    | .ret (.error _ _) s1 => .ret (false, binlogHigh) s1
    | .ret (.value sendNum) s1 =>
      let high := env.getHighestBinlogId s1.nHighest % 2 ^ 64
      let s2 := { s1 with binlogNum := (s1.binlogNum + sendNum) % 2 ^ 64,
                          curBinlogid := binlogHigh,
                          nHighest := s1.nHighest + 1,
                          trace := s1.trace ++ [Event.getHighestBinlogId high] }
      match getMaxBinLog env s2 with
      | .abort s3 => .abort s3
      | .ret maxBinlogId s3 =>
        let diffOffset := (maxBinlogId + 2 ^ 64 - s3.curBinlogid) % 2 ^ 64
        if diffOffset < env.migrateDistance % 2 ^ 32 then
          .ret (true, high) { s3 with endBinlogid := maxBinlogId }
        else pursueBinLogLoop env n high finishCatchup s3

/-- The method `ChunkMigrateSender::pursueBinLog(maxTime, _curBinlogid, binlogHigh, txn)`;
`finishCatchup` starts as `true`. -/
def pursueBinLog (env : Env) (maxTime binlogHigh : Nat) (s : Sender) : Run (Bool × Nat) :=
  pursueBinLogLoop env maxTime binlogHigh true s

/-- The second half of `sendBinlog`, from `lockChunks` on. `txnOk` tells whether
`createTransaction` gave a transaction: `ptxn.value()` is taken unchecked. -/
def sendBinlogLocked (env : Env) (txnOk : Bool) (s : Sender) : Run Status :=
  let r := env.lockChunks s.nLock
  let s1 := { s with nLock := s.nLock + 1, trace := s.trace ++ [Event.lockChunks s.slots r] }
  if !r.ok then .ret ⟨.ERR_CLUSTER, "fail lock slots"⟩ s1
  else if !txnOk then .abort s1
  else
    match getMaxBinLog env s1 with
    | .abort s2 => .abort s2
    | .ret heighBinlog s2 =>
      if s2.curBinlogid < heighBinlog then
        match catchupBinlog env s2.curBinlogid heighBinlog s2.slots s2 with
        | .abort s3 => .abort s3
        | .ret (.error _ _) s3 =>
          let u := env.unlockChunks s3.nUnlock
          .ret ⟨.ERR_NETWORK, "send last binglog fail"⟩
            { s3 with nUnlock := s3.nUnlock + 1,
                      trace := s3.trace ++ [Event.unlockChunks s3.slots u] }
        | .ret (.value n) s3 =>
          .ret ⟨.ERR_OK, ""⟩ { s3 with binlogNum := (s3.binlogNum + n) % 2 ^ 64 }
      else .ret ⟨.ERR_OK, ""⟩ s2

/-- The method `ChunkMigrateSender::sendBinlog(maxTime)`. -/
def sendBinlog (env : Env) (maxTime : Nat) (s : Sender) : Run Status :=
  let t := env.createTransaction s.nTxn
  let heighBinlog := env.getHighestBinlogId s.nHighest % 2 ^ 64
  let s1 := { s with nTxn := s.nTxn + 1, nHighest := s.nHighest + 1,
                     trace := s.trace ++ [Event.createTransaction t,
                                          Event.getHighestBinlogId heighBinlog] }
  if s1.curBinlogid < heighBinlog then
    if !t.ok then .abort s1
    else
      match pursueBinLog env maxTime heighBinlog s1 with
      | .abort s2 => .abort s2
      | .ret (catchUp, _) s2 =>
        if !catchUp then .ret ⟨.ERR_TIMEOUT, "catch up fail"⟩ s2
        else sendBinlogLocked env t.ok s2
  else sendBinlogLocked env t.ok s1

/-! ## Cut-over -/

/-- The method `ChunkMigrateSender::checkSlotsBlongDst(slots)`; `slots.size()` is
`CLUSTER_SLOTS`. -/
def checkSlotsBlongDst (env : Env) (dstNode slots : Nat) : Bool :=
  (List.range env.CLUSTER_SLOTS).all fun id =>
    !(slots.testBit id && decide (env.getNodeBySlot id ≠ dstNode))

/-- Modelled from the spec: `Command::fmtMultiBulkLen` is defined outside this
file; it writes the header of a length-prefixed bulk array. -/
def fmtMultiBulkLen (n : Nat) : String := "*" ++ toString n ++ "\r\n"

/-- Modelled from the spec: `Command::fmtBulk` is defined outside this file; it
writes one length-prefixed bulk payload. -/
def fmtBulk (s : String) : String := "$" ++ toString s.length ++ "\r\n" ++ s ++ "\r\n"

/-- The standard `std::bitset<N>::to_string()`: one character per slot, the
highest slot first. -/
def bitsetToString (N bits : Nat) : String :=
  String.mk ((List.range N).reverse.map fun i => if bits.testBit i then '1' else '0')

/-- The command `sendOver` writes to the peer. -/
def migrateendCommand (env : Env) (s : Sender) : String :=
  fmtMultiBulkLen 3 ++ fmtBulk "migrateend" ++ fmtBulk (bitsetToString env.CLUSTER_SLOTS s.slots)
    ++ fmtBulk (toString s.dstStoreid)

/-- The method `ChunkMigrateSender::sendOver()`. -/
def sendOver (env : Env) (s : Sender) : Status × Sender :=
  let w := env.writeData s.nWrite
  let s1 := { s with nWrite := s.nWrite + 1,
                     trace := s.trace ++ [Event.writeData (.str (migrateendCommand env s)) w] }
  if !w.ok then (w, s1)
  else if checkSlotsBlongDst env s1.dstNode s1.slots then (⟨.ERR_OK, ""⟩, s1)
  else
    let secs := env.timeoutSecBinlogWaitRsp
    let exptOK := env.readLine s1.nReadLine
    let s2 := { s1 with nReadLine := s1.nReadLine + 1,
                        trace := s1.trace ++ [Event.readLine secs exptOK] }
    match exptOK with
    | .error _ _ => (⟨.ERR_CLUSTER, "missing package"⟩, s2)
    | .value line =>
      if line ≠ "+OK" then (⟨.ERR_NETWORK, "bad return string"⟩, s2)
      else
        let r := env.setSlots s2.nSetSlots
        let s3 := { s2 with nSetSlots := s2.nSetSlots + 1,
                            trace := s2.trace ++ [Event.setSlots s2.dstNode s2.slots r] }
        if !r.ok then (⟨.ERR_CLUSTER, "set slot dstnode fail"⟩, s3)
        else (⟨.ERR_OK, ""⟩, s3)

/-! ## The sender state machine -/

/-- The call `_svr->getMigrateManager()->unlockChunks(_slots)`. -/
def unlockChunks (env : Env) (s : Sender) : Status × Sender :=
  let u := env.unlockChunks s.nUnlock
  (u, { s with nUnlock := s.nUnlock + 1, trace := s.trace ++ [Event.unlockChunks s.slots u] })

/-- The method `ChunkMigrateSender::sendChunk()`. -/
def sendChunk (env : Env) (s : Sender) : Run Status :=
  match sendSnapshot env s.slots s with
  | (st, s1) =>
    if !st.ok then .ret st s1
    else
      match sendBinlog env 10 (setSenderStatus .SNAPSHOT_DONE s1) with
      | .abort s2 => .abort s2
      | .ret st s2 =>
        if !st.ok then .ret st s2
        else
          match sendOver env (setSenderStatus .BINLOG_DONE s2) with
          | (st, s3) =>
            if !st.ok then
              if st.code = ErrorCodes.ERR_CLUSTER then .ret ⟨.ERR_CLUSTER, "send over fail on"⟩ s3
              else .ret st s3
            else
              match unlockChunks env s3 with
              | (u, s4) =>
                if !u.ok then .ret ⟨.ERR_CLUSTER, "unlock fail on slots"⟩ s4
                else .ret ⟨.ERR_OK, ""⟩ (setSenderStatus .METACHANGE_DONE s4)


/-! ## Reclamation -/

/-- The end of `deleteChunk`, after the loop: one `commit`; its error status when it
fails, the count otherwise. -/
def deleteChunkCommit (env : Env) (txn deleteNum : Nat) (s : Sender) : Expected Nat × Sender :=
  let r := env.commit s.nCommit
  let s1 := { s with nCommit := s.nCommit + 1, trace := s.trace ++ [Event.commit txn r] }
  match r with
  | .error st h => (.error st h, s1)
  | .value _ => (.value deleteNum, s1)

/-- The loop of `deleteChunk` over the answers of the cursor; `deleteNum` is a
`uint32_t`. On a cursor error other than exhausted the source says `return false`,
which the return type `Expected<uint64_t>` turns into the value 0. -/
def deleteChunkLoop (env : Env) (txn : Nat) :
    List (Expected Record) → Nat → Sender → Expected Nat × Sender
  | [], deleteNum, s => deleteChunkCommit env txn deleteNum s
  | .error st _ :: _, deleteNum, s =>
    if st.code = ErrorCodes.ERR_EXHAUST then deleteChunkCommit env txn deleteNum s
    else (.value 0, s)
  | .value rcd :: rest, deleteNum, s =>
    let r := env.delKV s.nDelKV
    let s1 := { s with nDelKV := s.nDelKV + 1,
                       trace := s.trace ++ [Event.delKV txn rcd.key r] }
    if !r.ok then deleteChunkLoop env txn rest deleteNum s1
    else deleteChunkLoop env txn rest ((deleteNum + 1) % 2 ^ 32) s1

/-- The method `ChunkMigrateSender::deleteChunk(chunkid)`; the transaction is named
by the index of the `createTransaction` call that made it. -/
def deleteChunk (env : Env) (chunkid : Nat) (s : Sender) : Expected Nat × Sender :=
  let t := env.createTransaction s.nTxn
  let s1 := { s with nTxn := s.nTxn + 1, trace := s.trace ++ [Event.createTransaction t] }
  match t with
  | .error st h => (.error st h, s1)
  | .value _ =>
    deleteChunkLoop env s.nTxn (env.createSlotsCursor s.nTxn chunkid (chunkid + 1)) 0
      { s1 with trace := s1.trace ++ [Event.createSlotsCursor s.nTxn chunkid (chunkid + 1)] }

/-- The end of `deleteChunks`, after the loop: the consistency check, in 64-bit
arithmetic. -/
def deleteChunksEnd (s : Sender) : Bool × Sender :=
  if s.delNum ≠ (s.snapshotKeyNum + s.binlogNum) % 2 ^ 64 then (true, s)
  else (true, { s with consistency := true })

/-- The loop of `deleteChunks` over the slot indices still to visit; `_delNum` and
`_delSlot` are `uint64_t`. -/
def deleteChunksLoop (env : Env) (slots : Nat) : List Nat → Sender → Bool × Sender
  | [], s => deleteChunksEnd s
  | idx :: rest, s =>
    if slots.testBit idx then
      match deleteChunk env idx s with
      | (.error _ _, s1) => (false, s1)
      | (.value v, s1) =>
        deleteChunksLoop env slots rest
          { s1 with delNum := (s1.delNum + v) % 2 ^ 64,
                    delSlot := (s1.delSlot + 1) % 2 ^ 64 }
    else deleteChunksLoop env slots rest s

/-- The method `ChunkMigrateSender::deleteChunks(slots)`; `slots.size()` is
`CLUSTER_SLOTS`. -/
def deleteChunks (env : Env) (slots : Nat) (s : Sender) : Bool × Sender :=
  deleteChunksLoop env slots (List.range env.CLUSTER_SLOTS) s

/-! ## The catch-up loop, pass by pass -/

/-- One pass of the loop of `pursueBinLog`, up to the test of the distance: `none`
when the result of `catchupBinlog` is not ok, otherwise the new `binlogHigh` and
`maxBinlogId`. -/
def pursuePass (env : Env) (binlogHigh : Nat) (s : Sender) : Run (Option (Nat × Nat)) :=
  match catchupBinlog env s.curBinlogid binlogHigh s.slots s with
  | .abort s1 => .abort s1
  | .ret (.error _ _) s1 => .ret none s1
  | .ret (.value sendNum) s1 =>
    let high := env.getHighestBinlogId s1.nHighest % 2 ^ 64
    let s2 := { s1 with binlogNum := (s1.binlogNum + sendNum) % 2 ^ 64,
                        curBinlogid := binlogHigh,
                        nHighest := s1.nHighest + 1,
                        trace := s1.trace ++ [Event.getHighestBinlogId high] }
    match getMaxBinLog env s2 with
    | .abort s3 => .abort s3
    | .ret maxBinlogId s3 => .ret (some (high, maxBinlogId)) s3

/-- The test `diffOffset < distance` of `pursueBinLog`: the difference
`maxBinlogId - startBinLog` in `uint64_t`, against the `uint32_t` distance. -/
def reachedDistance (env : Env) (maxBinlogId startBinLog : Nat) : Bool :=
  decide ((maxBinlogId + 2 ^ 64 - startBinLog) % 2 ^ 64 < env.migrateDistance % 2 ^ 32)

/-- The pass boundaries of a run of the loop of `pursueBinLog` that has `n` passes
left, `binlogHigh = high` and sender state `s`: the `binlogHigh` and the sender
state before the first pass and after each pass the loop makes. -/
inductive PassBoundary (env : Env) : Nat → Nat → Sender → Nat → Sender → Prop where
  | first (n high : Nat) (s : Sender) : PassBoundary env n high s high s
  | afterPass (n high : Nat) (s : Sender) (high' maxBinlogId : Nat) (s3 : Sender) :
      pursuePass env high s = .ret (some (high', maxBinlogId)) s3 →
      PassBoundary env (n + 1) high s high' s3
  | later (n high : Nat) (s : Sender) (high' maxBinlogId : Nat) (s3 : Sender)
      (bh : Nat) (bs : Sender) :
      pursuePass env high s = .ret (some (high', maxBinlogId)) s3 →
      reachedDistance env maxBinlogId s3.curBinlogid = false →
      PassBoundary env n high' s3 bh bs →
      PassBoundary env (n + 1) high s bh bs

/-- What `catchupBinlog` returns on the `i`-th call of `SendSlotsBinlog` (`none`: it
does not return). -/
def shippedCount (env : Env) (i : Nat) : Option Nat :=
  match env.SendSlotsBinlog i with
  | .value v => some (v % 2 ^ 64)
  | .error _ _ => env.failedValue.map (· % 2 ^ 64)

/-- What `getMaxBinLog` returns on the `i`-th call of `getMaxBinlogId` (`none`: it
does not return). -/
def maxBinLogAt (env : Env) (i : Nat) : Option Nat :=
  match env.getMaxBinlogId i with
  | .value v => some (v % 2 ^ 64)
  | .error st _ =>
    if st.code = ErrorCodes.ERR_EXHAUST then some 0 else env.failedValue.map (· % 2 ^ 64)

/-! ### The passes in the words of the specification

A run of `pursueBinLog` is entered with `binlogHigh = high` in sender state `s`;
passes are counted from 0. -/

/-- The upper bound of pass `j`: the `high` of the entry for the first pass, then
what `getHighestBinlogId()` answered after the pass before. -/
def passEnd (env : Env) (high : Nat) (s : Sender) (j : Nat) : Nat :=
  if j = 0 then high else env.getHighestBinlogId (s.nHighest + (j - 1)) % 2 ^ 64

/-- The lower bound of pass `j`: `_curBinlogid` of the entry for the first pass, then
the upper bound of the pass before. -/
def passStart (env : Env) (high : Nat) (s : Sender) (j : Nat) : Nat :=
  if j = 0 then s.curBinlogid else passEnd env high s (j - 1)

/-- The count pass `j` gets from `catchupBinlog`. -/
def passCount (env : Env) (s : Sender) (j : Nat) : Option Nat :=
  shippedCount env (s.nSendBinlog + j)

/-- The `maxBinlogId` pass `j` gets from `getMaxBinLog`. -/
def passMax (env : Env) (s : Sender) (j : Nat) : Option Nat :=
  maxBinLogAt env (s.nMaxBinlog + j)

/-- Whether the lag left by pass `j` is below the migrate distance; after pass `j`
the start is the upper bound of pass `j`. -/
def passConverged (env : Env) (high : Nat) (s : Sender) (j : Nat) : Bool :=
  match passMax env s j with
  | some m => reachedDistance env m (passEnd env high s j)
  | none => false

/-! ## Observations on runs and traces -/

/-- What a run returned, if it returned. -/
def Run.result {α : Type} : Run α → Option α
  | .ret a _ => some a
  | .abort _ => none

/-- The sender state a run ended in. -/
def Run.state {α : Type} : Run α → Sender
  | .ret _ s => s
  | .abort s => s

/-- The values assigned to `_sendstate`, in order. -/
def statusWrites (tr : List Event) : List MigrateSenderStatus :=
  tr.filterMap fun e => match e with
    | .setStatus st => some st
    | _ => none

/-- An action on the connection during the snapshot: a write, or a read of an ack. -/
inductive Wire where
  | write (d : Payload)
  | read (len timeoutSec : Nat)
  deriving DecidableEq, Repr

/-- The connection action an event stands for, if it is one. -/
def Event.wire : Event → Option Wire
  | .writeData d _ => some (.write d)
  | .read len t _ => some (.read len t)
  | _ => none

/-- Whether a connection action is a read. -/
def Wire.isRead : Wire → Bool
  | .read _ _ => true
  | .write _ => false

/-- The calls of `createSlotsCursor` in a trace: transaction, begin, end. -/
def cursorCalls (tr : List Event) : List (Nat × Nat × Nat) :=
  tr.filterMap fun e => match e with
    | .createSlotsCursor txn b e => some (txn, b, e)
    | _ => none

/-- The payloads written to the connection, in order. -/
def written (tr : List Event) : List Payload :=
  tr.filterMap fun e => match e with
    | .writeData d _ => some d
    | _ => none

/-- The binlog ranges handed to `SendSlotsBinlog`, in order. -/
def shipments (tr : List Event) : List (Nat × Nat) :=
  tr.filterMap fun e => match e with
    | .SendSlotsBinlog a b _ _ => some (a, b)
    | _ => none

/-- Whether an event is a call of `lockChunks` or `unlockChunks`. -/
def Event.isLocking : Event → Bool
  | .lockChunks _ _ => true
  | .unlockChunks _ _ => true
  | _ => false

/-- The number of records a cursor yields before it stops. -/
def cursorYield (l : List (Expected Record)) : Nat := (l.takeWhile Expected.ok).length

/-- A cursor that has nothing more to yield: its answers are used up, or the next
one has code `ERR_EXHAUST`. -/
def Exhausted : List (Expected Record) → Prop
  | [] => True
  | .value _ :: _ => False
  | .error st _ :: _ => st.code = ErrorCodes.ERR_EXHAUST

/-- A cursor that yields finitely many records and then reports exhausted. -/
def CleanCursor (l : List (Expected Record)) : Prop :=
  ∃ (recs : List Record) (tl : List (Expected Record)),
    l = recs.map Expected.value ++ tl ∧ Exhausted tl

/-- The slots set in a bitmap, in ascending order. -/
def slotsOf (env : Env) (slots : Nat) : List Nat :=
  (List.range env.CLUSTER_SLOTS).filter fun i => slots.testBit i

/-- The number of records `sendRange` reports for a slot of the snapshot taken by
transaction `txn`: the records its cursor yields, counted in a `uint32_t`. -/
def rangeCount (env : Env) (txn i : Nat) : Nat :=
  cursorYield (env.createSlotsCursor txn i (i + 1)) % 2 ^ 32

/-- The sender fields and status writes a step leaves alone. -/
structure Same (s s' : Sender) : Prop where
  sendstate : s'.sendstate = s.sendstate
  slots : s'.slots = s.slots
  dstNode : s'.dstNode = s.dstNode
  dstStoreid : s'.dstStoreid = s.dstStoreid
  writes : statusWrites s'.trace = statusWrites s.trace

/-! ### The snapshot framing in the words of the specification -/

/-- A record on the wire: tag `'0'`, key length, key, value length, value. -/
def recordFrame (r : Record) : List Wire :=
  [.write (.str "0"), .write (.raw32 (r.key.length % 2 ^ 32)), .write (.str r.key),
   .write (.raw32 (r.value.length % 2 ^ 32)), .write (.str r.value)]

/-- A batch boundary: tag `'1'` and one ack read (3 bytes, 100 s). -/
def batchAck : List Wire := [.write (.str "1"), .read 3 100]

/-- The end of a slot: tag `'2'` and one ack read. -/
def slotEnd : List Wire := [.write (.str "2"), .read 3 100]

/-- The frames of the records of a range, `done` records of the range having been
sent before: each record, and a batch boundary right after every record whose
ordinal in the range is a multiple of 1000. -/
def recordFrames : Nat → List Record → List Wire
  | _, [] => []
  | done, r :: rest =>
    recordFrame r ++ (if (done + 1) % 1000 = 0 then batchAck else []) ++
      recordFrames (done + 1) rest

/-- Everything `sendRange` puts on the wire for a range with the given records. -/
def rangeFrames (recs : List Record) : List Wire := recordFrames 0 recs ++ slotEnd

/-! ### The reclaimer in the words of the specification -/

/-- The `delKV` calls on the keys of the given records, in order, the first one
being call number `i` of `delKV`. -/
def delKVEvents (env : Env) (txn : Nat) : Nat → List Record → List Event
  | _, [] => []
  | i, r :: rest => Event.delKV txn r.key (env.delKV i) :: delKVEvents env txn (i + 1) rest

/-- How many of the `n` calls of `delKV` from call number `i` on succeed. -/
def delCount (env : Env) : Nat → Nat → Nat
  | _, 0 => 0
  | i, n + 1 => (if (env.delKV i).ok then 1 else 0) + delCount env (i + 1) n

/-- Whether an event is an action of the reclaimer on the store. -/
def Event.isReclaim : Event → Bool
  | .createTransaction _ => true
  | .createSlotsCursor _ _ _ => true
  | .delKV _ _ _ => true
  | .commit _ _ => true
  | _ => false

/-- What a step of the reclaimer leaves alone: the trace only grows, by actions on
the store, and the status, the flag, the counters of the earlier phases, the bitmap
and the destination stay as they are. -/
structure Reclaims (s s' : Sender) : Prop where
  trace : ∃ d, s'.trace = s.trace ++ d ∧ d.all Event.isReclaim = true
  sendstate : s'.sendstate = s.sendstate
  consistency : s'.consistency = s.consistency
  snapshotKeyNum : s'.snapshotKeyNum = s.snapshotKeyNum
  binlogNum : s'.binlogNum = s.binlogNum
  delNum : s'.delNum = s.delNum
  delSlot : s'.delSlot = s.delSlot
  nSetSlots : s'.nSetSlots = s.nSetSlots
  slots : s'.slots = s.slots
  dstNode : s'.dstNode = s.dstNode

/-- The calls of `deleteChunk` made by the loop of `deleteChunks` that gave a count,
with the count: the loop run again, keeping slot and count of every call up to the
first one that fails. -/
def deleteChunksCalls (env : Env) (slots : Nat) : List Nat → Sender → List (Nat × Nat)
  | [], _ => []
  | idx :: rest, s =>
    if slots.testBit idx then
      match deleteChunk env idx s with
      | (.error _ _, _) => []
      | (.value v, s1) =>
        (idx, v) :: deleteChunksCalls env slots rest
          { s1 with delNum := (s1.delNum + v) % 2 ^ 64,
                    delSlot := (s1.delSlot + 1) % 2 ^ 64 }
    else deleteChunksCalls env slots rest s


/-! ### Observations on failures and on the cut-over -/

/-- Whether an event is an ack read that brought something other than `+OK`. -/
def Event.isBadAck : Event → Bool
  | .read _ _ (.value v) => decide (v ≠ "+OK")
  | _ => false

/-- Whether an event is a step of the snapshot phase: opening the shard, reading the
binlog watermark, making the snapshot transaction, opening a cursor, a write or a
read on the connection. -/
def Event.isSnapshotStep : Event → Bool
  | .getDb _ _ => true
  | .getHighestBinlogId _ => true
  | .createTransaction _ => true
  | .createSlotsCursor _ _ _ => true
  | .writeData _ _ => true
  | .read _ _ _ => true
  | _ => false

/-- No ack other than `+OK` has been read since `s0`. -/
def CleanFrom (s0 s : Sender) : Prop :=
  ∃ d, s.trace = s0.trace ++ d ∧ d.all (fun e => !e.isBadAck) = true

/-- Since `s0` either no ack other than `+OK` has been read, or the last thing done
was to read one and the status is the internal error "read +OK failed". -/
def AckChecked (s0 : Sender) (st : Status) (s : Sender) : Prop :=
  CleanFrom s0 s ∨
    ∃ s1 e, CleanFrom s0 s1 ∧ s.trace = s1.trace ++ [e] ∧ e.isBadAck = true ∧
      st = ⟨.ERR_INTERNAL, "read +OK failed"⟩

/-- Since `s0` only steps of the snapshot phase have been made, and no call of
`lockChunks`. -/
def SnapshotSteps (s0 s : Sender) : Prop :=
  ∃ d, s.trace = s0.trace ++ d ∧ d.all Event.isSnapshotStep = true ∧ s.nLock = s0.nLock

/-- Whether an event belongs to the handshake that follows `migrateend`: reading the
peer's reply line, or `setSlots`. -/
def Event.isReply : Event → Bool
  | .readLine _ _ => true
  | .setSlots _ _ _ => true
  | _ => false

/-- Since `s0` no reply line has been read and `setSlots` has not been called. -/
def NoReply (s0 s : Sender) : Prop :=
  ∃ d, s.trace = s0.trace ++ d ∧ d.all (fun e => !e.isReply) = true

/-! ## The phases of `sendChunk` -/

/-- The call `sendSnapshot(_slots)` made by `sendChunk`. -/
def snapshotPhase (env : Env) (s : Sender) : Status × Sender := sendSnapshot env s.slots s

/-- The call `sendBinlog(maxTime)` made by `sendChunk` once the snapshot is sent. -/
def binlogPhase (env : Env) (s : Sender) : Run Status :=
  sendBinlog env 10 (setSenderStatus .SNAPSHOT_DONE (snapshotPhase env s).2)

/-- The call `sendOver()` made by `sendChunk` once the binlog is sent. -/
def overPhase (env : Env) (s : Sender) : Status × Sender :=
  sendOver env (setSenderStatus .BINLOG_DONE (binlogPhase env s).state)

/-- The call `unlockChunks(_slots)` made by `sendChunk` after a successful `sendOver`. -/
def unlockPhase (env : Env) (s : Sender) : Status × Sender :=
  unlockChunks env (overPhase env s).2

/-! ## Scenarios -/

/-- A cluster of four slots in which every collaborator succeeds: slot 3 holds two
records, the binlog stays at id 5, the peer acks everything, and no slot belongs
to the destination yet. -/
def quietEnv : Env :=
  { CLUSTER_SLOTS := 4, migrateDistance := 50, timeoutSecBinlogWaitRsp := 30,
    failedValue := none,
    getDb := fun _ => .value (),
    createTransaction := fun _ => .value (),
    getHighestBinlogId := fun _ => 5,
    createSlotsCursor := fun _ b _ =>
      if b = 3 then [.value ⟨"k1", "v1"⟩, .value ⟨"k2", "v2"⟩] else [],
    writeData := fun _ => ⟨.ERR_OK, ""⟩,
    read := fun _ => .value "+OK",
    readLine := fun _ => .value "+OK",
    SendSlotsBinlog := fun _ => .value 0,
    getMaxBinlogId := fun _ => .value 5,
    lockChunks := fun _ => ⟨.ERR_OK, ""⟩,
    unlockChunks := fun _ => ⟨.ERR_OK, ""⟩,
    getNodeBySlot := fun _ => 0,
    setSlots := fun _ => ⟨.ERR_OK, ""⟩,
    delKV := fun _ => ⟨.ERR_OK, ""⟩,
    commit := fun _ => .value 0 }

/-- A fresh sender for slot 3, destination node 7, destination store 1. -/
def sender3 : Sender := ChunkMigrateSender 8 0 1 7 0 0 0 0 0

/-- The scenario S4: the peer answers `migrateend` with `-ERR`. -/
def nackEnv : Env := { quietEnv with readLine := fun _ => .value "-ERR" }

/-- The scenario S5: the cluster state already names node 7 as owner of every slot. -/
def ownedEnv : Env := { quietEnv with getNodeBySlot := fun _ => 7 }

/-- The scenario S3: the store gains 1000 binlog ids between any two looks at it,
far more than the migrate distance 50. -/
def stormEnv : Env :=
  { quietEnv with
    getHighestBinlogId := fun k => 1000 * (k + 1),
    getMaxBinlogId := fun k => .value (1000 * (k + 3)),
    SendSlotsBinlog := fun _ => .value 1000 }

/-- The last binlog shipment fails: three ids are left after the lock is taken and
`SendSlotsBinlog` answers with a network error. -/
def lastShipmentFailsEnv (failedValue : Option Nat) : Env :=
  { quietEnv with
    failedValue := failedValue,
    getMaxBinlogId := fun _ => .value 8,
    SendSlotsBinlog := fun _ => .error ⟨.ERR_NETWORK, "send binlog failed"⟩ rfl }

/-- A sender for slot 3 whose snapshot watermark is 5. -/
def sender3AfterSnapshot : Sender := { sender3 with curBinlogid := 5 }

/-- The shard cannot be opened: `getDb` answers with an internal error. -/
def noDbEnv : Env :=
  { quietEnv with getDb := fun _ => .error ⟨.ERR_INTERNAL, "getDb failed"⟩ rfl }

/-- As many records as a `uint32_t` counter cannot count: 2^32 of them. The list is
only reasoned about (through its length), never evaluated. -/
def manyRecords : List Record := List.replicate (2 ^ 32) ⟨"k", "v"⟩

/-- A cluster of one slot that holds `manyRecords`; every collaborator succeeds. -/
def crowdedEnv : Env :=
  { quietEnv with
    CLUSTER_SLOTS := 1,
    createSlotsCursor := fun _ _ _ => manyRecords.map Expected.value }

/-- A fresh sender for slot 0. -/
def sender0 : Sender := ChunkMigrateSender 1 0 1 7 0 0 0 0 0

/-- A sender for slot 3 that enters the catch-up loop behind the store: its snapshot
watermark is 3 and the store has been asked once for its highest binlog id. -/
def lateSender : Sender := { sender3 with curBinlogid := 3, nHighest := 1 }

/-- The binlog of the snapshot transaction is empty: `getMaxBinlogId` reports
`ERR_EXHAUST`, so `getMaxBinLog` gives 0. -/
def drainedEnv : Env :=
  { quietEnv with getMaxBinlogId := fun _ => .error ⟨.ERR_EXHAUST, "no binlog"⟩ rfl }

/-- The cursor of slot 3 breaks after its first record: it answers with an internal
error, not with exhausted. -/
def brokenCursorEnv : Env :=
  { quietEnv with
    createSlotsCursor := fun _ b _ =>
      if b = 3 then
        [.value ⟨"k1", "v1"⟩, .error ⟨.ERR_INTERNAL, "cursor broken"⟩ rfl,
         .value ⟨"k2", "v2"⟩]
      else [] }

/-- The first ack of the peer is not `+OK`. -/
def badAckEnv : Env :=
  { quietEnv with read := fun k => if k = 0 then .value "-ERR" else .value "+OK" }

/-- The peer never answers `migrateend`: `readLine` fails. -/
def deafEnv : Env :=
  { quietEnv with readLine := fun _ => .error ⟨.ERR_NETWORK, "no reply"⟩ rfl }

/-- A fresh sender with the empty bitmap. -/
def senderNone : Sender := ChunkMigrateSender 0 0 1 7 0 0 0 0 0

/-! # Lemmas -/

theorem Status.ok_mk (c : ErrorCodes) (r : String) :
    (Status.mk c r).ok = decide (c = ErrorCodes.ERR_OK) := rfl

/-! ## Frame lemmas -/

theorem Same.refl (s : Sender) : Same s s := ⟨rfl, rfl, rfl, rfl, rfl⟩

theorem Same.trans {a b c : Sender} (h1 : Same a b) (h2 : Same b c) : Same a c :=
  ⟨h2.sendstate.trans h1.sendstate, h2.slots.trans h1.slots, h2.dstNode.trans h1.dstNode,
   h2.dstStoreid.trans h1.dstStoreid, h2.writes.trans h1.writes⟩

theorem statusWrites_append (a b : List Event) :
    statusWrites (a ++ b) = statusWrites a ++ statusWrites b := by
  simp [statusWrites, List.filterMap_append]

theorem Same.step {s0 s s' : Sender} (h0 : Same s0 s) (Δ : List Event)
    (h1 : s'.sendstate = s.sendstate) (h2 : s'.slots = s.slots) (h3 : s'.dstNode = s.dstNode)
    (h4 : s'.dstStoreid = s.dstStoreid) (h5 : s'.trace = s.trace ++ Δ)
    (h6 : statusWrites Δ = []) : Same s0 s' :=
  ⟨h1.trans h0.sendstate, h2.trans h0.slots, h3.trans h0.dstNode, h4.trans h0.dstStoreid, by
    rw [h5, statusWrites_append, h6, List.append_nil, h0.writes]⟩

theorem SyncWriteData_same {ρ : Type} (fail : (st : Status) → st.ok = false → ρ) (env : Env)
    (d : Payload) (s0 s : Sender) (k : Sender → ρ × Sender) (h0 : Same s0 s)
    (hk : ∀ s1, Same s0 s1 → Same s0 (k s1).2) :
    Same s0 (SyncWriteData fail env d s k).2 := by
  unfold SyncWriteData
  split
  · exact hk _ (h0.step [_] rfl rfl rfl rfl rfl rfl)
  · exact h0.step [_] rfl rfl rfl rfl rfl rfl

theorem SyncReadData_same {ρ : Type} (fail : (st : Status) → st.ok = false → ρ) (env : Env)
    (len t : Nat) (s0 s : Sender) (k : String → Sender → ρ × Sender) (h0 : Same s0 s)
    (hk : ∀ v s1, Same s0 s1 → Same s0 (k v s1).2) :
    Same s0 (SyncReadData fail env len t s k).2 := by
  unfold SyncReadData
  split
  · exact hk _ _ (h0.step [_] rfl rfl rfl rfl rfl rfl)
  · exact h0.step [_] rfl rfl rfl rfl rfl rfl

theorem sendRangeEnd_same (env : Env) (n : Nat) (s0 s : Sender) (h0 : Same s0 s) :
    Same s0 (sendRangeEnd env n s).2 := by
  unfold sendRangeEnd
  apply SyncWriteData_same _ _ _ _ _ _ h0
  intro s1 h1
  apply SyncReadData_same _ _ _ _ _ _ _ h1
  intro v s2 h2
  split <;> exact h2

theorem sendRangeLoop_same (env : Env) (l : List (Expected Record)) :
    ∀ (total cur : Nat) (s0 s : Sender), Same s0 s →
      Same s0 (sendRangeLoop env l total cur s).2 := by
  induction l with
  | nil => intro total cur s0 s h0; exact sendRangeEnd_same env total s0 s h0
  | cons x rest ih =>
    intro total cur s0 s h0
    cases x with
    | error st h =>
      simp only [sendRangeLoop]
      split
      · exact sendRangeEnd_same env total s0 s h0
      · exact h0
    | value rcd =>
      simp only [sendRangeLoop]
      apply SyncWriteData_same _ _ _ _ _ _ h0; intro s1 h1
      apply SyncWriteData_same _ _ _ _ _ _ h1; intro s2 h2
      apply SyncWriteData_same _ _ _ _ _ _ h2; intro s3 h3
      apply SyncWriteData_same _ _ _ _ _ _ h3; intro s4 h4
      apply SyncWriteData_same _ _ _ _ _ _ h4; intro s5 h5
      split
      · apply SyncWriteData_same _ _ _ _ _ _ h5; intro s6 h6
        apply SyncReadData_same _ _ _ _ _ _ _ h6; intro v s7 h7
        split
        · exact h7
        · exact ih _ _ _ _ h7
      · exact ih _ _ _ _ h5

theorem sendRange_same (env : Env) (txn b e : Nat) (s0 s : Sender) (h0 : Same s0 s) :
    Same s0 (sendRange env txn b e s).2 := by
  unfold sendRange
  apply sendRangeLoop_same
  exact h0.step [_] rfl rfl rfl rfl rfl rfl

theorem sendSnapshotEnd_same (env : Env) (s0 s : Sender) (h0 : Same s0 s) :
    Same s0 (sendSnapshotEnd env s).2 := by
  unfold sendSnapshotEnd
  apply SyncWriteData_same _ _ _ _ _ _ h0
  intro s1 h1
  apply SyncReadData_same _ _ _ _ _ _ _ h1
  intro v s2 h2
  split <;> exact h2

theorem sendSnapshotLoop_same (env : Env) (slots txn : Nat) (l : List Nat) :
    ∀ (s0 s : Sender), Same s0 s → Same s0 (sendSnapshotLoop env slots txn l s).2 := by
  induction l with
  | nil => intro s0 s h0; exact sendSnapshotEnd_same env s0 s h0
  | cons i rest ih =>
    intro s0 s h0
    simp only [sendSnapshotLoop]
    split
    · have hr := sendRange_same env txn i (i + 1) s0 s h0
      split
      · next st hst s1 heq => rw [heq] at hr; exact hr
      · next n s1 heq =>
        rw [heq] at hr
        apply ih
        exact hr.step [] rfl rfl rfl rfl (List.append_nil _).symm rfl
    · exact ih _ _ h0

theorem sendSnapshot_same (env : Env) (slots : Nat) (s : Sender) :
    Same s (sendSnapshot env slots s).2 := by
  unfold sendSnapshot initTxn
  dsimp only
  split
  · exact ⟨rfl, rfl, rfl, rfl, by simp [statusWrites]⟩
  · split
    · next st hst s3 heq =>
      split at heq
      · cases heq
        exact ⟨rfl, rfl, rfl, rfl, by simp [statusWrites]⟩
      · cases heq
    · next txn s3 heq =>
      split at heq
      · cases heq
      · cases heq
        apply sendSnapshotLoop_same
        exact ⟨rfl, rfl, rfl, rfl, by simp [statusWrites]⟩

theorem getMaxBinLog_same (env : Env) (s0 s : Sender) (h0 : Same s0 s) :
    Same s0 (getMaxBinLog env s).state := by
  have hs : Same s0
      { s with nMaxBinlog := s.nMaxBinlog + 1,
               trace := s.trace ++ [Event.getMaxBinlogId (env.getMaxBinlogId s.nMaxBinlog)] } :=
    h0.step [_] rfl rfl rfl rfl rfl rfl
  unfold getMaxBinLog
  dsimp only
  split
  · exact hs
  · split
    · exact hs
    · split <;> exact hs

theorem catchupBinlog_same (env : Env) (a b sl : Nat) (s0 s : Sender) (h0 : Same s0 s) :
    Same s0 (catchupBinlog env a b sl s).state := by
  have hs : Same s0
      { s with nSendBinlog := s.nSendBinlog + 1,
               trace := s.trace ++
                 [Event.SendSlotsBinlog a b sl (env.SendSlotsBinlog s.nSendBinlog)] } :=
    h0.step [_] rfl rfl rfl rfl rfl rfl
  unfold catchupBinlog
  dsimp only
  split
  · exact hs
  · split <;> exact hs

/-- The `Expected` that `catchupBinlog` returns always holds a value. -/
theorem catchupBinlog_value (env : Env) (a b sl : Nat) (s s' : Sender) (e : Expected Nat)
    (h : catchupBinlog env a b sl s = .ret e s') : ∃ v, e = .value v := by
  unfold catchupBinlog at h
  dsimp only at h
  split at h
  · cases h; exact ⟨_, rfl⟩
  · split at h
    · cases h; exact ⟨_, rfl⟩
    · cases h

theorem pursueBinLogLoop_same (env : Env) (n : Nat) :
    ∀ (high : Nat) (fin : Bool) (s0 s : Sender), Same s0 s →
      Same s0 (pursueBinLogLoop env n high fin s).state := by
  induction n with
  | zero => intro high fin s0 s h0; exact h0
  | succ n ih =>
    intro high fin s0 s h0
    have hc := catchupBinlog_same env s.curBinlogid high s.slots s0 s h0
    simp only [pursueBinLogLoop]
    split
    · next s1 heq => rw [heq] at hc; exact hc
    · next s1 heq => rw [heq] at hc; exact hc
    · next sendNum s1 heq =>
      rw [heq] at hc
      have h2 : Same s0
          { s1 with binlogNum := (s1.binlogNum + sendNum) % 2 ^ 64,
                    curBinlogid := high,
                    nHighest := s1.nHighest + 1,
                    trace := s1.trace ++
                      [Event.getHighestBinlogId (env.getHighestBinlogId s1.nHighest % 2 ^ 64)] } :=
        hc.step [_] rfl rfl rfl rfl rfl rfl
      have hm := getMaxBinLog_same env s0 _ h2
      split
      · next s3 heq2 => rw [heq2] at hm; exact hm
      · next m s3 heq2 =>
        rw [heq2] at hm
        split
        · exact hm.step [] rfl rfl rfl rfl (List.append_nil _).symm rfl
        · exact ih _ _ _ _ hm

/-- The flag `finishCatchup` that `pursueBinLog` returns is `true` whenever it returns:
it starts as `true` and no pass clears it. -/
theorem pursueBinLogLoop_true (env : Env) (n : Nat) :
    ∀ (high : Nat) (s s' : Sender) (b : Bool) (h : Nat),
      pursueBinLogLoop env n high true s = .ret (b, h) s' → b = true := by
  induction n with
  | zero =>
    intro high s s' b h heq
    simp only [pursueBinLogLoop] at heq
    cases heq; rfl
  | succ n ih =>
    intro high s s' b h heq
    simp only [pursueBinLogLoop] at heq
    split at heq
    · cases heq
    · next st hst s1 hc =>
      obtain ⟨v, hv⟩ := catchupBinlog_value env _ _ _ _ _ _ hc
      cases hv
    · split at heq
      · cases heq
      · split at heq
        · cases heq; rfl
        · exact ih _ _ _ _ _ heq

theorem sendBinlogLocked_same (env : Env) (txnOk : Bool) (s0 s : Sender) (h0 : Same s0 s) :
    Same s0 (sendBinlogLocked env txnOk s).state := by
  have h1 : Same s0
      { s with nLock := s.nLock + 1,
               trace := s.trace ++ [Event.lockChunks s.slots (env.lockChunks s.nLock)] } :=
    h0.step [_] rfl rfl rfl rfl rfl rfl
  unfold sendBinlogLocked
  dsimp only
  split
  · exact h1
  · split
    · exact h1
    · have hm := getMaxBinLog_same env s0 _ h1
      split
      · next s2 heq => rw [heq] at hm; exact hm
      · next m s2 heq =>
        rw [heq] at hm
        split
        · have hc := catchupBinlog_same env s2.curBinlogid m s2.slots s0 s2 hm
          split
          · next s3 heq3 => rw [heq3] at hc; exact hc
          · next s3 heq3 =>
            rw [heq3] at hc
            exact hc.step [_] rfl rfl rfl rfl rfl rfl
          · next v s3 heq3 =>
            rw [heq3] at hc
            exact hc.step [] rfl rfl rfl rfl (List.append_nil _).symm rfl
        · exact hm

theorem sendBinlog_same (env : Env) (maxTime : Nat) (s : Sender) :
    Same s (sendBinlog env maxTime s).state := by
  have h1 : Same s
      { s with nTxn := s.nTxn + 1,
               nHighest := s.nHighest + 1,
               trace := s.trace ++ [Event.createTransaction (env.createTransaction s.nTxn),
                 Event.getHighestBinlogId (env.getHighestBinlogId s.nHighest % 2 ^ 64)] } :=
    (Same.refl s).step [_, _] rfl rfl rfl rfl rfl rfl
  unfold sendBinlog
  dsimp only
  split
  · split
    · exact h1
    · have hp := pursueBinLogLoop_same env maxTime
        (env.getHighestBinlogId s.nHighest % 2 ^ 64) true s _ h1
      unfold pursueBinLog
      split
      · next s2 heq => rw [heq] at hp; exact hp
      · next c hh s2 heq =>
        rw [heq] at hp
        split
        · exact hp
        · exact sendBinlogLocked_same env _ s s2 hp
  · exact sendBinlogLocked_same env _ s _ h1

/-- What `sendBinlogLocked` can return: the lock error, or success. -/
theorem sendBinlogLocked_status (env : Env) (txnOk : Bool) (s s' : Sender) (st : Status)
    (h : sendBinlogLocked env txnOk s = .ret st s') :
    st = ⟨.ERR_CLUSTER, "fail lock slots"⟩ ∨ st = ⟨.ERR_OK, ""⟩ := by
  unfold sendBinlogLocked at h
  dsimp only at h
  split at h
  · cases h; exact Or.inl rfl
  · split at h
    · cases h
    · split at h
      · cases h
      · split at h
        · split at h
          · cases h
          · next st1 hst1 s3 hc =>
            obtain ⟨v, hv⟩ := catchupBinlog_value env _ _ _ _ _ _ hc
            cases hv
          · cases h; exact Or.inr rfl
        · cases h; exact Or.inr rfl

/-- What `sendBinlog` can return: the lock error, or success; never a timeout and
never a network error. -/
theorem sendBinlog_status (env : Env) (maxTime : Nat) (s s' : Sender) (st : Status)
    (h : sendBinlog env maxTime s = .ret st s') :
    st = ⟨.ERR_CLUSTER, "fail lock slots"⟩ ∨ st = ⟨.ERR_OK, ""⟩ := by
  unfold sendBinlog at h
  dsimp only at h
  split at h
  · split at h
    · cases h
    · unfold pursueBinLog at h
      split at h
      · cases h
      · next c hh s2 heq =>
        have hc := pursueBinLogLoop_true env _ _ _ _ _ _ heq
        subst hc
        simp only [Bool.not_true, Bool.false_eq_true, if_false] at h
        exact sendBinlogLocked_status env _ _ _ _ h
  · exact sendBinlogLocked_status env _ _ _ _ h

theorem sendOver_same (env : Env) (s : Sender) : Same s (sendOver env s).2 := by
  unfold sendOver
  dsimp only
  split
  · exact ⟨rfl, rfl, rfl, rfl, by simp [statusWrites]⟩
  · split
    · exact ⟨rfl, rfl, rfl, rfl, by simp [statusWrites]⟩
    · split
      · exact ⟨rfl, rfl, rfl, rfl, by simp [statusWrites]⟩
      · split
        · exact ⟨rfl, rfl, rfl, rfl, by simp [statusWrites]⟩
        · split <;> exact ⟨rfl, rfl, rfl, rfl, by simp [statusWrites]⟩

theorem setSenderStatus_same_fields (st : MigrateSenderStatus) (s : Sender) :
    (setSenderStatus st s).slots = s.slots ∧ (setSenderStatus st s).dstNode = s.dstNode ∧
    (setSenderStatus st s).dstStoreid = s.dstStoreid ∧
    (setSenderStatus st s).sendstate = st ∧
    statusWrites (setSenderStatus st s).trace = statusWrites s.trace ++ [st] := by
  simp [setSenderStatus, statusWrites]

theorem unlockChunks_same (env : Env) (s : Sender) : Same s (unlockChunks env s).2 :=
  (Same.refl s).step [_] rfl rfl rfl rfl rfl rfl

/-- The six ways `sendChunk` can end, in terms of its four phases. -/
theorem sendChunk_cases (env : Env) (s : Sender) :
    ((snapshotPhase env s).1.ok = false ∧
      sendChunk env s = .ret (snapshotPhase env s).1 (snapshotPhase env s).2) ∨
    ((snapshotPhase env s).1.ok = true ∧ ∃ s2, binlogPhase env s = .abort s2 ∧
      sendChunk env s = .abort s2) ∨
    ((snapshotPhase env s).1.ok = true ∧ ∃ st s2, binlogPhase env s = .ret st s2 ∧
      st.ok = false ∧ sendChunk env s = .ret st s2) ∨
    ((snapshotPhase env s).1.ok = true ∧ ∃ st s2, binlogPhase env s = .ret st s2 ∧
      st.ok = true ∧ (overPhase env s).1.ok = false ∧
      ∃ st', st'.ok = false ∧ st'.code = (overPhase env s).1.code ∧
        sendChunk env s = .ret st' (overPhase env s).2) ∨
    ((snapshotPhase env s).1.ok = true ∧ ∃ st s2, binlogPhase env s = .ret st s2 ∧
      st.ok = true ∧ (overPhase env s).1.ok = true ∧ (unlockPhase env s).1.ok = false ∧
      sendChunk env s = .ret ⟨.ERR_CLUSTER, "unlock fail on slots"⟩ (unlockPhase env s).2) ∨
    ((snapshotPhase env s).1.ok = true ∧ ∃ st s2, binlogPhase env s = .ret st s2 ∧
      st.ok = true ∧ (overPhase env s).1.ok = true ∧ (unlockPhase env s).1.ok = true ∧
      sendChunk env s =
        .ret ⟨.ERR_OK, ""⟩ (setSenderStatus .METACHANGE_DONE (unlockPhase env s).2)) := by
  cases h1 : (snapshotPhase env s).1.ok
  · left
    refine ⟨rfl, ?_⟩
    unfold snapshotPhase at h1
    simp [sendChunk, snapshotPhase, h1]
  · right
    unfold snapshotPhase at h1
    cases h2 : binlogPhase env s with
    | abort s2 =>
      left
      refine ⟨rfl, s2, rfl, ?_⟩
      unfold binlogPhase snapshotPhase at h2
      simp [sendChunk, h1, h2]
    | ret st s2 =>
      right
      cases h3 : st.ok
      · left
        refine ⟨rfl, st, s2, rfl, h3, ?_⟩
        unfold binlogPhase snapshotPhase at h2
        simp [sendChunk, h1, h2, h3]
      · right
        have hst : (binlogPhase env s).state = s2 := by rw [h2]; rfl
        cases h4 : (overPhase env s).1.ok
        · left
          refine ⟨rfl, st, s2, rfl, h3, rfl, ?_⟩
          unfold overPhase at h4 ⊢
          rw [hst] at h4 ⊢
          unfold binlogPhase snapshotPhase at h2
          by_cases hc : (sendOver env (setSenderStatus .BINLOG_DONE s2)).1.code = .ERR_CLUSTER
          · exact ⟨⟨.ERR_CLUSTER, "send over fail on"⟩, rfl, hc.symm, by
              simp [sendChunk, h1, h2, h3, h4, hc]⟩
          · exact ⟨_, h4, rfl, by simp [sendChunk, h1, h2, h3, h4, hc]⟩
        · right
          cases h5 : (unlockPhase env s).1.ok
          · left
            refine ⟨rfl, st, s2, rfl, h3, rfl, rfl, ?_⟩
            unfold unlockPhase at h5 ⊢
            unfold overPhase at h4 h5 ⊢
            rw [hst] at h4 h5 ⊢
            unfold binlogPhase snapshotPhase at h2
            simp [sendChunk, h1, h2, h3, h4, h5]
          · right
            refine ⟨rfl, st, s2, rfl, h3, rfl, rfl, ?_⟩
            unfold unlockPhase at h5 ⊢
            unfold overPhase at h4 h5 ⊢
            rw [hst] at h4 h5 ⊢
            unfold binlogPhase snapshotPhase at h2
            simp [sendChunk, h1, h2, h3, h4, h5]

/-- What the phases of `sendChunk` leave alone, and the status each one runs in. -/
theorem phase_frames (env : Env) (s : Sender) :
    Same s (snapshotPhase env s).2 ∧
    ((binlogPhase env s).state.sendstate = .SNAPSHOT_DONE ∧
      (binlogPhase env s).state.slots = s.slots ∧
      (binlogPhase env s).state.dstNode = s.dstNode ∧
      (binlogPhase env s).state.dstStoreid = s.dstStoreid ∧
      statusWrites (binlogPhase env s).state.trace =
        statusWrites s.trace ++ [.SNAPSHOT_DONE]) ∧
    ((overPhase env s).2.sendstate = .BINLOG_DONE ∧
      (overPhase env s).2.slots = s.slots ∧
      (overPhase env s).2.dstNode = s.dstNode ∧
      (overPhase env s).2.dstStoreid = s.dstStoreid ∧
      statusWrites (overPhase env s).2.trace =
        statusWrites s.trace ++ [.SNAPSHOT_DONE, .BINLOG_DONE]) ∧
    ((unlockPhase env s).2.sendstate = .BINLOG_DONE ∧
      (unlockPhase env s).2.slots = s.slots ∧
      statusWrites (unlockPhase env s).2.trace =
        statusWrites s.trace ++ [.SNAPSHOT_DONE, .BINLOG_DONE]) := by
  have hS : Same s (snapshotPhase env s).2 := sendSnapshot_same env s.slots s
  have hB := sendBinlog_same env 10 (setSenderStatus .SNAPSHOT_DONE (snapshotPhase env s).2)
  have hO := sendOver_same env (setSenderStatus .BINLOG_DONE (binlogPhase env s).state)
  have hU := unlockChunks_same env (overPhase env s).2
  have e1 := setSenderStatus_same_fields .SNAPSHOT_DONE (snapshotPhase env s).2
  have e2 := setSenderStatus_same_fields .BINLOG_DONE (binlogPhase env s).state
  have b1 : (binlogPhase env s).state.sendstate = .SNAPSHOT_DONE := hB.sendstate.trans e1.2.2.2.1
  have b2 : (binlogPhase env s).state.slots = s.slots := (hB.slots.trans e1.1).trans hS.slots
  have b3 : (binlogPhase env s).state.dstNode = s.dstNode :=
    (hB.dstNode.trans e1.2.1).trans hS.dstNode
  have b4 : (binlogPhase env s).state.dstStoreid = s.dstStoreid :=
    (hB.dstStoreid.trans e1.2.2.1).trans hS.dstStoreid
  have b5 : statusWrites (binlogPhase env s).state.trace =
      statusWrites s.trace ++ [.SNAPSHOT_DONE] := by
    rw [← hS.writes]; exact hB.writes.trans e1.2.2.2.2
  have o1 : (overPhase env s).2.sendstate = .BINLOG_DONE := hO.sendstate.trans e2.2.2.2.1
  have o2 : (overPhase env s).2.slots = s.slots := (hO.slots.trans e2.1).trans b2
  have o3 : (overPhase env s).2.dstNode = s.dstNode := (hO.dstNode.trans e2.2.1).trans b3
  have o4 : (overPhase env s).2.dstStoreid = s.dstStoreid :=
    (hO.dstStoreid.trans e2.2.2.1).trans b4
  have o5 : statusWrites (overPhase env s).2.trace =
      statusWrites s.trace ++ [.SNAPSHOT_DONE, .BINLOG_DONE] := by
    have := hO.writes.trans e2.2.2.2.2
    rw [b5] at this
    simpa using this
  exact ⟨hS, ⟨b1, b2, b3, b4, b5⟩, ⟨o1, o2, o3, o4, o5⟩,
    ⟨hU.sendstate.trans o1, hU.slots.trans o2, hU.writes.trans o5⟩⟩

theorem checkSlotsBlongDst_iff (env : Env) (dstNode slots : Nat) :
    checkSlotsBlongDst env dstNode slots = true ↔
      ∀ i, i < env.CLUSTER_SLOTS → slots.testBit i = true → env.getNodeBySlot i = dstNode := by
  simp only [checkSlotsBlongDst, List.all_eq_true, List.mem_range]
  constructor
  · intro h i hi ht
    have := h i hi
    simpa [ht] using this
  · intro h i hi
    cases ht : slots.testBit i
    · simp
    · simpa using h i hi ht

/-- A successful `sendOver`: the write went through, and either the cluster state
already named the destination, or the peer said `+OK` and `setSlots` succeeded. -/
theorem sendOver_ok (env : Env) (s : Sender) (h : (sendOver env s).1.ok = true) :
    (env.writeData s.nWrite).ok = true ∧
    ((checkSlotsBlongDst env s.dstNode s.slots = true ∧
        (sendOver env s).2.trace = s.trace ++
          [Event.writeData (.str (migrateendCommand env s)) (env.writeData s.nWrite)]) ∨
     ((env.setSlots s.nSetSlots).ok = true ∧
        (sendOver env s).2.trace = s.trace ++
          [Event.writeData (.str (migrateendCommand env s)) (env.writeData s.nWrite),
           Event.readLine env.timeoutSecBinlogWaitRsp (.value "+OK"),
           Event.setSlots s.dstNode s.slots (env.setSlots s.nSetSlots)])) := by
  cases hw : (env.writeData s.nWrite).ok
  · simp [sendOver, hw] at h
  · refine ⟨rfl, ?_⟩
    cases hc : checkSlotsBlongDst env s.dstNode s.slots
    · right
      cases hr : env.readLine s.nReadLine with
      | error st hst => simp [sendOver, hw, hc, hr, Status.ok_mk] at h
      | value line =>
        by_cases hl : line = "+OK"
        · subst hl
          cases hs : (env.setSlots s.nSetSlots).ok
          · simp [sendOver, hw, hc, hr, hs, Status.ok_mk] at h
          · simp [sendOver, hw, hc, hr, hs]
        · simp [sendOver, hw, hc, hr, hl, Status.ok_mk] at h
    · left
      simp [sendOver, hw, hc]

theorem setSenderStatus_trace (st : MigrateSenderStatus) (s : Sender) :
    (setSenderStatus st s).trace = s.trace ++ [Event.setStatus st] := rfl

theorem unlockChunks_trace (env : Env) (s : Sender) :
    (unlockChunks env s).2.trace =
      s.trace ++ [Event.unlockChunks s.slots (unlockChunks env s).1] := rfl

theorem migrateendCommand_congr (env : Env) (s s' : Sender) (h1 : s'.slots = s.slots)
    (h2 : s'.dstStoreid = s.dstStoreid) : migrateendCommand env s' = migrateendCommand env s := by
  simp [migrateendCommand, h1, h2]

/-! ## The snapshot framing -/

theorem SyncWriteData_ok {ρ : Type} (fail : (st : Status) → st.ok = false → ρ) (env : Env)
    (d : Payload) (s : Sender) (k : Sender → ρ × Sender)
    (hw : (env.writeData s.nWrite).ok = true) :
    SyncWriteData fail env d s k = k (writeData env d s).2 := by
  have : (writeData env d s).1.ok = true := hw
  simp [SyncWriteData, this]

theorem SyncReadData_value {ρ : Type} (fail : (st : Status) → st.ok = false → ρ) (env : Env)
    (len t : Nat) (s : Sender) (k : String → Sender → ρ × Sender) (v : String)
    (hr : env.read s.nRead = .value v) :
    SyncReadData fail env len t s k = k v (readData env len t s).2 := by
  have : (readData env len t s).1 = .value v := hr
  simp [SyncReadData, this]

theorem writeData_trace (env : Env) (d : Payload) (s : Sender) :
    (writeData env d s).2.trace = s.trace ++ [Event.writeData d (env.writeData s.nWrite)] := rfl

theorem readData_trace (env : Env) (len t : Nat) (s : Sender) :
    (readData env len t s).2.trace = s.trace ++ [Event.read len t (env.read s.nRead)] := rfl

/-- The number of ack reads among the frames of records `done+1 .. done+n`. -/
theorem recordFrames_reads (recs : List Record) :
    ∀ done : Nat, ((recordFrames done recs).filter Wire.isRead).length =
      (done + recs.length) / 1000 - done / 1000 := by
  induction recs with
  | nil => intro done; simp [recordFrames]
  | cons r rest ih =>
    intro done
    simp only [recordFrames, List.filter_append, List.length_append, ih (done + 1),
      List.length_cons]
    have h1 : ((recordFrame r).filter Wire.isRead).length = 0 := by
      simp [recordFrame, Wire.isRead]
    rw [h1]
    have hmono : (done + 1) / 1000 ≤ (done + 1 + rest.length) / 1000 :=
      Nat.div_le_div_right (by omega)
    by_cases hb : (done + 1) % 1000 = 0
    · simp only [hb, if_true]
      have h2 : (batchAck.filter Wire.isRead).length = 1 := by
        simp [batchAck, Wire.isRead]
      rw [h2]
      have : (done + (rest.length + 1)) = done + 1 + rest.length := by omega
      rw [this]
      omega
    · simp only [hb, if_false]
      have : (done + (rest.length + 1)) = done + 1 + rest.length := by omega
      rw [this]
      simp
      omega

theorem sendRangeEnd_all_ok (env : Env) (hw : ∀ k, (env.writeData k).ok = true)
    (hr : ∀ k, env.read k = .value "+OK") (total : Nat) (s : Sender) :
    (sendRangeEnd env total s).1 = .value total ∧
    ∃ Δ, (sendRangeEnd env total s).2.trace = s.trace ++ Δ ∧
      Δ.map Event.wire = slotEnd.map some := by
  unfold sendRangeEnd
  rw [SyncWriteData_ok _ _ _ _ _ (hw _), SyncReadData_value _ _ _ _ _ _ "+OK" (hr _)]
  simp only [ne_eq, not_true_eq_false, if_false]
  refine ⟨trivial, _, by rw [readData_trace, writeData_trace, List.append_assoc], ?_⟩
  simp [slotEnd, Event.wire]

theorem sendRangeLoop_all_ok (env : Env) (hw : ∀ k, (env.writeData k).ok = true)
    (hr : ∀ k, env.read k = .value "+OK") (tl : List (Expected Record)) (htl : Exhausted tl)
    (recs : List Record) :
    ∀ (total cur done : Nat) (s : Sender), total < 2 ^ 32 → cur = done % 1000 →
      (sendRangeLoop env (recs.map Expected.value ++ tl) total cur s).1 =
        .value ((total + recs.length) % 2 ^ 32) ∧
      ∃ Δ, (sendRangeLoop env (recs.map Expected.value ++ tl) total cur s).2.trace =
          s.trace ++ Δ ∧
        Δ.map Event.wire = (recordFrames done recs ++ slotEnd).map some := by
  induction recs with
  | nil =>
    intro total cur done s ht _
    have hend := sendRangeEnd_all_ok env hw hr total s
    have hmod : (total + 0) % 2 ^ 32 = total := Nat.mod_eq_of_lt ht
    rw [List.map_nil, List.nil_append, List.length_nil, hmod]
    simp only [recordFrames, List.nil_append]
    cases tl with
    | nil => rw [sendRangeLoop]; exact hend
    | cons x rest =>
      cases x with
      | value r => exact absurd htl (by simp [Exhausted])
      | error st h =>
        have hx : st.code = ErrorCodes.ERR_EXHAUST := htl
        rw [sendRangeLoop, if_pos hx]; exact hend
  | cons r rest ih =>
    intro total cur done s ht hcur
    rw [List.map_cons, List.cons_append]
    generalize rest.map Expected.value ++ tl = l at ih ⊢
    rw [sendRangeLoop]
    rw [SyncWriteData_ok _ _ _ _ _ (hw _), SyncWriteData_ok _ _ _ _ _ (hw _),
      SyncWriteData_ok _ _ _ _ _ (hw _), SyncWriteData_ok _ _ _ _ _ (hw _),
      SyncWriteData_ok _ _ _ _ _ (hw _)]
    have hlt : cur + 1 < 2 ^ 32 := by omega
    have hcm : (cur + 1) % 2 ^ 32 = cur + 1 := Nat.mod_eq_of_lt hlt
    have htot : (total + 1) % 2 ^ 32 < 2 ^ 32 := Nat.mod_lt _ (by norm_num)
    have hsum : ((total + 1) % 2 ^ 32 + rest.length) % 2 ^ 32 =
        (total + (r :: rest).length) % 2 ^ 32 := by
      rw [List.length_cons]; omega
    dsimp only
    by_cases hb : (done + 1) % 1000 = 0
    · have hge : (cur + 1) % 2 ^ 32 ≥ 1000 := by omega
      rw [if_pos hge, SyncWriteData_ok _ _ _ _ _ (hw _),
        SyncReadData_value _ _ _ _ _ _ "+OK" (hr _)]
      simp only [ne_eq, not_true_eq_false, if_false]
      obtain ⟨h1, Δ, h2, h3⟩ := ih ((total + 1) % 2 ^ 32) 0 (done + 1)
        (readData env 3 100 (writeData env (.str "1") (writeData env (.str r.value)
          (writeData env (.raw32 (r.value.length % 2 ^ 32)) (writeData env (.str r.key)
          (writeData env (.raw32 (r.key.length % 2 ^ 32))
          (writeData env (.str "0") s).2).2).2).2).2).2).2 htot (by omega)
      refine ⟨by rw [h1, hsum], _, by
        rw [h2]; simp only [readData_trace, writeData_trace, List.append_assoc]; rfl, ?_⟩
      simp [recordFrames, recordFrame, batchAck, hb, Event.wire, h3]
    · have hlt2 : ¬ (cur + 1) % 2 ^ 32 ≥ 1000 := by omega
      rw [if_neg hlt2]
      obtain ⟨h1, Δ, h2, h3⟩ :=
        ih ((total + 1) % 2 ^ 32) ((cur + 1) % 2 ^ 32) (done + 1)
        (writeData env (.str r.value)
          (writeData env (.raw32 (r.value.length % 2 ^ 32)) (writeData env (.str r.key)
          (writeData env (.raw32 (r.key.length % 2 ^ 32))
          (writeData env (.str "0") s).2).2).2).2).2 htot (by omega)
      refine ⟨by rw [h1, hsum], _, by
        rw [h2]; simp only [writeData_trace, List.append_assoc]; rfl, ?_⟩
      simp [recordFrames, recordFrame, hb, Event.wire, h3]

/-- What `sendRange` does on a cursor that yields `recs` and is then exhausted, when
every write succeeds and every ack is `+OK`. -/
theorem sendRange_all_ok (env : Env) (txn b e : Nat) (s : Sender) (recs : List Record)
    (tl : List (Expected Record))
    (hcur : env.createSlotsCursor txn b e = recs.map Expected.value ++ tl)
    (htl : Exhausted tl)
    (hw : ∀ k, (env.writeData k).ok = true) (hr : ∀ k, env.read k = .value "+OK") :
    (sendRange env txn b e s).1 = .value (recs.length % 2 ^ 32) ∧
    (∃ Δ, (sendRange env txn b e s).2.trace = s.trace ++ Event.createSlotsCursor txn b e :: Δ ∧
      Δ.map Event.wire = (rangeFrames recs).map some) ∧
    ((rangeFrames recs).filter Wire.isRead).length = recs.length / 1000 + 1 := by
  unfold sendRange
  dsimp only
  rw [hcur]
  obtain ⟨h1, Δ, h2, h3⟩ := sendRangeLoop_all_ok env hw hr tl htl recs 0 0 0
    { s with trace := s.trace ++ [Event.createSlotsCursor txn b e] } (by norm_num) rfl
  refine ⟨by simpa using h1, ⟨Δ, by simpa using h2, h3⟩, ?_⟩
  simp [rangeFrames, List.filter_append, recordFrames_reads, slotEnd, Wire.isRead]

/-! ## The snapshot as a whole -/

theorem SyncWriteData_inv {ρ : Type} (R : Sender → Prop)
    (fail : (st : Status) → st.ok = false → ρ) (env : Env)
    (d : Payload) (s : Sender) (k : Sender → ρ × Sender)
    (h1 : R (writeData env d s).2) (hk : R (writeData env d s).2 → R (k (writeData env d s).2).2) :
    R (SyncWriteData fail env d s k).2 := by
  unfold SyncWriteData
  split
  · exact hk h1
  · exact h1

theorem SyncReadData_inv {ρ : Type} (R : Sender → Prop)
    (fail : (st : Status) → st.ok = false → ρ) (env : Env)
    (len t : Nat) (s : Sender) (k : String → Sender → ρ × Sender)
    (h1 : R (readData env len t s).2)
    (hk : ∀ v, R (readData env len t s).2 → R (k v (readData env len t s).2).2) :
    R (SyncReadData fail env len t s k).2 := by
  unfold SyncReadData
  split
  · exact hk _ h1
  · exact h1

/-- Whatever every write and every read on the connection keep true, `sendRangeLoop`
keeps true. -/
theorem sendRangeLoop_inv (R : Sender → Prop) (env : Env)
    (hW : ∀ d s, R s → R (writeData env d s).2)
    (hR : ∀ len t s, R s → R (readData env len t s).2) (l : List (Expected Record)) :
    ∀ (total cur : Nat) (s : Sender), R s → R (sendRangeLoop env l total cur s).2 := by
  have hend : ∀ total s, R s → R (sendRangeEnd env total s).2 := by
    intro total s h
    unfold sendRangeEnd
    apply SyncWriteData_inv R _ _ _ _ _ (hW _ _ h); intro h1
    apply SyncReadData_inv R _ _ _ _ _ _ (hR _ _ _ h1); intro v h2
    split <;> exact h2
  induction l with
  | nil => intro total cur s h; rw [sendRangeLoop]; exact hend _ _ h
  | cons x rest ih =>
    intro total cur s h
    cases x with
    | error st hst =>
      rw [sendRangeLoop]
      split
      · exact hend _ _ h
      · exact h
    | value rcd =>
      rw [sendRangeLoop]
      apply SyncWriteData_inv R _ _ _ _ _ (hW _ _ h); intro h1
      apply SyncWriteData_inv R _ _ _ _ _ (hW _ _ h1); intro h2
      apply SyncWriteData_inv R _ _ _ _ _ (hW _ _ h2); intro h3
      apply SyncWriteData_inv R _ _ _ _ _ (hW _ _ h3); intro h4
      apply SyncWriteData_inv R _ _ _ _ _ (hW _ _ h4); intro h5
      dsimp only
      split
      · apply SyncWriteData_inv R _ _ _ _ _ (hW _ _ h5); intro h6
        apply SyncReadData_inv R _ _ _ _ _ _ (hR _ _ _ h6); intro v h7
        split
        · exact h7
        · exact ih _ _ _ h7
      · exact ih _ _ _ h5

theorem cursorCalls_append (a b : List Event) :
    cursorCalls (a ++ b) = cursorCalls a ++ cursorCalls b := by
  simp [cursorCalls, List.filterMap_append]

theorem written_append (a b : List Event) : written (a ++ b) = written a ++ written b := by
  simp [written, List.filterMap_append]

/-- A `sendRange` leaves `_snapshotKeyNum` alone and makes one cursor. -/
theorem sendRange_calls (env : Env) (txn b e : Nat) (s : Sender) :
    (sendRange env txn b e s).2.snapshotKeyNum = s.snapshotKeyNum ∧
    cursorCalls (sendRange env txn b e s).2.trace = cursorCalls s.trace ++ [(txn, b, e)] := by
  unfold sendRange
  dsimp only
  apply sendRangeLoop_inv
    (fun s' => s'.snapshotKeyNum = s.snapshotKeyNum ∧
      cursorCalls s'.trace = cursorCalls s.trace ++ [(txn, b, e)])
  · intro d s' h
    refine ⟨h.1, ?_⟩
    rw [show (writeData env d s').2.trace = s'.trace ++ [_] from rfl, cursorCalls_append, h.2]
    simp [cursorCalls]
  · intro len t s' h
    refine ⟨h.1, ?_⟩
    rw [show (readData env len t s').2.trace = s'.trace ++ [_] from rfl, cursorCalls_append, h.2]
    simp [cursorCalls]
  · exact ⟨rfl, by simp [cursorCalls]⟩

theorem SyncWriteData_value {α : Type} (env : Env) (d : Payload) (s : Sender)
    (k : Sender → Expected α × Sender) (n : α)
    (h : (SyncWriteData Expected.error env d s k).1 = .value n) :
    (k (writeData env d s).2).1 = .value n := by
  unfold SyncWriteData at h
  split at h
  · exact h
  · cases h

theorem SyncReadData_value_inv {α : Type} (env : Env) (len t : Nat) (s : Sender)
    (k : String → Sender → Expected α × Sender) (n : α)
    (h : (SyncReadData Expected.error env len t s k).1 = .value n) :
    ∃ v, (k v (readData env len t s).2).1 = .value n := by
  unfold SyncReadData at h
  split at h
  · exact ⟨_, h⟩
  · cases h

theorem cursorYield_value (r : Record) (l : List (Expected Record)) :
    cursorYield (.value r :: l) = cursorYield l + 1 := by
  simp [cursorYield, List.takeWhile, Expected.ok]

theorem cursorYield_error (st : Status) (h : st.ok = false) (l : List (Expected Record)) :
    cursorYield (.error st h :: l) = 0 := by
  simp [cursorYield, List.takeWhile, Expected.ok]

/-- The count a successful `sendRange` loop returns. -/
theorem sendRangeLoop_count (env : Env) (l : List (Expected Record)) :
    ∀ (total cur : Nat) (s : Sender) (n : Nat), total < 2 ^ 32 →
      (sendRangeLoop env l total cur s).1 = .value n →
      n = (total + cursorYield l) % 2 ^ 32 := by
  have hend : ∀ total s n, total < 2 ^ 32 → (sendRangeEnd env total s).1 = .value n →
      n = total := by
    intro total s n _ h
    unfold sendRangeEnd at h
    have h1 := SyncWriteData_value _ _ _ _ _ h
    obtain ⟨v, h2⟩ := SyncReadData_value_inv _ _ _ _ _ _ h1
    split at h2
    · cases h2
    · cases h2; rfl
  induction l with
  | nil =>
    intro total cur s n ht h
    rw [sendRangeLoop] at h
    rw [hend _ _ _ ht h]
    have : cursorYield ([] : List (Expected Record)) = 0 := rfl
    rw [this, Nat.add_zero, Nat.mod_eq_of_lt ht]
  | cons x rest ih =>
    intro total cur s n ht h
    cases x with
    | error st hst =>
      rw [sendRangeLoop] at h
      split at h
      · rw [hend _ _ _ ht h, cursorYield_error, Nat.add_zero, Nat.mod_eq_of_lt ht]
      · cases h
    | value rcd =>
      rw [sendRangeLoop] at h
      have h1 := SyncWriteData_value _ _ _ _ _ h
      have h2 := SyncWriteData_value _ _ _ _ _ h1
      have h3 := SyncWriteData_value _ _ _ _ _ h2
      have h4 := SyncWriteData_value _ _ _ _ _ h3
      have h5 := SyncWriteData_value _ _ _ _ _ h4
      dsimp only at h5
      have htot : (total + 1) % 2 ^ 32 < 2 ^ 32 := Nat.mod_lt _ (by norm_num)
      have hsum : ((total + 1) % 2 ^ 32 + cursorYield rest) % 2 ^ 32 =
          (total + (cursorYield rest + 1)) % 2 ^ 32 := by omega
      rw [cursorYield_value, ← hsum]
      split at h5
      · have h6 := SyncWriteData_value _ _ _ _ _ h5
        obtain ⟨v, h7⟩ := SyncReadData_value_inv _ _ _ _ _ _ h6
        split at h7
        · cases h7
        · exact ih _ _ _ _ htot h7
      · exact ih _ _ _ _ htot h5

theorem sendRange_count (env : Env) (txn i : Nat) (s : Sender) (n : Nat)
    (h : (sendRange env txn i (i + 1) s).1 = .value n) : n = rangeCount env txn i := by
  unfold sendRange at h
  have := sendRangeLoop_count env _ 0 0 _ n (by norm_num) h
  simpa [rangeCount] using this

theorem sendSnapshotEnd_ok (env : Env) (s : Sender) (h : (sendSnapshotEnd env s).1.ok = true) :
    (sendSnapshotEnd env s).2.snapshotKeyNum = s.snapshotKeyNum ∧
    ∃ w, (sendSnapshotEnd env s).2.trace =
      s.trace ++ [Event.writeData (.str "3") w, Event.read 3 160 (.value "+OK")] := by
  by_cases hw : (env.writeData s.nWrite).ok = true
  · unfold sendSnapshotEnd at h ⊢
    rw [SyncWriteData_ok _ _ _ _ _ hw] at h ⊢
    cases hr : env.read (writeData env (.str "3") s).2.nRead with
    | value v =>
      rw [SyncReadData_value _ _ _ _ _ _ v hr] at h ⊢
      by_cases hv : v = "+OK"
      · subst hv
        simp only [ne_eq, not_true_eq_false, if_false]
        refine ⟨rfl, env.writeData s.nWrite, ?_⟩
        rw [readData_trace, writeData_trace, hr, List.append_assoc]
        rfl
      · simp [hv, Status.ok_mk] at h
    | error st hst =>
      have hr' : (readData env 3 160 (writeData env (.str "3") s).2).1 = .error st hst := hr
      simp only [SyncReadData] at h
      rw [hr'] at h
      simp only at h
      rw [hst] at h
      cases h
  · have hw' : ¬ (writeData env (.str "3") s).1.ok = true := hw
    unfold sendSnapshotEnd SyncWriteData at h
    rw [dif_neg hw'] at h
    exact absurd h hw

theorem sendSnapshotLoop_ok (env : Env) (slots txn : Nat) (l : List Nat) :
    ∀ s : Sender, (sendSnapshotLoop env slots txn l s).1.ok = true →
      (sendSnapshotLoop env slots txn l s).2.snapshotKeyNum % 2 ^ 64 =
        (s.snapshotKeyNum +
          ((l.filter fun i => slots.testBit i).map (rangeCount env txn)).sum) % 2 ^ 64 ∧
      cursorCalls (sendSnapshotLoop env slots txn l s).2.trace =
        cursorCalls s.trace ++
          (l.filter fun i => slots.testBit i).map (fun i => (txn, i, i + 1)) ∧
      (∃ pre w, (sendSnapshotLoop env slots txn l s).2.trace =
        pre ++ [Event.writeData (.str "3") w, Event.read 3 160 (.value "+OK")]) ∧
      ((l.filter fun i => slots.testBit i) = [] →
        written (sendSnapshotLoop env slots txn l s).2.trace =
          written s.trace ++ [.str "3"]) := by
  induction l with
  | nil =>
    intro s h
    rw [sendSnapshotLoop] at h ⊢
    obtain ⟨h1, w, h2⟩ := sendSnapshotEnd_ok env s h
    refine ⟨by simp [h1], by simp [h2, cursorCalls_append, cursorCalls], ⟨_, _, h2⟩, ?_⟩
    intro _
    simp [h2, written_append, written]
  | cons i rest ih =>
    intro s h
    rw [sendSnapshotLoop] at h ⊢
    cases hb : slots.testBit i
    · simp only [hb, Bool.false_eq_true, if_false] at h ⊢
      simpa [List.filter_cons, hb] using ih s h
    · simp only [hb, if_true] at h ⊢
      have hcalls := sendRange_calls env txn i (i + 1) s
      cases hsr : sendRange env txn i (i + 1) s with
      | mk e s1 =>
        rw [hsr] at h hcalls
        cases e with
        | error st hst =>
          simp only at h
          rw [hst] at h; cases h
        | value n =>
          simp only at h ⊢
          have hn : n = rangeCount env txn i :=
            sendRange_count env txn i s n (by rw [hsr])
          obtain ⟨k1, k2, k3, -⟩ := ih _ h
          dsimp only at k1 k2 hcalls
          refine ⟨?_, ?_, k3, ?_⟩
          · rw [k1]
            simp only [List.filter_cons, hb, if_true, List.map_cons, List.sum_cons, hcalls.1, hn]
            omega
          · rw [k2]
            simp [List.filter_cons, hb, hcalls.2]
          · intro hnil
            simp [List.filter_cons, hb] at hnil

/-- What a `sendSnapshot` that returned ok has done. -/
theorem sendSnapshot_ok (env : Env) (slots : Nat) (s : Sender)
    (hok : (sendSnapshot env slots s).1.ok = true) :
    cursorCalls (sendSnapshot env slots s).2.trace =
      cursorCalls s.trace ++ (slotsOf env slots).map (fun i => (s.nTxn, i, i + 1)) ∧
    (∃ pre w, (sendSnapshot env slots s).2.trace =
      pre ++ [Event.writeData (.str "3") w, Event.read 3 160 (.value "+OK")]) ∧
    (sendSnapshot env slots s).2.snapshotKeyNum % 2 ^ 64 =
      (s.snapshotKeyNum + ((slotsOf env slots).map (rangeCount env s.nTxn)).sum) % 2 ^ 64 ∧
    (slotsOf env slots = [] →
      written (sendSnapshot env slots s).2.trace = written s.trace ++ [.str "3"]) := by
  unfold sendSnapshot initTxn at hok ⊢
  dsimp only at hok ⊢
  cases hdb : env.getDb s.nGetDb with
  | error st hst =>
    simp only [hdb] at hok
    rw [hst] at hok; cases hok
  | value u =>
    simp only [hdb] at hok ⊢
    cases htx : env.createTransaction s.nTxn with
    | error st hst =>
      simp only [htx] at hok
      rw [hst] at hok; cases hok
    | value u2 =>
      simp only [htx] at hok ⊢
      obtain ⟨k1, k2, k3, k4⟩ := sendSnapshotLoop_ok env slots s.nTxn _ _ hok
      refine ⟨?_, k3, ?_, ?_⟩
      · rw [k2]; simp [cursorCalls, slotsOf]
      · rw [k1]; rfl
      · intro hnil
        rw [k4 hnil]
        simp [written]

theorem cursorYield_records (recs : List Record) (tl : List (Expected Record))
    (htl : Exhausted tl) : cursorYield (recs.map Expected.value ++ tl) = recs.length := by
  induction recs with
  | nil =>
    cases tl with
    | nil => rfl
    | cons x rest =>
      cases x with
      | value r => exact absurd htl (by simp [Exhausted])
      | error st h => simpa using cursorYield_error st h rest
  | cons r rest ih =>
    rw [List.map_cons, List.cons_append, cursorYield_value, ih, List.length_cons]

theorem sendSnapshotLoop_all_ok (env : Env) (slots txn : Nat)
    (hw : ∀ k, (env.writeData k).ok = true) (hr : ∀ k, env.read k = .value "+OK")
    (hc : ∀ i, CleanCursor (env.createSlotsCursor txn i (i + 1))) (l : List Nat) :
    ∀ s : Sender, (sendSnapshotLoop env slots txn l s).1 =
      ⟨.ERR_OK, "finish snapshot of bitmap"⟩ := by
  induction l with
  | nil =>
    intro s
    rw [sendSnapshotLoop]
    unfold sendSnapshotEnd
    rw [SyncWriteData_ok _ _ _ _ _ (hw _), SyncReadData_value _ _ _ _ _ _ "+OK" (hr _)]
    simp
  | cons i rest ih =>
    intro s
    rw [sendSnapshotLoop]
    split
    · obtain ⟨recs, tl, h1, h2⟩ := hc i
      have h := (sendRange_all_ok env txn i (i + 1) s recs tl h1 h2 hw hr).1
      split
      · next st hst s1 heq => rw [heq] at h; cases h
      · exact ih _
    · exact ih _

theorem manyRecords_length : manyRecords.length = 2 ^ 32 := by
  unfold manyRecords
  exact List.length_replicate _ _

theorem crowded_yield (txn b e : Nat) :
    cursorYield (crowdedEnv.createSlotsCursor txn b e) = 2 ^ 32 := by
  have h : crowdedEnv.createSlotsCursor txn b e = manyRecords.map Expected.value ++ [] := by
    rw [List.append_nil]; rfl
  rw [h, cursorYield_records manyRecords [] trivial, manyRecords_length]

theorem rangeCount_of_yield (env : Env) (txn i n : Nat)
    (h : cursorYield (env.createSlotsCursor txn i (i + 1)) = n) :
    rangeCount env txn i = n % 2 ^ 32 := by
  unfold rangeCount
  rw [h]

/-- When the only set slot is slot 0 and its count wraps to 0, a successful
`sendSnapshot` leaves `_snapshotKeyNum` where it was, modulo 2^64. -/
theorem sendSnapshot_wraps_of (env : Env) (slots : Nat) (s : Sender)
    (hslots : slotsOf env slots = [0]) (hcount : rangeCount env s.nTxn 0 = 0)
    (h0 : s.snapshotKeyNum = 0) (hok : (sendSnapshot env slots s).1.ok = true) :
    (sendSnapshot env slots s).2.snapshotKeyNum % 2 ^ 64 = s.snapshotKeyNum ∧
    (sendSnapshot env slots s).2.snapshotKeyNum ≠ s.snapshotKeyNum + 2 ^ 32 := by
  have hsum := (sendSnapshot_ok env slots s hok).2.2.1
  generalize (sendSnapshot env slots s).2.snapshotKeyNum = x at hsum ⊢
  rw [hslots, List.map_cons, List.map_nil, List.sum_cons, List.sum_nil, hcount, h0] at hsum
  rw [h0]
  refine ⟨hsum, ?_⟩
  intro hc
  rw [hc] at hsum
  exact absurd hsum (by decide)

/-- When the shard opens, the transaction is made, every write succeeds, every ack is
`+OK` and every cursor is clean, `sendSnapshot` returns ok. -/
theorem sendSnapshot_all_ok (env : Env) (slots : Nat) (s : Sender)
    (hdb : ∀ k, env.getDb k = .value ()) (htx : ∀ k, env.createTransaction k = .value ())
    (hw : ∀ k, (env.writeData k).ok = true) (hr : ∀ k, env.read k = .value "+OK")
    (hc : ∀ txn i, CleanCursor (env.createSlotsCursor txn i (i + 1))) :
    (sendSnapshot env slots s).1 = ⟨.ERR_OK, "finish snapshot of bitmap"⟩ := by
  unfold sendSnapshot initTxn
  simp only [hdb, htx]
  exact sendSnapshotLoop_all_ok env slots _ hw hr (hc _) _ _

theorem crowded_snapshot_ok :
    (sendSnapshot crowdedEnv 1 sender0).1 = ⟨.ERR_OK, "finish snapshot of bitmap"⟩ :=
  sendSnapshot_all_ok crowdedEnv 1 sender0 (fun _ => rfl) (fun _ => rfl) (fun _ => rfl)
    (fun _ => rfl) (fun _ _ => ⟨manyRecords, [], (List.append_nil _).symm, trivial⟩)

/-! ## The passes of the catch-up loop -/

theorem pursueBinLogLoop_succ (env : Env) (n high : Nat) (fin : Bool) (s : Sender) :
    pursueBinLogLoop env (n + 1) high fin s =
      match pursuePass env high s with
      | .abort s1 => .abort s1
      | .ret none s1 => .ret (false, high) s1
      | .ret (some (high', maxBinlogId)) s3 =>
        if reachedDistance env maxBinlogId s3.curBinlogid then
          .ret (true, high') { s3 with endBinlogid := maxBinlogId }
        else pursueBinLogLoop env n high' fin s3 := by
  rw [pursueBinLogLoop]
  unfold pursuePass reachedDistance
  cases h1 : catchupBinlog env s.curBinlogid high s.slots s with
  | abort s1 => rfl
  | ret e s1 =>
    cases e with
    | error st hst => rfl
    | value v =>
      dsimp only
      cases h2 : getMaxBinLog env _ with
      | abort s3 => rfl
      | ret m s3 => simp

/-- The state a pass leaves when it gets the count `c` and the maximum `m`. -/
theorem pursuePass_eq (env : Env) (high : Nat) (s : Sender) (c m : Nat)
    (hc : shippedCount env s.nSendBinlog = some c)
    (hm : maxBinLogAt env s.nMaxBinlog = some m) :
    pursuePass env high s =
      .ret (some (env.getHighestBinlogId s.nHighest % 2 ^ 64, m))
        { s with binlogNum := (s.binlogNum + c) % 2 ^ 64,
                 curBinlogid := high,
                 nHighest := s.nHighest + 1,
                 nSendBinlog := s.nSendBinlog + 1,
                 nMaxBinlog := s.nMaxBinlog + 1,
                 trace := s.trace ++
                   [Event.SendSlotsBinlog s.curBinlogid high s.slots
                      (env.SendSlotsBinlog s.nSendBinlog),
                    Event.getHighestBinlogId (env.getHighestBinlogId s.nHighest % 2 ^ 64),
                    Event.getMaxBinlogId (env.getMaxBinlogId s.nMaxBinlog)] } := by
  unfold shippedCount at hc
  unfold maxBinLogAt at hm
  unfold pursuePass catchupBinlog getMaxBinLog
  dsimp only
  cases h1 : env.SendSlotsBinlog s.nSendBinlog with
  | value v =>
    rw [h1] at hc
    simp only [Option.some.injEq] at hc
    subst hc
    cases h2 : env.getMaxBinlogId s.nMaxBinlog with
    | value w =>
      rw [h2] at hm
      simp only [Option.some.injEq] at hm
      subst hm
      simp [h2]
    | error st hst =>
      rw [h2] at hm
      simp only at hm
      by_cases hx : st.code = ErrorCodes.ERR_EXHAUST
      · simp only [hx, if_true, Option.some.injEq] at hm
        subst hm
        simp [h2, hx]
      · simp only [hx, if_false] at hm
        cases hf : env.failedValue with
        | none => rw [hf] at hm; cases hm
        | some w =>
          rw [hf] at hm
          simp only [Option.map_some', Option.some.injEq] at hm
          subst hm
          simp [h2, hx]
  | error st0 hst0 =>
    rw [h1] at hc
    simp only at hc
    cases hf : env.failedValue with
    | none => rw [hf] at hc; cases hc
    | some w0 =>
      rw [hf] at hc
      simp only [Option.map_some', Option.some.injEq] at hc
      subst hc
      cases h2 : env.getMaxBinlogId s.nMaxBinlog with
      | value w =>
        rw [h2] at hm
        simp only [Option.some.injEq] at hm
        subst hm
        simp [h2]
      | error st hst =>
        rw [h2] at hm
        simp only at hm
        by_cases hx : st.code = ErrorCodes.ERR_EXHAUST
        · simp only [hx, if_true, Option.some.injEq] at hm
          subst hm
          simp [h2, hx]
        · simp only [hx, if_false, hf, Option.map_some', Option.some.injEq] at hm
          subst hm
          simp [h2, hx]

/-- A pass that does not get a count or a maximum does not return. -/
theorem pursuePass_abort (env : Env) (high : Nat) (s : Sender)
    (h : shippedCount env s.nSendBinlog = none ∨ maxBinLogAt env s.nMaxBinlog = none) :
    ∃ s1, pursuePass env high s = .abort s1 := by
  unfold shippedCount maxBinLogAt at h
  unfold pursuePass catchupBinlog getMaxBinLog
  dsimp only
  cases h1 : env.SendSlotsBinlog s.nSendBinlog with
  | value v =>
    cases h2 : env.getMaxBinlogId s.nMaxBinlog with
    | value w => simp [h1, h2] at h
    | error st hst =>
      by_cases hx : st.code = ErrorCodes.ERR_EXHAUST
      · simp [h1, h2, hx] at h
      · have hf : env.failedValue = none := by simpa [h1, h2, hx] using h
        simp [h2, hx, hf]
  | error st0 hst0 =>
    cases hf : env.failedValue with
    | none => simp
    | some w0 =>
      cases h2 : env.getMaxBinlogId s.nMaxBinlog with
      | value w => simp [h1, h2, hf] at h
      | error st hst =>
        by_cases hx : st.code = ErrorCodes.ERR_EXHAUST
        · simp [h1, h2, hf, hx] at h
        · simp [h1, h2, hf, hx] at h

/-- What a pass that returns has done. -/
theorem pursuePass_ret (env : Env) (high : Nat) (s : Sender) (r : Option (Nat × Nat))
    (s3 : Sender) (h : pursuePass env high s = .ret r s3) :
    ∃ c m, shippedCount env s.nSendBinlog = some c ∧ maxBinLogAt env s.nMaxBinlog = some m ∧
      pursuePass env high s =
        .ret (some (env.getHighestBinlogId s.nHighest % 2 ^ 64, m))
          { s with binlogNum := (s.binlogNum + c) % 2 ^ 64,
                   curBinlogid := high,
                   nHighest := s.nHighest + 1,
                   nSendBinlog := s.nSendBinlog + 1,
                   nMaxBinlog := s.nMaxBinlog + 1,
                   trace := s.trace ++
                     [Event.SendSlotsBinlog s.curBinlogid high s.slots
                        (env.SendSlotsBinlog s.nSendBinlog),
                      Event.getHighestBinlogId (env.getHighestBinlogId s.nHighest % 2 ^ 64),
                      Event.getMaxBinlogId (env.getMaxBinlogId s.nMaxBinlog)] } := by
  cases hc : shippedCount env s.nSendBinlog with
  | none =>
    obtain ⟨s1, h1⟩ := pursuePass_abort env high s (Or.inl hc)
    rw [h1] at h; cases h
  | some c =>
    cases hm : maxBinLogAt env s.nMaxBinlog with
    | none =>
      obtain ⟨s1, h1⟩ := pursuePass_abort env high s (Or.inr hm)
      rw [h1] at h; cases h
    | some m => exact ⟨c, m, rfl, rfl, pursuePass_eq env high s c m hc hm⟩


theorem shipments_append (a b : List Event) :
    shipments (a ++ b) = shipments a ++ shipments b := by
  simp [shipments, List.filterMap_append]

/-- The fields a pass that gets the count `c` and the maximum `m` leaves behind. -/
theorem pursuePass_facts (env : Env) (high : Nat) (s : Sender) (c m : Nat)
    (hc : shippedCount env s.nSendBinlog = some c)
    (hm : maxBinLogAt env s.nMaxBinlog = some m) :
    ∃ s3, pursuePass env high s =
        .ret (some (env.getHighestBinlogId s.nHighest % 2 ^ 64, m)) s3 ∧
      s3.curBinlogid = high ∧ s3.nHighest = s.nHighest + 1 ∧
      s3.nSendBinlog = s.nSendBinlog + 1 ∧ s3.nMaxBinlog = s.nMaxBinlog + 1 ∧
      s3.binlogNum = (s.binlogNum + c) % 2 ^ 64 ∧ s3.endBinlogid = s.endBinlogid ∧
      shipments s3.trace = shipments s.trace ++ [(s.curBinlogid, high)] :=
  ⟨_, pursuePass_eq env high s c m hc hm, rfl, rfl, rfl, rfl, rfl, rfl, by
    simp [shipments_append, shipments]⟩

/-- The bounds at every pass boundary, when the store's highest binlog id never
decreases. -/
theorem passBoundary_bounds (env : Env)
    (hmono : ∀ i j, i ≤ j →
      env.getHighestBinlogId i % 2 ^ 64 ≤ env.getHighestBinlogId j % 2 ^ 64)
    (n high : Nat) (s : Sender) (bh : Nat) (bs : Sender)
    (hb : PassBoundary env n high s bh bs) :
    s.curBinlogid ≤ high →
    (∃ k, k < s.nHighest ∧ high = env.getHighestBinlogId k % 2 ^ 64) →
    bs.curBinlogid ≤ bh ∧ ∃ k, k < bs.nHighest ∧ bh = env.getHighestBinlogId k % 2 ^ 64 := by
  induction hb with
  | first n high s => intro h1 h2; exact ⟨h1, h2⟩
  | afterPass n high s high' maxId s3 hp =>
    intro _ h2
    obtain ⟨c, m, hc, hm, heq⟩ := pursuePass_ret env high s _ _ hp
    rw [heq] at hp
    injection hp with hr hs
    injection hr with hr
    injection hr with hr1 hr2
    subst hs
    subst hr1
    obtain ⟨k, hk, hhigh⟩ := h2
    refine ⟨?_, s.nHighest, Nat.lt_succ_self _, rfl⟩
    show high ≤ _
    rw [hhigh]
    exact hmono _ _ (Nat.le_of_lt hk)
  | later n high s high' maxId s3 bh bs hp _ _ ih =>
    intro _ h2
    obtain ⟨c, m, hc, hm, heq⟩ := pursuePass_ret env high s _ _ hp
    rw [heq] at hp
    injection hp with hr hs
    injection hr with hr
    injection hr with hr1 hr2
    subst hs
    subst hr1
    obtain ⟨k, hk, hhigh⟩ := h2
    apply ih
    · show high ≤ _
      rw [hhigh]
      exact hmono _ _ (Nat.le_of_lt hk)
    · exact ⟨s.nHighest, Nat.lt_succ_self _, rfl⟩


theorem passEnd_shift (env : Env) (high : Nat) (s s3 : Sender) (j : Nat)
    (h : s3.nHighest = s.nHighest + 1) :
    passEnd env (env.getHighestBinlogId s.nHighest % 2 ^ 64) s3 j = passEnd env high s (j + 1) := by
  unfold passEnd
  cases j with
  | zero => simp
  | succ i =>
    simp only [Nat.succ_ne_zero, if_false, Nat.add_sub_cancel, h]
    congr 2
    omega

theorem passStart_shift (env : Env) (high : Nat) (s s3 : Sender) (j : Nat)
    (h : s3.nHighest = s.nHighest + 1) (hcur : s3.curBinlogid = high) :
    passStart env (env.getHighestBinlogId s.nHighest % 2 ^ 64) s3 j =
      passStart env high s (j + 1) := by
  unfold passStart
  cases j with
  | zero => simp [hcur, passEnd]
  | succ i =>
    simp only [Nat.succ_ne_zero, if_false, Nat.add_sub_cancel]
    exact passEnd_shift env high s s3 i h

theorem passCount_shift (env : Env) (s s3 : Sender) (j : Nat)
    (h : s3.nSendBinlog = s.nSendBinlog + 1) : passCount env s3 j = passCount env s (j + 1) := by
  unfold passCount
  rw [h]
  congr 1
  omega

theorem passMax_shift (env : Env) (s s3 : Sender) (j : Nat)
    (h : s3.nMaxBinlog = s.nMaxBinlog + 1) : passMax env s3 j = passMax env s (j + 1) := by
  unfold passMax
  rw [h]
  congr 1
  omega

theorem passConverged_shift (env : Env) (high : Nat) (s s3 : Sender) (j : Nat)
    (h : s3.nHighest = s.nHighest + 1) (hm : s3.nMaxBinlog = s.nMaxBinlog + 1) :
    passConverged env (env.getHighestBinlogId s.nHighest % 2 ^ 64) s3 j =
      passConverged env high s (j + 1) := by
  unfold passConverged
  rw [passMax_shift env s s3 j hm, passEnd_shift env high s s3 j h]

/-- The run of the loop of `pursueBinLog` in terms of its passes. -/
theorem pursueBinLogLoop_passes (env : Env) (n : Nat) :
    ∀ (high : Nat) (s : Sender) (k : Nat), k ≤ n →
      (∀ j, j < k → (passCount env s j).isSome = true ∧ (passMax env s j).isSome = true) →
      (∀ j, j + 1 < k → passConverged env high s j = false) →
      ((0 < k ∧ passConverged env high s (k - 1) = true) ∨ k = n) →
      ∃ s', pursueBinLogLoop env n high true s = .ret (true, passEnd env high s k) s' ∧
        shipments s'.trace = shipments s.trace ++
          (List.range k).map (fun j => (passStart env high s j, passEnd env high s j)) ∧
        s'.binlogNum % 2 ^ 64 =
          (s.binlogNum + ((List.range k).map fun j => (passCount env s j).getD 0).sum) % 2 ^ 64 ∧
        s'.curBinlogid = passStart env high s k ∧
        s'.endBinlogid =
          if 0 < k ∧ passConverged env high s (k - 1) = true then (passMax env s (k - 1)).getD 0
          else s.endBinlogid := by
  induction n with
  | zero =>
    intro high s k hk _ _ _
    have hk0 : k = 0 := Nat.le_zero.mp hk
    subst hk0
    exact ⟨s, by simp [pursueBinLogLoop, passEnd], by simp, by simp, by simp [passStart],
      by simp⟩
  | succ n ih =>
    intro high s k hk hdef hnot hlast
    cases k with
    | zero =>
      rcases hlast with ⟨h0, _⟩ | h0
      · exact absurd h0 (Nat.lt_irrefl 0)
      · exact absurd h0 (Nat.succ_ne_zero n).symm
    | succ k' =>
      obtain ⟨hc0, hm0⟩ := hdef 0 (Nat.succ_pos _)
      obtain ⟨c, hc⟩ := Option.isSome_iff_exists.mp hc0
      obtain ⟨m, hm⟩ := Option.isSome_iff_exists.mp hm0
      have hc' : shippedCount env s.nSendBinlog = some c := by simpa [passCount] using hc
      have hm' : maxBinLogAt env s.nMaxBinlog = some m := by simpa [passMax] using hm
      obtain ⟨s3, hp, f1, f2, f3, f4, f5, f6, f7⟩ := pursuePass_facts env high s c m hc' hm'
      have hconv0 : passConverged env high s 0 = reachedDistance env m s3.curBinlogid := by
        simp [passConverged, hm, passEnd, f1]
      rw [pursueBinLogLoop_succ, hp]
      simp only
      cases hr : reachedDistance env m s3.curBinlogid
      · -- the pass leaves a lag that is not below the distance: the loop goes on
        rw [hr] at hconv0
        simp only [Bool.false_eq_true, if_false]
        have hlast' : (0 < k' ∧
            passConverged env (env.getHighestBinlogId s.nHighest % 2 ^ 64) s3 (k' - 1) = true)
            ∨ k' = n := by
          rcases hlast with ⟨_, hl⟩ | hl
          · left
            simp only [Nat.add_sub_cancel] at hl
            cases k' with
            | zero => rw [hconv0] at hl; cases hl
            | succ i =>
              refine ⟨Nat.succ_pos _, ?_⟩
              rw [passConverged_shift env high s s3 _ f2 f4]
              simpa using hl
          · right; omega
        obtain ⟨s', e1, e2, e3, e4, e5⟩ :=
          ih (env.getHighestBinlogId s.nHighest % 2 ^ 64) s3 k' (by omega)
            (fun j hj => by
              rw [passCount_shift env s s3 j f3, passMax_shift env s s3 j f4]
              exact hdef (j + 1) (by omega))
            (fun j hj => by
              rw [passConverged_shift env high s s3 j f2 f4]
              exact hnot (j + 1) (by omega))
            hlast'
        refine ⟨s', ?_, ?_, ?_, ?_, ?_⟩
        · rw [e1, passEnd_shift env high s s3 k' f2]
        · have hmap : (List.range k').map (fun j =>
                (passStart env (env.getHighestBinlogId s.nHighest % 2 ^ 64) s3 j,
                  passEnd env (env.getHighestBinlogId s.nHighest % 2 ^ 64) s3 j)) =
              (List.range k').map
                ((fun j => (passStart env high s j, passEnd env high s j)) ∘ Nat.succ) := by
            apply List.map_congr_left
            intro j _
            simp only [Function.comp]
            rw [passStart_shift env high s s3 j f2 f1, passEnd_shift env high s s3 j f2]
          have h0 : (passStart env high s 0, passEnd env high s 0) = (s.curBinlogid, high) := by
            simp [passStart, passEnd]
          rw [e2, f7, hmap, List.range_succ_eq_map, List.map_cons, List.map_map, h0,
            List.append_assoc]
          rfl
        · rw [e3, f5, List.range_succ_eq_map, List.map_cons, List.map_map, List.sum_cons]
          have hsum : ((List.range k').map fun j => (passCount env s3 j).getD 0).sum =
              ((List.range k').map ((fun j => (passCount env s j).getD 0) ∘ Nat.succ)).sum := by
            congr 1
            apply List.map_congr_left
            intro j _
            simp only [Function.comp]
            rw [passCount_shift env s s3 j f3]
          rw [hsum, hc]
          simp only [Option.getD_some]
          omega
        · rw [e4, passStart_shift env high s s3 k' f2 f1]
        · rw [e5, f6]
          simp only [Nat.add_sub_cancel]
          cases k' with
          | zero => simp [hconv0]
          | succ i =>
            simp only [Nat.add_sub_cancel, Nat.succ_pos, true_and]
            rw [passConverged_shift env high s s3 i f2 f4, passMax_shift env s s3 i f4]
      · -- the pass leaves a lag below the distance: it is the last one
        rw [hr] at hconv0
        simp only [if_true]
        have hk1 : k' = 0 := by
          cases k' with
          | zero => rfl
          | succ i =>
            have := hnot 0 (by omega)
            rw [hconv0] at this
            cases this
        subst hk1
        have hr1 : List.range 1 = [0] := rfl
        refine ⟨{ s3 with endBinlogid := m }, ?_, ?_, ?_, ?_, ?_⟩
        · simp [passEnd]
        · simp [f7, passStart, passEnd, hr1]
        · show s3.binlogNum % 2 ^ 64 = _
          rw [f5, hr1]
          simp [hc]
        · show s3.curBinlogid = _
          simp [f1, passStart, passEnd]
        · show m = _
          simp [hconv0, hm]

/-! ## The `migrateend` command -/


theorem bitsetToString_data (N bits : Nat) :
    (bitsetToString N bits).data =
      (List.range N).reverse.map fun i => if bits.testBit i then '1' else '0' := rfl

theorem bitsetToString_length (N bits : Nat) : (bitsetToString N bits).length = N := by
  simp [bitsetToString, String.length]

theorem bitsetToString_get (N bits p : Nat) (hp : p < N) :
    (bitsetToString N bits).data.get? p =
      some (if bits.testBit (N - 1 - p) then '1' else '0') := by
  rw [bitsetToString_data, List.get?_eq_getElem?, List.getElem?_map,
    List.getElem?_reverse (by simpa using hp)]
  simp only [List.length_range]
  rw [List.getElem?_range (by omega)]
  rfl

theorem bitsetToString_testBit (N a b : Nat) (h : bitsetToString N a = bitsetToString N b)
    (i : Nat) (hi : i < N) : a.testBit i = b.testBit i := by
  have h1 := bitsetToString_get N a (N - 1 - i) (by omega)
  have h2 := bitsetToString_get N b (N - 1 - i) (by omega)
  rw [h, h2] at h1
  have hidx : N - 1 - (N - 1 - i) = i := by omega
  rw [hidx] at h1
  have h3 := Option.some.inj h1
  cases ha : a.testBit i <;> cases hb : b.testBit i <;> simp [ha, hb] at h3 <;> rfl

theorem bitsetToString_inj (N a b : Nat) (ha : a < 2 ^ N) (hb : b < 2 ^ N)
    (h : bitsetToString N a = bitsetToString N b) : a = b := by
  apply Nat.eq_of_testBit_eq
  intro i
  by_cases hi : i < N
  · exact bitsetToString_testBit N a b h i hi
  · have hN : 2 ^ N ≤ 2 ^ i := Nat.pow_le_pow_right (by decide) (by omega)
    rw [Nat.testBit_eq_false_of_lt (by omega), Nat.testBit_eq_false_of_lt (by omega)]

theorem sendOver_first_event (env : Env) (s : Sender) :
    ∃ rest, (sendOver env s).2.trace =
      s.trace ++ Event.writeData (.str (migrateendCommand env s)) (env.writeData s.nWrite)
        :: rest ∧ written rest = [] := by
  unfold sendOver
  simp only
  split
  · exact ⟨[], by simp, rfl⟩
  · split
    · exact ⟨[], by simp, rfl⟩
    · split
      · exact ⟨[Event.readLine env.timeoutSecBinlogWaitRsp (env.readLine s.nReadLine)],
          by simp, rfl⟩
      · split
        · exact ⟨[Event.readLine env.timeoutSecBinlogWaitRsp (env.readLine s.nReadLine)],
            by simp, rfl⟩
        · split
          · exact ⟨[Event.readLine env.timeoutSecBinlogWaitRsp (env.readLine s.nReadLine),
              Event.setSlots s.dstNode s.slots (env.setSlots s.nSetSlots)], by simp, rfl⟩
          · exact ⟨[Event.readLine env.timeoutSecBinlogWaitRsp (env.readLine s.nReadLine),
              Event.setSlots s.dstNode s.slots (env.setSlots s.nSetSlots)], by simp, rfl⟩

/-! ## The reclaimer -/

theorem delCount_le (env : Env) (n : Nat) : ∀ i, delCount env i n ≤ n := by
  induction n with
  | zero => intro i; simp [delCount]
  | succ n ih =>
    intro i
    have := ih (i + 1)
    unfold delCount
    split <;> omega

theorem delCount_all (env : Env) (h : ∀ k, (env.delKV k).ok = true) (n : Nat) :
    ∀ i, delCount env i n = n := by
  induction n with
  | zero => intro i; simp [delCount]
  | succ n ih =>
    intro i
    unfold delCount
    rw [ih (i + 1), h i]
    simp
    omega

theorem delKVEvents_all (env : Env) (txn : Nat) (recs : List Record) :
    ∀ i, (delKVEvents env txn i recs).all Event.isReclaim = true := by
  induction recs with
  | nil => intro i; rfl
  | cons r rest ih => intro i; simp [delKVEvents, Event.isReclaim, ih (i + 1)]

theorem delKVEvents_length (env : Env) (txn : Nat) (recs : List Record) :
    ∀ i, (delKVEvents env txn i recs).length = recs.length := by
  induction recs with
  | nil => intro i; rfl
  | cons r rest ih => intro i; simp [delKVEvents, ih (i + 1)]

/-- The loop of `deleteChunk` over the records a cursor yields. -/
theorem deleteChunkLoop_records (env : Env) (txn : Nat) (recs : List Record)
    (tl : List (Expected Record)) :
    ∀ (d : Nat) (s : Sender), d < 2 ^ 32 →
      deleteChunkLoop env txn (recs.map Expected.value ++ tl) d s =
        deleteChunkLoop env txn tl ((d + delCount env s.nDelKV recs.length) % 2 ^ 32)
          { s with nDelKV := s.nDelKV + recs.length,
                   trace := s.trace ++ delKVEvents env txn s.nDelKV recs } := by
  induction recs with
  | nil =>
    intro d s hd
    simp only [List.map_nil, List.nil_append, List.length_nil, delCount, delKVEvents,
      Nat.add_zero, List.append_nil]
    rw [Nat.mod_eq_of_lt hd]
  | cons r rest ih =>
    intro d s hd
    simp only [List.map_cons, List.cons_append, List.length_cons]
    rw [deleteChunkLoop]
    cases hr : (env.delKV s.nDelKV).ok
    · simp only [Bool.not_false, if_true]
      rw [ih d _ hd]
      simp only [delCount, delKVEvents, hr, Bool.false_eq_true, if_false, Nat.zero_add,
        List.append_assoc, List.singleton_append]
      congr 2
      omega
    · simp only [Bool.not_true, Bool.false_eq_true, if_false]
      rw [ih _ _ (Nat.mod_lt _ (by decide))]
      simp only [delCount, delKVEvents, hr, if_true, List.append_assoc,
        List.singleton_append]
      congr 1
      · omega
      · congr 1
        omega


theorem Reclaims.reclaimsRefl (s : Sender) : Reclaims s s :=
  ⟨⟨[], by simp, rfl⟩, rfl, rfl, rfl, rfl, rfl, rfl, rfl, rfl, rfl⟩

theorem Reclaims.andThen {a b c : Sender} (h1 : Reclaims a b) (h2 : Reclaims b c) :
    Reclaims a c := by
  obtain ⟨d1, e1, a1⟩ := h1.trace
  obtain ⟨d2, e2, a2⟩ := h2.trace
  refine ⟨⟨d1 ++ d2, by rw [e2, e1, List.append_assoc], by simp [a1, a2]⟩,
    h2.sendstate.trans h1.sendstate, h2.consistency.trans h1.consistency,
    h2.snapshotKeyNum.trans h1.snapshotKeyNum, h2.binlogNum.trans h1.binlogNum,
    h2.delNum.trans h1.delNum, h2.delSlot.trans h1.delSlot,
    h2.nSetSlots.trans h1.nSetSlots, h2.slots.trans h1.slots, h2.dstNode.trans h1.dstNode⟩

theorem deleteChunkCommit_reclaims (env : Env) (txn d : Nat) (s : Sender) :
    Reclaims s (deleteChunkCommit env txn d s).2 := by
  unfold deleteChunkCommit
  simp only
  split <;>
    exact ⟨⟨[Event.commit txn (env.commit s.nCommit)], rfl, rfl⟩, rfl, rfl, rfl, rfl, rfl,
      rfl, rfl, rfl, rfl⟩

theorem deleteChunkLoop_reclaims (env : Env) (txn : Nat) (l : List (Expected Record)) :
    ∀ (d : Nat) (s : Sender), Reclaims s (deleteChunkLoop env txn l d s).2 := by
  induction l with
  | nil => intro d s; rw [deleteChunkLoop]; exact deleteChunkCommit_reclaims env txn d s
  | cons a rest ih =>
    intro d s
    cases a with
    | error st h =>
      rw [deleteChunkLoop]
      split
      · exact deleteChunkCommit_reclaims env txn d s
      · exact Reclaims.reclaimsRefl s
    | value rcd =>
      rw [deleteChunkLoop]
      have h1 : Reclaims s
          { s with nDelKV := s.nDelKV + 1,
                   trace := s.trace ++ [Event.delKV txn rcd.key (env.delKV s.nDelKV)] } :=
        ⟨⟨[Event.delKV txn rcd.key (env.delKV s.nDelKV)], rfl, rfl⟩, rfl, rfl, rfl, rfl,
          rfl, rfl, rfl, rfl, rfl⟩
      split
      · exact h1.andThen (ih _ _)
      · exact h1.andThen (ih _ _)

theorem deleteChunk_reclaims (env : Env) (chunkid : Nat) (s : Sender) :
    Reclaims s (deleteChunk env chunkid s).2 := by
  unfold deleteChunk
  simp only
  split
  · exact ⟨⟨[Event.createTransaction (env.createTransaction s.nTxn)], rfl, rfl⟩, rfl, rfl,
      rfl, rfl, rfl, rfl, rfl, rfl, rfl⟩
  · have h1 : Reclaims s
        { s with nTxn := s.nTxn + 1,
                 trace := s.trace ++
                   [Event.createTransaction (env.createTransaction s.nTxn)] ++
                   [Event.createSlotsCursor s.nTxn chunkid (chunkid + 1)] } :=
      ⟨⟨[Event.createTransaction (env.createTransaction s.nTxn),
          Event.createSlotsCursor s.nTxn chunkid (chunkid + 1)], by simp, rfl⟩, rfl, rfl,
        rfl, rfl, rfl, rfl, rfl, rfl, rfl⟩
    exact h1.andThen (deleteChunkLoop_reclaims env _ _ _ _)

/-- The run of `deleteChunk` on a cursor that yields the records `recs` and has the
answers `tl` left: the loop goes on at `tl` with the count of the successful deletes. -/
theorem deleteChunk_records (env : Env) (chunkid : Nat) (s : Sender) (recs : List Record)
    (tl : List (Expected Record)) (ht : env.createTransaction s.nTxn = .value ())
    (hcur : env.createSlotsCursor s.nTxn chunkid (chunkid + 1) =
      recs.map Expected.value ++ tl) :
    deleteChunk env chunkid s =
      deleteChunkLoop env s.nTxn tl (delCount env s.nDelKV recs.length % 2 ^ 32)
        { s with nTxn := s.nTxn + 1, nDelKV := s.nDelKV + recs.length,
                 trace := s.trace ++
                   [Event.createTransaction (.value ()),
                    Event.createSlotsCursor s.nTxn chunkid (chunkid + 1)] ++
                   delKVEvents env s.nTxn s.nDelKV recs } := by
  unfold deleteChunk
  simp only [ht, hcur]
  rw [deleteChunkLoop_records env s.nTxn recs tl 0 _ (by decide)]
  simp only [Nat.zero_add, List.append_assoc, List.singleton_append]

theorem deleteChunkLoop_exhausted (env : Env) (txn : Nat) (tl : List (Expected Record))
    (h : Exhausted tl) (d : Nat) (s : Sender) :
    deleteChunkLoop env txn tl d s = deleteChunkCommit env txn d s := by
  cases tl with
  | nil => rw [deleteChunkLoop]
  | cons a rest =>
    cases a with
    | value r => exact absurd h (by simp [Exhausted])
    | error st hs =>
      rw [deleteChunkLoop]
      simp only [Exhausted] at h
      simp [h]

theorem deleteChunkLoop_error (env : Env) (txn : Nat) (st : Status) (hs : st.ok = false)
    (rest : List (Expected Record)) (hne : st.code ≠ ErrorCodes.ERR_EXHAUST) (d : Nat)
    (s : Sender) :
    deleteChunkLoop env txn (.error st hs :: rest) d s = (.value 0, s) := by
  rw [deleteChunkLoop]
  simp [hne]


theorem deleteChunksEnd_facts (s : Sender) :
    (deleteChunksEnd s).1 = true ∧
    (deleteChunksEnd s).2.consistency =
      (s.consistency || decide (s.delNum = (s.snapshotKeyNum + s.binlogNum) % 2 ^ 64)) ∧
    (deleteChunksEnd s).2.delNum = s.delNum ∧ (deleteChunksEnd s).2.delSlot = s.delSlot ∧
    (deleteChunksEnd s).2.snapshotKeyNum = s.snapshotKeyNum ∧
    (deleteChunksEnd s).2.binlogNum = s.binlogNum ∧
    (deleteChunksEnd s).2.sendstate = s.sendstate ∧
    (deleteChunksEnd s).2.nSetSlots = s.nSetSlots ∧
    (deleteChunksEnd s).2.trace = s.trace := by
  unfold deleteChunksEnd
  by_cases h : s.delNum = (s.snapshotKeyNum + s.binlogNum) % 2 ^ 64
  · rw [if_neg (not_not.mpr h)]
    refine ⟨rfl, ?_, rfl, rfl, rfl, rfl, rfl, rfl, rfl⟩
    show true = _
    rw [decide_eq_true h, Bool.or_true]
  · rw [if_pos h]
    refine ⟨rfl, ?_, rfl, rfl, rfl, rfl, rfl, rfl, rfl⟩
    show s.consistency = _
    rw [decide_eq_false h, Bool.or_false]

/-- What every run of the loop of `deleteChunks` leaves alone. -/
theorem deleteChunksLoop_frame (env : Env) (slots : Nat) (l : List Nat) :
    ∀ s : Sender,
      (deleteChunksLoop env slots l s).2.snapshotKeyNum = s.snapshotKeyNum ∧
      (deleteChunksLoop env slots l s).2.binlogNum = s.binlogNum ∧
      (deleteChunksLoop env slots l s).2.sendstate = s.sendstate ∧
      (deleteChunksLoop env slots l s).2.nSetSlots = s.nSetSlots ∧
      ∃ d, (deleteChunksLoop env slots l s).2.trace = s.trace ++ d ∧
        d.all Event.isReclaim = true := by
  induction l with
  | nil =>
    intro s
    rw [deleteChunksLoop]
    obtain ⟨_, _, _, _, h1, h2, h3, h4, h5⟩ := deleteChunksEnd_facts s
    exact ⟨h1, h2, h3, h4, [], by simp [h5], rfl⟩
  | cons idx rest ih =>
    intro s
    rw [deleteChunksLoop]
    split
    · have hr := deleteChunk_reclaims env idx s
      obtain ⟨d1, e1, a1⟩ := hr.trace
      split
      · rename_i st hs s1 heq
        have h2 : s1 = (deleteChunk env idx s).2 := by rw [heq]
        subst h2
        exact ⟨hr.snapshotKeyNum, hr.binlogNum, hr.sendstate, hr.nSetSlots, d1, e1, a1⟩
      · rename_i v s1 heq
        have h2 : s1 = (deleteChunk env idx s).2 := by rw [heq]
        subst h2
        obtain ⟨i1, i2, i3, i4, d2, e2, a2⟩ := ih
          { (deleteChunk env idx s).2 with
            delNum := ((deleteChunk env idx s).2.delNum + v) % 2 ^ 64,
            delSlot := ((deleteChunk env idx s).2.delSlot + 1) % 2 ^ 64 }
        refine ⟨i1.trans hr.snapshotKeyNum, i2.trans hr.binlogNum, i3.trans hr.sendstate,
          i4.trans hr.nSetSlots, d1 ++ d2, ?_, by simp [a1, a2]⟩
        rw [e2]
        show (deleteChunk env idx s).2.trace ++ d2 = _
        rw [e1, List.append_assoc]
    · exact ih s

/-- The runs of the loop of `deleteChunks` that return true: every set slot gave a
count, the counter grew by their sum, and the flag is set when the audit holds. -/
theorem deleteChunksLoop_true (env : Env) (slots : Nat) (l : List Nat) :
    ∀ s : Sender, (deleteChunksLoop env slots l s).1 = true →
      (deleteChunksCalls env slots l s).map Prod.fst = l.filter (fun i => slots.testBit i) ∧
      (deleteChunksLoop env slots l s).2.delNum % 2 ^ 64 =
        (s.delNum + ((deleteChunksCalls env slots l s).map Prod.snd).sum) % 2 ^ 64 ∧
      (deleteChunksLoop env slots l s).2.consistency =
        (s.consistency ||
          decide ((deleteChunksLoop env slots l s).2.delNum =
            ((deleteChunksLoop env slots l s).2.snapshotKeyNum +
              (deleteChunksLoop env slots l s).2.binlogNum) % 2 ^ 64)) := by
  induction l with
  | nil =>
    intro s _
    obtain ⟨_, h1, h2, _, h3, h4, _⟩ := deleteChunksEnd_facts s
    simp only [deleteChunksLoop, deleteChunksCalls, List.map_nil, List.filter_nil,
      List.sum_nil, Nat.add_zero, true_and]
    simp only [h1, h2, h3, h4]
    exact ⟨trivial, trivial⟩
  | cons idx rest ih =>
    intro s hret
    rw [deleteChunksLoop] at hret ⊢
    rw [deleteChunksCalls]
    by_cases hb : slots.testBit idx = true
    · simp only [hb, if_true, List.filter_cons_of_pos] at hret ⊢
      have hr := deleteChunk_reclaims env idx s
      cases hd : deleteChunk env idx s with
      | mk r s1 =>
        have h2 : s1 = (deleteChunk env idx s).2 := by rw [hd]
        cases r with
        | error st hs => rw [hd] at hret; cases hret
        | value v =>
          rw [hd] at hret
          simp only at hret ⊢
          obtain ⟨i1, i2, i3⟩ := ih _ hret
          refine ⟨by rw [List.map_cons, i1], ?_, ?_⟩
          · rw [i2]
            simp only [List.map_cons, List.sum_cons]
            have : s1.delNum = s.delNum := by rw [h2]; exact hr.delNum
            rw [this]
            omega
          · rw [i3]
            have : s1.consistency = s.consistency := by rw [h2]; exact hr.consistency
            simp only [this]
    · simp only [hb, Bool.false_eq_true, if_false] at hret ⊢
      rw [List.filter_cons_of_neg (by simpa using hb)]
      exact ih s hret

/-- The loop of `deleteChunks` returns true exactly when every call of `deleteChunk`
gave a count. -/
theorem deleteChunksLoop_result (env : Env) (slots : Nat) (l : List Nat) :
    ∀ s : Sender, (deleteChunksLoop env slots l s).1 = true ↔
      ((deleteChunksCalls env slots l s).map Prod.fst).length =
        (l.filter (fun i => slots.testBit i)).length := by
  induction l with
  | nil =>
    intro s
    simp [deleteChunksLoop, deleteChunksCalls, (deleteChunksEnd_facts s).1]
  | cons idx rest ih =>
    intro s
    rw [deleteChunksLoop, deleteChunksCalls]
    by_cases hb : slots.testBit idx = true
    · simp only [hb, if_true, List.filter_cons_of_pos]
      cases hd : deleteChunk env idx s with
      | mk r s1 =>
        cases r with
        | error st hs => simp
        | value v =>
          simp only [List.map_cons, List.length_cons, Nat.add_right_cancel_iff]
          exact ih _
    · simp only [hb, Bool.false_eq_true, if_false]
      rw [List.filter_cons_of_neg (by simpa using hb)]
      exact ih s


theorem deleteChunksLoop_delNum_lt (env : Env) (slots : Nat) (l : List Nat) :
    ∀ s : Sender, s.delNum < 2 ^ 64 → (deleteChunksLoop env slots l s).2.delNum < 2 ^ 64 := by
  induction l with
  | nil =>
    intro s h
    rw [deleteChunksLoop, (deleteChunksEnd_facts s).2.2.1]
    exact h
  | cons idx rest ih =>
    intro s h
    rw [deleteChunksLoop]
    split
    · split
      · rename_i st hs s1 heq
        have h2 : s1 = (deleteChunk env idx s).2 := by rw [heq]
        rw [h2, (deleteChunk_reclaims env idx s).delNum]
        exact h
      · exact ih _ (Nat.mod_lt _ (by decide))
    · exact ih s h

/-- A slot with `2^32` records, all deleted and committed: `deleteChunk` reports 0. -/
theorem deleteChunk_wraps_of (env : Env) (chunkid : Nat) (s : Sender) (recs : List Record)
    (ht : env.createTransaction s.nTxn = .value ())
    (hcur : env.createSlotsCursor s.nTxn chunkid (chunkid + 1) = recs.map Expected.value)
    (hlen : recs.length = 2 ^ 32) (hdel : ∀ k, (env.delKV k).ok = true)
    (c : Nat) (hcommit : env.commit s.nCommit = .value c) :
    (deleteChunk env chunkid s).1 = .value 0 := by
  rw [deleteChunk_records env chunkid s recs [] ht (by rw [hcur, List.append_nil]),
    deleteChunkLoop, delCount_all env hdel, hlen]
  simp only [deleteChunkCommit, hcommit]
  rfl

/-! ## Failures of the snapshot -/

theorem SyncWriteData_pair {ρ : Type} (Q : ρ × Sender → Prop)
    (fail : (st : Status) → st.ok = false → ρ) (env : Env) (d : Payload) (s : Sender)
    (k : Sender → ρ × Sender)
    (hf : ∀ st h, Q (fail st h, (writeData env d s).2))
    (hk : Q (k (writeData env d s).2)) : Q (SyncWriteData fail env d s k) := by
  unfold SyncWriteData
  split
  · exact hk
  · exact hf _ _

theorem SyncReadData_pair {ρ : Type} (Q : ρ × Sender → Prop)
    (fail : (st : Status) → st.ok = false → ρ) (env : Env) (len t : Nat) (s : Sender)
    (k : String → Sender → ρ × Sender)
    (hf : ∀ st h, env.read s.nRead = .error st h → Q (fail st h, (readData env len t s).2))
    (hk : ∀ v, env.read s.nRead = .value v → Q (k v (readData env len t s).2)) :
    Q (SyncReadData fail env len t s k) := by
  unfold SyncReadData
  split
  · rename_i v hv
    exact hk v hv
  · rename_i st h hv
    exact hf st h hv

theorem CleanFrom.cleanRefl (s : Sender) : CleanFrom s s := ⟨[], by simp, rfl⟩

theorem CleanFrom.cleanStep {s0 s s' : Sender} (h : CleanFrom s0 s) (e : Event)
    (he : e.isBadAck = false) (ht : s'.trace = s.trace ++ [e]) : CleanFrom s0 s' := by
  obtain ⟨d, hd, hc⟩ := h
  exact ⟨d ++ [e], by rw [ht, hd, List.append_assoc], by simp [hc, he]⟩

theorem CleanFrom.cleanSame {s0 s s' : Sender} (h : CleanFrom s0 s) (ht : s'.trace = s.trace) :
    CleanFrom s0 s' := by
  obtain ⟨d, hd, hc⟩ := h
  exact ⟨d, by rw [ht, hd], hc⟩

theorem CleanFrom.cleanWrite {s0 s : Sender} (h : CleanFrom s0 s) (env : Env) (d : Payload) :
    CleanFrom s0 (writeData env d s).2 :=
  h.cleanStep (Event.writeData d (env.writeData s.nWrite)) rfl (writeData_trace env d s)

/-- An ack read and its check: the rest of the function runs only after `+OK`. -/
theorem ack_checked {ρ : Type} (σ : ρ → Status) (s0 : Sender)
    (fail : (st : Status) → st.ok = false → ρ) (env : Env) (len t : Nat) (s : Sender)
    (bad : ρ) (hbad : σ bad = ⟨.ERR_INTERNAL, "read +OK failed"⟩)
    (k : Sender → ρ × Sender) (h : CleanFrom s0 s)
    (hk : CleanFrom s0 (readData env len t s).2 →
      AckChecked s0 (σ (k (readData env len t s).2).1) (k (readData env len t s).2).2) :
    AckChecked s0
      (σ (SyncReadData fail env len t s fun v s =>
        if v ≠ "+OK" then (bad, s) else k s).1)
      (SyncReadData fail env len t s fun v s => if v ≠ "+OK" then (bad, s) else k s).2 := by
  apply SyncReadData_pair (fun p => AckChecked s0 (σ p.1) p.2)
  · intro st hst hr
    left
    exact h.cleanStep (Event.read len t (env.read s.nRead)) (by rw [hr]; rfl)
      (readData_trace env len t s)
  · intro v hv
    by_cases hvok : v = "+OK"
    · have hc : CleanFrom s0 (readData env len t s).2 :=
        h.cleanStep (Event.read len t (env.read s.nRead))
          (by rw [hv, hvok]; simp [Event.isBadAck]) (readData_trace env len t s)
      simp only [hvok, ne_eq, not_true_eq_false, if_false]
      exact hk hc
    · simp only [ne_eq, hvok, not_false_eq_true, if_true]
      right
      exact ⟨s, Event.read len t (env.read s.nRead), h, readData_trace env len t s,
        by rw [hv]; simp [Event.isBadAck, hvok], hbad⟩

theorem sendRangeEnd_ack (env : Env) (s0 : Sender) (total : Nat) (s : Sender)
    (h : CleanFrom s0 s) :
    AckChecked s0 (sendRangeEnd env total s).1.status (sendRangeEnd env total s).2 := by
  unfold sendRangeEnd
  apply SyncWriteData_pair (fun p : Expected Nat × Sender => AckChecked s0 p.1.status p.2)
  · intro st hst; exact Or.inl (h.cleanWrite env _)
  · exact ack_checked Expected.status s0 _ env 3 100 _
      (.error ⟨.ERR_INTERNAL, "read +OK failed"⟩ rfl) rfl (fun s => (.value total, s))
      (h.cleanWrite env _) (fun hc => Or.inl hc)

theorem sendRangeLoop_ack (env : Env) (s0 : Sender) (l : List (Expected Record)) :
    ∀ (total cur : Nat) (s : Sender), CleanFrom s0 s →
      AckChecked s0 (sendRangeLoop env l total cur s).1.status
        (sendRangeLoop env l total cur s).2 := by
  induction l with
  | nil => intro total cur s h; rw [sendRangeLoop]; exact sendRangeEnd_ack env s0 total s h
  | cons x rest ih =>
    intro total cur s h
    cases x with
    | error st hst =>
      rw [sendRangeLoop]
      split
      · exact sendRangeEnd_ack env s0 total s h
      · exact Or.inl h
    | value rcd =>
      rw [sendRangeLoop]
      apply SyncWriteData_pair (fun p : Expected Nat × Sender => AckChecked s0 p.1.status p.2)
      · intro st hst; exact Or.inl (h.cleanWrite env _)
      apply SyncWriteData_pair (fun p : Expected Nat × Sender => AckChecked s0 p.1.status p.2)
      · intro st hst; exact Or.inl ((h.cleanWrite env _).cleanWrite env _)
      apply SyncWriteData_pair (fun p : Expected Nat × Sender => AckChecked s0 p.1.status p.2)
      · intro st hst; exact Or.inl (((h.cleanWrite env _).cleanWrite env _).cleanWrite env _)
      apply SyncWriteData_pair (fun p : Expected Nat × Sender => AckChecked s0 p.1.status p.2)
      · intro st hst
        exact Or.inl
          ((((h.cleanWrite env _).cleanWrite env _).cleanWrite env _).cleanWrite env _)
      apply SyncWriteData_pair (fun p : Expected Nat × Sender => AckChecked s0 p.1.status p.2)
      · intro st hst
        exact Or.inl
          (((((h.cleanWrite env _).cleanWrite env _).cleanWrite env _).cleanWrite env
            _).cleanWrite env _)
      have h5 := ((((h.cleanWrite env (.str "0")).cleanWrite env
        (.raw32 (rcd.key.length % 2 ^ 32))).cleanWrite env (.str rcd.key)).cleanWrite env
        (.raw32 (rcd.value.length % 2 ^ 32))).cleanWrite env (.str rcd.value)
      dsimp only
      split
      · apply SyncWriteData_pair (fun p : Expected Nat × Sender => AckChecked s0 p.1.status p.2)
        · intro st hst; exact Or.inl (h5.cleanWrite env _)
        · exact ack_checked Expected.status s0 _ env 3 100 _
            (.error ⟨.ERR_INTERNAL, "read +OK failed"⟩ rfl) rfl
            (fun s => sendRangeLoop env rest ((total + 1) % 2 ^ 32) 0 s)
            (h5.cleanWrite env _) (fun hc => ih _ _ _ hc)
      · exact ih _ _ _ h5

theorem sendRange_ack (env : Env) (s0 : Sender) (txn b e : Nat) (s : Sender)
    (h : CleanFrom s0 s) :
    AckChecked s0 (sendRange env txn b e s).1.status (sendRange env txn b e s).2 := by
  unfold sendRange
  exact sendRangeLoop_ack env s0 _ 0 0 _
    (h.cleanStep (Event.createSlotsCursor txn b e) rfl rfl)

theorem sendSnapshotEnd_ack (env : Env) (s0 : Sender) (s : Sender) (h : CleanFrom s0 s) :
    AckChecked s0 (sendSnapshotEnd env s).1 (sendSnapshotEnd env s).2 := by
  unfold sendSnapshotEnd
  apply SyncWriteData_pair (fun p : Status × Sender => AckChecked s0 p.1 p.2)
  · intro st hst; exact Or.inl (h.cleanWrite env _)
  · exact ack_checked id s0 _ env 3 160 _ ⟨.ERR_INTERNAL, "read +OK failed"⟩ rfl
      (fun s => (⟨.ERR_OK, "finish snapshot of bitmap"⟩, s))
      (h.cleanWrite env _) (fun hc => Or.inl hc)

theorem AckChecked.value {s0 s : Sender} {α : Type} {r : Expected α} {n : α}
    (h : AckChecked s0 r.status s) (hr : r = .value n) : CleanFrom s0 s := by
  rcases h with h | ⟨_, _, _, _, _, hst⟩
  · exact h
  · rw [hr] at hst
    cases hst

theorem sendSnapshotLoop_ack (env : Env) (s0 : Sender) (slots txn : Nat) (l : List Nat) :
    ∀ s : Sender, CleanFrom s0 s →
      AckChecked s0 (sendSnapshotLoop env slots txn l s).1
        (sendSnapshotLoop env slots txn l s).2 := by
  induction l with
  | nil => intro s h; rw [sendSnapshotLoop]; exact sendSnapshotEnd_ack env s0 s h
  | cons i rest ih =>
    intro s h
    rw [sendSnapshotLoop]
    split
    · have hr := sendRange_ack env s0 txn i (i + 1) s h
      split
      · rename_i st hst s1 heq
        rw [heq] at hr
        exact hr
      · rename_i n s1 heq
        rw [heq] at hr
        exact ih _ ((hr.value rfl).cleanSame rfl)
    · exact ih s h

/-- Every run of `sendSnapshot`: an ack other than `+OK` is the last thing the run
did, and the run returned the internal error. -/
theorem sendSnapshot_ack (env : Env) (slots : Nat) (s : Sender) :
    AckChecked s (sendSnapshot env slots s).1 (sendSnapshot env slots s).2 := by
  unfold sendSnapshot
  have h1 : CleanFrom s
      { s with nGetDb := s.nGetDb + 1,
               trace := s.trace ++ [Event.getDb s.storeid (env.getDb s.nGetDb)] } :=
    (CleanFrom.cleanRefl s).cleanStep (Event.getDb s.storeid (env.getDb s.nGetDb)) rfl rfl
  dsimp only
  split
  · exact Or.inl h1
  · have h2 : CleanFrom s
        { s with nGetDb := s.nGetDb + 1,
                 curBinlogid := env.getHighestBinlogId s.nHighest % 2 ^ 64,
                 nHighest := s.nHighest + 1,
                 trace := s.trace ++ [Event.getDb s.storeid (env.getDb s.nGetDb)] ++
                   [Event.getHighestBinlogId (env.getHighestBinlogId s.nHighest % 2 ^ 64)] } :=
      h1.cleanStep (Event.getHighestBinlogId (env.getHighestBinlogId s.nHighest % 2 ^ 64))
        rfl rfl
    have h3 : ∀ s2 : Sender, CleanFrom s s2 → CleanFrom s (initTxn env s2).2 := by
      intro s2 hc
      unfold initTxn
      dsimp only
      split <;> exact hc.cleanStep (Event.createTransaction (env.createTransaction s2.nTxn)) rfl rfl
    split
    · rename_i st hst s3 heq
      have := h3 _ h2
      rw [heq] at this
      exact Or.inl this
    · rename_i txn s3 heq
      have := h3 _ h2
      rw [heq] at this
      exact sendSnapshotLoop_ack env s slots txn _ s3 this

/-- The loop of `sendRange` over the records a cursor yields, when every write
succeeds and every ack is `+OK`: it goes on at the rest of the cursor, having put the
frames of the records on the wire. -/
theorem sendRangeLoop_records (env : Env) (hw : ∀ k, (env.writeData k).ok = true)
    (hr : ∀ k, env.read k = .value "+OK") (tl : List (Expected Record))
    (recs : List Record) :
    ∀ (total cur done : Nat) (s : Sender), total < 2 ^ 32 → cur = done % 1000 →
      ∃ (s' : Sender) (total' cur' : Nat),
        sendRangeLoop env (recs.map Expected.value ++ tl) total cur s =
          sendRangeLoop env tl total' cur' s' ∧
        ∃ Δ, s'.trace = s.trace ++ Δ ∧
          Δ.map Event.wire = (recordFrames done recs).map some := by
  induction recs with
  | nil =>
    intro total cur done s _ _
    exact ⟨s, total, cur, rfl, [], by simp, by simp [recordFrames]⟩
  | cons r rest ih =>
    intro total cur done s ht hcur
    rw [List.map_cons, List.cons_append]
    generalize rest.map Expected.value ++ tl = l at ih ⊢
    rw [sendRangeLoop]
    rw [SyncWriteData_ok _ _ _ _ _ (hw _), SyncWriteData_ok _ _ _ _ _ (hw _),
      SyncWriteData_ok _ _ _ _ _ (hw _), SyncWriteData_ok _ _ _ _ _ (hw _),
      SyncWriteData_ok _ _ _ _ _ (hw _)]
    have hlt : cur + 1 < 2 ^ 32 := by omega
    have hcm : (cur + 1) % 2 ^ 32 = cur + 1 := Nat.mod_eq_of_lt hlt
    have htot : (total + 1) % 2 ^ 32 < 2 ^ 32 := Nat.mod_lt _ (by norm_num)
    dsimp only
    by_cases hb : (done + 1) % 1000 = 0
    · have hge : (cur + 1) % 2 ^ 32 ≥ 1000 := by omega
      rw [if_pos hge, SyncWriteData_ok _ _ _ _ _ (hw _),
        SyncReadData_value _ _ _ _ _ _ "+OK" (hr _)]
      simp only [ne_eq, not_true_eq_false, if_false]
      obtain ⟨s', total', cur', h1, Δ, h2, h3⟩ := ih ((total + 1) % 2 ^ 32) 0 (done + 1)
        (readData env 3 100 (writeData env (.str "1") (writeData env (.str r.value)
          (writeData env (.raw32 (r.value.length % 2 ^ 32)) (writeData env (.str r.key)
          (writeData env (.raw32 (r.key.length % 2 ^ 32))
          (writeData env (.str "0") s).2).2).2).2).2).2).2 htot (by omega)
      refine ⟨s', total', cur', h1, _, by
        rw [h2]; simp only [readData_trace, writeData_trace, List.append_assoc]; rfl, ?_⟩
      simp [recordFrames, recordFrame, batchAck, hb, Event.wire, h3]
    · have hlt2 : ¬ (cur + 1) % 2 ^ 32 ≥ 1000 := by omega
      rw [if_neg hlt2]
      obtain ⟨s', total', cur', h1, Δ, h2, h3⟩ :=
        ih ((total + 1) % 2 ^ 32) ((cur + 1) % 2 ^ 32) (done + 1)
        (writeData env (.str r.value)
          (writeData env (.raw32 (r.value.length % 2 ^ 32)) (writeData env (.str r.key)
          (writeData env (.raw32 (r.key.length % 2 ^ 32))
          (writeData env (.str "0") s).2).2).2).2).2 htot (by omega)
      refine ⟨s', total', cur', h1, _, by
        rw [h2]; simp only [writeData_trace, List.append_assoc]; rfl, ?_⟩
      simp [recordFrames, recordFrame, hb, Event.wire, h3]

/-- What `sendRange` does on a cursor that yields `recs` and then answers with an
error other than exhausted, when every write succeeds and every ack is `+OK`: it
returns that error, having put the frames of `recs` on the wire and nothing else. -/
theorem sendRange_cursor_error (env : Env) (txn b e : Nat) (s : Sender)
    (recs : List Record) (st : Status) (hst : st.ok = false)
    (rest : List (Expected Record))
    (hcur : env.createSlotsCursor txn b e = recs.map Expected.value ++ .error st hst :: rest)
    (hne : st.code ≠ ErrorCodes.ERR_EXHAUST)
    (hw : ∀ k, (env.writeData k).ok = true) (hr : ∀ k, env.read k = .value "+OK") :
    (sendRange env txn b e s).1 = .error st hst ∧
    ∃ Δ, (sendRange env txn b e s).2.trace = s.trace ++ Event.createSlotsCursor txn b e :: Δ ∧
      Δ.map Event.wire = (recordFrames 0 recs).map some := by
  unfold sendRange
  dsimp only
  rw [hcur]
  obtain ⟨s', total', cur', h1, Δ, h2, h3⟩ :=
    sendRangeLoop_records env hw hr (.error st hst :: rest) recs 0 0 0
      { s with trace := s.trace ++ [Event.createSlotsCursor txn b e] } (by norm_num) rfl
  rw [h1, sendRangeLoop, if_neg hne]
  exact ⟨rfl, Δ, by simpa using h2, h3⟩

/-- The loop of `sendSnapshot` when the first set slot with a broken cursor is `i`. -/
theorem sendSnapshotLoop_cursor_error (env : Env) (slots txn : Nat)
    (hw : ∀ k, (env.writeData k).ok = true) (hr : ∀ k, env.read k = .value "+OK")
    (i : Nat) (recs : List Record) (st : Status) (hst : st.ok = false)
    (rest : List (Expected Record))
    (hcur : env.createSlotsCursor txn i (i + 1) =
      recs.map Expected.value ++ .error st hst :: rest)
    (hne : st.code ≠ ErrorCodes.ERR_EXHAUST) (hi : slots.testBit i = true)
    (l2 : List Nat) (l1 : List Nat) :
    (∀ j, j ∈ l1 → slots.testBit j = true →
      CleanCursor (env.createSlotsCursor txn j (j + 1))) →
    ∀ s : Sender,
      (sendSnapshotLoop env slots txn (l1 ++ i :: l2) s).1 = st ∧
      ∃ pre Δ, (sendSnapshotLoop env slots txn (l1 ++ i :: l2) s).2.trace =
          pre ++ Event.createSlotsCursor txn i (i + 1) :: Δ ∧
        Δ.map Event.wire = (recordFrames 0 recs).map some := by
  induction l1 with
  | nil =>
    intro _ s
    obtain ⟨h1, Δ, h2, h3⟩ :=
      sendRange_cursor_error env txn i (i + 1) s recs st hst rest hcur hne hw hr
    rw [List.nil_append, sendSnapshotLoop, if_pos hi]
    cases hsr : sendRange env txn i (i + 1) s with
    | mk r s1 =>
      rw [hsr] at h1 h2
      simp only at h1 h2
      subst h1
      exact ⟨rfl, s.trace, Δ, h2, h3⟩
  | cons j l1 ih =>
    intro hclean s
    have ih' := ih (fun k hk => hclean k (List.mem_cons_of_mem _ hk))
    rw [List.cons_append, sendSnapshotLoop]
    by_cases hj : slots.testBit j = true
    · rw [if_pos hj]
      obtain ⟨rj, tlj, hcj, hex⟩ := hclean j (List.mem_cons_self _ _) hj
      obtain ⟨h1, _, _⟩ := sendRange_all_ok env txn j (j + 1) s rj tlj hcj hex hw hr
      cases hsr : sendRange env txn j (j + 1) s with
      | mk r s1 =>
        rw [hsr] at h1
        simp only at h1
        subst h1
        exact ih' _
    · rw [if_neg hj]
      exact ih' s

theorem range_split (N i : Nat) (hi : i < N) :
    ∃ l2, List.range N = List.range i ++ i :: l2 := by
  induction N with
  | zero => exact absurd hi (Nat.not_lt_zero _)
  | succ N ih =>
    by_cases h : i = N
    · subst h
      exact ⟨[], List.range_succ i⟩
    · obtain ⟨l2, hl⟩ := ih (by omega)
      exact ⟨l2 ++ [N], by rw [List.range_succ, hl]; simp⟩

/-- What `sendSnapshot` does when the first set slot with a broken cursor is `i`. -/
theorem sendSnapshot_cursor_error_of (env : Env) (slots : Nat) (s : Sender)
    (hdb : env.getDb s.nGetDb = .value ()) (htx : env.createTransaction s.nTxn = .value ())
    (hw : ∀ k, (env.writeData k).ok = true) (hr : ∀ k, env.read k = .value "+OK")
    (i : Nat) (hN : i < env.CLUSTER_SLOTS) (hi : slots.testBit i = true)
    (hclean : ∀ j, j < i → slots.testBit j = true →
      CleanCursor (env.createSlotsCursor s.nTxn j (j + 1)))
    (recs : List Record) (st : Status) (hst : st.ok = false)
    (rest : List (Expected Record))
    (hcur : env.createSlotsCursor s.nTxn i (i + 1) =
      recs.map Expected.value ++ .error st hst :: rest)
    (hne : st.code ≠ ErrorCodes.ERR_EXHAUST) :
    (sendSnapshot env slots s).1 = st ∧
    ∃ pre Δ, (sendSnapshot env slots s).2.trace =
        pre ++ Event.createSlotsCursor s.nTxn i (i + 1) :: Δ ∧
      Δ.map Event.wire = (recordFrames 0 recs).map some := by
  obtain ⟨l2, hl⟩ := range_split env.CLUSTER_SLOTS i hN
  unfold sendSnapshot
  simp only [hdb, initTxn, htx, hl]
  exact sendSnapshotLoop_cursor_error env slots s.nTxn hw hr i recs st hst rest hcur hne hi l2
    (List.range i) (fun j hj => hclean j (List.mem_range.mp hj)) _

theorem SnapshotSteps.snapRefl (s : Sender) : SnapshotSteps s s := ⟨[], by simp, rfl, rfl⟩

theorem SnapshotSteps.snapStep {s0 s s' : Sender} (h : SnapshotSteps s0 s) (e : Event)
    (he : e.isSnapshotStep = true) (ht : s'.trace = s.trace ++ [e])
    (hl : s'.nLock = s.nLock) : SnapshotSteps s0 s' := by
  obtain ⟨d, hd, hc, hn⟩ := h
  exact ⟨d ++ [e], by rw [ht, hd, List.append_assoc], by simp [hc, he], hl.trans hn⟩

theorem SnapshotSteps.snapSame {s0 s s' : Sender} (h : SnapshotSteps s0 s)
    (ht : s'.trace = s.trace) (hl : s'.nLock = s.nLock) : SnapshotSteps s0 s' := by
  obtain ⟨d, hd, hc, hn⟩ := h
  exact ⟨d, by rw [ht, hd], hc, hl.trans hn⟩

theorem sendRange_steps (env : Env) (s0 : Sender) (txn b e : Nat) (s : Sender)
    (h : SnapshotSteps s0 s) : SnapshotSteps s0 (sendRange env txn b e s).2 := by
  unfold sendRange
  apply sendRangeLoop_inv (SnapshotSteps s0) env
  · intro d s1 h1
    exact h1.snapStep (Event.writeData d (env.writeData s1.nWrite)) rfl rfl rfl
  · intro len t s1 h1
    exact h1.snapStep (Event.read len t (env.read s1.nRead)) rfl rfl rfl
  · exact h.snapStep (Event.createSlotsCursor txn b e) rfl rfl rfl

theorem sendSnapshotEnd_steps (env : Env) (s0 s : Sender) (h : SnapshotSteps s0 s) :
    SnapshotSteps s0 (sendSnapshotEnd env s).2 := by
  unfold sendSnapshotEnd
  have hW : ∀ d s1, SnapshotSteps s0 s1 → SnapshotSteps s0 (writeData env d s1).2 :=
    fun d s1 h1 => h1.snapStep (Event.writeData d (env.writeData s1.nWrite)) rfl rfl rfl
  have hR : ∀ len t s1, SnapshotSteps s0 s1 → SnapshotSteps s0 (readData env len t s1).2 :=
    fun len t s1 h1 => h1.snapStep (Event.read len t (env.read s1.nRead)) rfl rfl rfl
  apply SyncWriteData_inv (SnapshotSteps s0) _ _ _ _ _ (hW _ _ h); intro h1
  apply SyncReadData_inv (SnapshotSteps s0) _ _ _ _ _ _ (hR _ _ _ h1); intro v h2
  split <;> exact h2

theorem sendSnapshotLoop_steps (env : Env) (s0 : Sender) (slots txn : Nat) (l : List Nat) :
    ∀ s : Sender, SnapshotSteps s0 s →
      SnapshotSteps s0 (sendSnapshotLoop env slots txn l s).2 := by
  induction l with
  | nil => intro s h; rw [sendSnapshotLoop]; exact sendSnapshotEnd_steps env s0 s h
  | cons i rest ih =>
    intro s h
    rw [sendSnapshotLoop]
    split
    · have hr := sendRange_steps env s0 txn i (i + 1) s h
      split
      · rename_i st hst s1 heq
        rw [heq] at hr
        exact hr
      · rename_i n s1 heq
        rw [heq] at hr
        exact ih _ (hr.snapSame rfl rfl)
    · exact ih s h

theorem sendSnapshot_steps (env : Env) (slots : Nat) (s : Sender) :
    SnapshotSteps s (sendSnapshot env slots s).2 := by
  unfold sendSnapshot
  have h1 : SnapshotSteps s
      { s with nGetDb := s.nGetDb + 1,
               trace := s.trace ++ [Event.getDb s.storeid (env.getDb s.nGetDb)] } :=
    (SnapshotSteps.snapRefl s).snapStep (Event.getDb s.storeid (env.getDb s.nGetDb)) rfl rfl rfl
  dsimp only
  split
  · exact h1
  · have h2 : SnapshotSteps s
        { s with nGetDb := s.nGetDb + 1,
                 curBinlogid := env.getHighestBinlogId s.nHighest % 2 ^ 64,
                 nHighest := s.nHighest + 1,
                 trace := s.trace ++ [Event.getDb s.storeid (env.getDb s.nGetDb)] ++
                   [Event.getHighestBinlogId (env.getHighestBinlogId s.nHighest % 2 ^ 64)] } :=
      h1.snapStep (Event.getHighestBinlogId (env.getHighestBinlogId s.nHighest % 2 ^ 64))
        rfl rfl rfl
    have h3 : ∀ s2 : Sender, SnapshotSteps s s2 → SnapshotSteps s (initTxn env s2).2 := by
      intro s2 hc
      unfold initTxn
      dsimp only
      split <;>
        exact hc.snapStep (Event.createTransaction (env.createTransaction s2.nTxn)) rfl rfl rfl
    split
    · rename_i st hst s3 heq
      have := h3 _ h2
      rw [heq] at this
      exact this
    · rename_i txn s3 heq
      have := h3 _ h2
      rw [heq] at this
      exact sendSnapshotLoop_steps env s slots txn _ s3 this

/-- In a run that is `AckChecked`, an ack other than `+OK` is the last event and the
status is the internal error. -/
theorem AckChecked.last {s0 s : Sender} {st : Status} (h : AckChecked s0 st s)
    (pre : List Event) (e : Event) (post : List Event)
    (ht : s.trace = s0.trace ++ pre ++ e :: post) (he : e.isBadAck = true) :
    post = [] ∧ st = ⟨.ERR_INTERNAL, "read +OK failed"⟩ := by
  rcases h with ⟨d, hd, hc⟩ | ⟨s1, e1, ⟨d, hd, hc⟩, ht1, _, hst⟩
  · rw [hd, List.append_assoc] at ht
    have hd' := List.append_cancel_left ht
    rw [hd'] at hc
    simp [he] at hc
  · rw [ht1, hd, List.append_assoc, List.append_assoc] at ht
    have hd' : d ++ [e1] = pre ++ e :: post := List.append_cancel_left ht
    refine ⟨?_, hst⟩
    rcases List.eq_nil_or_concat post with hp | ⟨post', x, hp⟩
    · exact hp
    · exfalso
      have hd2 : d ++ [e1] = (pre ++ e :: post') ++ [x] := by
        rw [hd', hp]; simp
      have := (List.append_inj' hd2 rfl).1
      rw [this] at hc
      simp [he] at hc

/-! ## The empty bitmap -/

theorem NoReply.quietRefl (s : Sender) : NoReply s s := ⟨[], by simp, rfl⟩

theorem NoReply.quietStep {s0 s s' : Sender} (h : NoReply s0 s) (d : List Event)
    (ht : s'.trace = s.trace ++ d) (hd : d.all (fun e => !e.isReply) = true) :
    NoReply s0 s' := by
  obtain ⟨d0, h0, hc⟩ := h
  exact ⟨d0 ++ d, by rw [ht, h0, List.append_assoc], by
    rw [List.all_append, hc, hd]; rfl⟩

theorem NoReply.quietTrans {a b c : Sender} (h1 : NoReply a b) (h2 : NoReply b c) :
    NoReply a c := by
  obtain ⟨d, hd, hc⟩ := h2
  exact h1.quietStep d hd hc

theorem SnapshotSteps.noReply {s0 s : Sender} (h : SnapshotSteps s0 s) : NoReply s0 s := by
  obtain ⟨d, hd, hc, _⟩ := h
  refine ⟨d, hd, ?_⟩
  rw [List.all_eq_true] at hc ⊢
  intro e he
  have := hc e he
  cases e <;> simp_all [Event.isSnapshotStep, Event.isReply]

theorem getMaxBinLog_noReply (env : Env) (s0 s : Sender) (h0 : NoReply s0 s) :
    NoReply s0 (getMaxBinLog env s).state := by
  have hs : NoReply s0
      { s with nMaxBinlog := s.nMaxBinlog + 1,
               trace := s.trace ++ [Event.getMaxBinlogId (env.getMaxBinlogId s.nMaxBinlog)] } :=
    h0.quietStep [_] rfl rfl
  unfold getMaxBinLog
  dsimp only
  split
  · exact hs
  · split
    · exact hs
    · split <;> exact hs

theorem catchupBinlog_noReply (env : Env) (a b sl : Nat) (s0 s : Sender)
    (h0 : NoReply s0 s) : NoReply s0 (catchupBinlog env a b sl s).state := by
  have hs : NoReply s0
      { s with nSendBinlog := s.nSendBinlog + 1,
               trace := s.trace ++
                 [Event.SendSlotsBinlog a b sl (env.SendSlotsBinlog s.nSendBinlog)] } :=
    h0.quietStep [_] rfl rfl
  unfold catchupBinlog
  dsimp only
  split
  · exact hs
  · split <;> exact hs

theorem pursueBinLogLoop_noReply (env : Env) (n : Nat) :
    ∀ (high : Nat) (fin : Bool) (s0 s : Sender), NoReply s0 s →
      NoReply s0 (pursueBinLogLoop env n high fin s).state := by
  induction n with
  | zero => intro high fin s0 s h0; exact h0
  | succ n ih =>
    intro high fin s0 s h0
    have hc := catchupBinlog_noReply env s.curBinlogid high s.slots s0 s h0
    simp only [pursueBinLogLoop]
    split
    · next s1 heq => rw [heq] at hc; exact hc
    · next s1 heq => rw [heq] at hc; exact hc
    · next sendNum s1 heq =>
      rw [heq] at hc
      have h2 : NoReply s0
          { s1 with binlogNum := (s1.binlogNum + sendNum) % 2 ^ 64,
                    curBinlogid := high,
                    nHighest := s1.nHighest + 1,
                    trace := s1.trace ++
                      [Event.getHighestBinlogId (env.getHighestBinlogId s1.nHighest % 2 ^ 64)] } :=
        hc.quietStep [_] rfl rfl
      have hm := getMaxBinLog_noReply env s0 _ h2
      split
      · next s3 heq2 => rw [heq2] at hm; exact hm
      · next m s3 heq2 =>
        rw [heq2] at hm
        split
        · exact hm.quietStep [] (List.append_nil _).symm rfl
        · exact ih _ _ _ _ hm

theorem sendBinlogLocked_noReply (env : Env) (txnOk : Bool) (s0 s : Sender)
    (h0 : NoReply s0 s) : NoReply s0 (sendBinlogLocked env txnOk s).state := by
  have h1 : NoReply s0
      { s with nLock := s.nLock + 1,
               trace := s.trace ++ [Event.lockChunks s.slots (env.lockChunks s.nLock)] } :=
    h0.quietStep [_] rfl rfl
  unfold sendBinlogLocked
  dsimp only
  split
  · exact h1
  · split
    · exact h1
    · have hm := getMaxBinLog_noReply env s0 _ h1
      split
      · next s2 heq => rw [heq] at hm; exact hm
      · next m s2 heq =>
        rw [heq] at hm
        split
        · have hc := catchupBinlog_noReply env s2.curBinlogid m s2.slots s0 s2 hm
          split
          · next s3 heq3 => rw [heq3] at hc; exact hc
          · next s3 heq3 =>
            rw [heq3] at hc
            exact hc.quietStep [_] rfl rfl
          · next v s3 heq3 =>
            rw [heq3] at hc
            exact hc.quietStep [] (List.append_nil _).symm rfl
        · exact hm

theorem sendBinlog_noReply (env : Env) (maxTime : Nat) (s : Sender) :
    NoReply s (sendBinlog env maxTime s).state := by
  have h1 : NoReply s
      { s with nTxn := s.nTxn + 1,
               nHighest := s.nHighest + 1,
               trace := s.trace ++ [Event.createTransaction (env.createTransaction s.nTxn),
                 Event.getHighestBinlogId (env.getHighestBinlogId s.nHighest % 2 ^ 64)] } :=
    (NoReply.quietRefl s).quietStep [_, _] rfl rfl
  unfold sendBinlog
  dsimp only
  split
  · split
    · exact h1
    · have hp := pursueBinLogLoop_noReply env maxTime
        (env.getHighestBinlogId s.nHighest % 2 ^ 64) true s _ h1
      unfold pursueBinLog
      split
      · next s2 heq => rw [heq] at hp; exact hp
      · next c hh s2 heq =>
        rw [heq] at hp
        split
        · exact hp
        · exact sendBinlogLocked_noReply env _ s s2 hp
  · exact sendBinlogLocked_noReply env _ s _ h1

theorem checkSlotsBlongDst_empty (env : Env) (dstNode : Nat) :
    checkSlotsBlongDst env dstNode 0 = true := by
  rw [checkSlotsBlongDst_iff]
  intro i _ hb
  simp at hb

/-- What `sendOver` does when the owner check holds: the write and nothing else. -/
theorem sendOver_owned (env : Env) (s : Sender)
    (hc : checkSlotsBlongDst env s.dstNode s.slots = true) :
    (sendOver env s).2 =
      { s with nWrite := s.nWrite + 1,
               trace := s.trace ++
                 [Event.writeData (.str (migrateendCommand env s)) (env.writeData s.nWrite)] } ∧
    ((env.writeData s.nWrite).ok = true → (sendOver env s).1 = ⟨.ERR_OK, ""⟩) := by
  unfold sendOver
  simp only [hc, if_true]
  cases hw : (env.writeData s.nWrite).ok <;> simp

/-- The runs of `sendChunk` on the empty bitmap that return ok. -/
theorem sendChunk_empty_run (env : Env) (s : Sender) (hs : s.slots = 0) (st : Status)
    (hr : (sendChunk env s).result = some st) (hok : st.ok = true) :
    (sendChunk env s).state.sendstate = .METACHANGE_DONE ∧
    NoReply s (sendChunk env s).state := by
  obtain ⟨-, ⟨-, b2, b3, -, -⟩, -, -⟩ := phase_frames env s
  have hsnap : NoReply s (snapshotPhase env s).2 := (sendSnapshot_steps env s.slots s).noReply
  have hbin : NoReply s (binlogPhase env s).state :=
    (hsnap.quietStep [Event.setStatus .SNAPSHOT_DONE] rfl rfl).quietTrans
      (sendBinlog_noReply env 10 (setSenderStatus .SNAPSHOT_DONE (snapshotPhase env s).2))
  have hcheck : checkSlotsBlongDst env
      (setSenderStatus .BINLOG_DONE (binlogPhase env s).state).dstNode
      (setSenderStatus .BINLOG_DONE (binlogPhase env s).state).slots = true := by
    rw [(setSenderStatus_same_fields _ _).1, b2, hs]
    exact checkSlotsBlongDst_empty env _
  have hover : NoReply s (overPhase env s).2 := by
    have h1 : NoReply s (setSenderStatus .BINLOG_DONE (binlogPhase env s).state) :=
      hbin.quietStep [Event.setStatus .BINLOG_DONE] rfl rfl
    have h2 := (sendOver_owned env _ hcheck).1
    exact h1.quietStep
      [Event.writeData
        (.str (migrateendCommand env (setSenderStatus .BINLOG_DONE (binlogPhase env s).state)))
        (env.writeData (setSenderStatus .BINLOG_DONE (binlogPhase env s).state).nWrite)]
      (by rw [overPhase, h2]) rfl
  have hunlock : NoReply s (unlockPhase env s).2 :=
    hover.quietStep [_] (unlockChunks_trace env _) rfl
  rcases sendChunk_cases env s with
    ⟨h1, hc⟩ | ⟨h1, s2, h2, hc⟩ | ⟨h1, st2, s2, h2, h3, hc⟩ |
    ⟨h1, st2, s2, h2, h3, h4, st', h5, -, hc⟩ | ⟨h1, st2, s2, h2, h3, h4, h5, hc⟩ |
    ⟨h1, st2, s2, h2, h3, h4, h5, hc⟩
  · rw [hc] at hr
    simp only [Run.result, Option.some.injEq] at hr
    rw [hr, hok] at h1
    cases h1
  · rw [hc] at hr
    cases hr
  · rw [hc] at hr
    simp only [Run.result, Option.some.injEq] at hr
    rw [hr, hok] at h3
    cases h3
  · rw [hc] at hr
    simp only [Run.result, Option.some.injEq] at hr
    rw [hr, hok] at h5
    cases h5
  · rw [hc] at hr
    simp only [Run.result, Option.some.injEq] at hr
    rw [← hr] at hok
    cases hok
  · rw [hc]
    exact ⟨rfl, hunlock.quietStep [Event.setStatus .METACHANGE_DONE] rfl rfl⟩

/-! # The claims -/

/-- C1 (the code at the failing input): the peer answers `migrateend` with `-ERR`.
`sendChunk` returns the network error and `setSlots` is not called, but the only
locking call of the whole run is the successful `lockChunks`: the slots, locked in
`sendBinlog`, are never unlocked. -/
theorem sendChunk_nack_leaves_slots_locked :
    (sendChunk nackEnv sender3).result = some ⟨.ERR_NETWORK, "bad return string"⟩ ∧
    (sendChunk nackEnv sender3).state.trace.filter Event.isLocking =
      [Event.lockChunks 8 ⟨.ERR_OK, ""⟩] ∧
    (sendChunk nackEnv sender3).state.nUnlock = 0 ∧
    (sendChunk nackEnv sender3).state.nSetSlots = 0 := by
  decide

/-- C2 (the code at the failing input): ten passes that each leave a lag of 1000
against a migrate distance of 50. `sendBinlog` makes the ten passes, records no
`endBinlogid`, and then takes the slot lock, ships the tail and returns ok instead
of a timeout; `sendChunk` goes on to write `migrateend` and returns ok. -/
theorem sendBinlog_storm_not_timeout :
    (binlogPhase stormEnv sender3).result = some ⟨.ERR_OK, ""⟩ ∧
    shipments (binlogPhase stormEnv sender3).state.trace =
      [(1000, 2000), (2000, 3000), (3000, 4000), (4000, 5000), (5000, 6000), (6000, 7000),
       (7000, 8000), (8000, 9000), (9000, 10000), (10000, 11000), (11000, 13000)] ∧
    (binlogPhase stormEnv sender3).state.endBinlogid = sender3.endBinlogid ∧
    (binlogPhase stormEnv sender3).state.trace.filter Event.isLocking =
      [Event.lockChunks 8 ⟨.ERR_OK, ""⟩] ∧
    (sendChunk stormEnv sender3).result = some ⟨.ERR_OK, ""⟩ := by
  decide

/-- C3: when a run of `sendChunk` takes the status to METACHANGE_DONE, its trace ends
with the successful write of `migrateend`, followed either directly by the unlock
(and then the cluster state named the destination as owner of every migrated slot)
or by the reply line `+OK`, the successful `setSlots` and the unlock; the status
write comes last. -/
theorem sendChunk_metachange_done_only_if (env : Env) (s : Sender)
    (h0 : s.sendstate ≠ .METACHANGE_DONE)
    (h : (sendChunk env s).state.sendstate = .METACHANGE_DONE) :
    ∃ (pre : List Event) (w u : Status), w.ok = true ∧ u.ok = true ∧
      (((∀ i, i < env.CLUSTER_SLOTS → s.slots.testBit i = true →
            env.getNodeBySlot i = s.dstNode) ∧
        (sendChunk env s).state.trace = pre ++
          [Event.writeData (.str (migrateendCommand env s)) w,
           Event.unlockChunks s.slots u,
           Event.setStatus .METACHANGE_DONE]) ∨
       (∃ r : Status, r.ok = true ∧
        (sendChunk env s).state.trace = pre ++
          [Event.writeData (.str (migrateendCommand env s)) w,
           Event.readLine env.timeoutSecBinlogWaitRsp (.value "+OK"),
           Event.setSlots s.dstNode s.slots r,
           Event.unlockChunks s.slots u,
           Event.setStatus .METACHANGE_DONE])) := by
  obtain ⟨hS, ⟨b1, b2, b3, b4, -⟩, ⟨o1, o2, -, -, -⟩, ⟨u1, -, -⟩⟩ := phase_frames env s
  rcases sendChunk_cases env s with
    ⟨h1, hc⟩ | ⟨h1, s2, h2, hc⟩ | ⟨h1, st, s2, h2, h3, hc⟩ |
    ⟨h1, st, s2, h2, h3, h4, st', h5, -, hc⟩ | ⟨h1, st, s2, h2, h3, h4, h5, hc⟩ |
    ⟨h1, st, s2, h2, h3, h4, h5, hc⟩
  · rw [hc] at h
    exact absurd (hS.sendstate.symm.trans h) h0
  · have hst : (binlogPhase env s).state = s2 := by rw [h2]; rfl
    rw [hc] at h
    rw [hst] at b1
    simp [Run.state, b1] at h
  · have hst : (binlogPhase env s).state = s2 := by rw [h2]; rfl
    rw [hc] at h
    rw [hst] at b1
    simp [Run.state, b1] at h
  · rw [hc] at h
    simp [Run.state, o1] at h
  · rw [hc] at h
    simp [Run.state, u1] at h
  · have e2 := setSenderStatus_same_fields .BINLOG_DONE (binlogPhase env s).state
    have hcmd : migrateendCommand env (setSenderStatus .BINLOG_DONE (binlogPhase env s).state)
        = migrateendCommand env s :=
      migrateendCommand_congr env s _ (e2.1.trans b2) (e2.2.2.1.trans b4)
    obtain ⟨hw, hcase⟩ := sendOver_ok env _ h4
    refine ⟨(setSenderStatus .BINLOG_DONE (binlogPhase env s).state).trace, _, _, hw, h5, ?_⟩
    rw [hcmd, e2.1, e2.2.1, b2, b3] at hcase
    rcases hcase with ⟨hchk, htr⟩ | ⟨hset, htr⟩
    · left
      refine ⟨(checkSlotsBlongDst_iff env _ _).1 hchk, ?_⟩
      rw [hc]
      show (setSenderStatus _ (unlockChunks env (overPhase env s).2).2).trace = _
      rw [setSenderStatus_trace, unlockChunks_trace,
        show (overPhase env s).2.trace = _ from htr, o2]
      simp [unlockPhase]
    · right
      refine ⟨_, hset, ?_⟩
      rw [hc]
      show (setSenderStatus _ (unlockChunks env (overPhase env s).2).2).trace = _
      rw [setSenderStatus_trace, unlockChunks_trace,
        show (overPhase env s).2.trace = _ from htr, o2]
      simp [unlockPhase]

/-- C3 at the quiet scenario: the peer acks `migrateend` and the status reaches
METACHANGE_DONE. -/
theorem sendChunk_metachange_done_only_if_witness :
    sender3.sendstate ≠ .METACHANGE_DONE ∧
    (sendChunk quietEnv sender3).state.sendstate = .METACHANGE_DONE ∧
    ∃ (pre : List Event) (w u : Status), w.ok = true ∧ u.ok = true ∧
      (((∀ i, i < quietEnv.CLUSTER_SLOTS → sender3.slots.testBit i = true →
            quietEnv.getNodeBySlot i = sender3.dstNode) ∧
        (sendChunk quietEnv sender3).state.trace = pre ++
          [Event.writeData (.str (migrateendCommand quietEnv sender3)) w,
           Event.unlockChunks sender3.slots u,
           Event.setStatus .METACHANGE_DONE]) ∨
       (∃ r : Status, r.ok = true ∧
        (sendChunk quietEnv sender3).state.trace = pre ++
          [Event.writeData (.str (migrateendCommand quietEnv sender3)) w,
           Event.readLine quietEnv.timeoutSecBinlogWaitRsp (.value "+OK"),
           Event.setSlots sender3.dstNode sender3.slots r,
           Event.unlockChunks sender3.slots u,
           Event.setStatus .METACHANGE_DONE])) :=
  ⟨by decide, by decide,
    sendChunk_metachange_done_only_if quietEnv sender3 (by decide) (by decide)⟩

/-- C4: on a sender whose status is SNAPSHOT_BEGIN, the statuses written by `sendChunk`
extend SNAPSHOT_BEGIN to an initial segment of SNAPSHOT_BEGIN, SNAPSHOT_DONE,
BINLOG_DONE, METACHANGE_DONE; the final status is the last of them; SNAPSHOT_DONE is
written only when `sendSnapshot` returned ok, BINLOG_DONE only when `sendBinlog`
returned ok, METACHANGE_DONE only when `sendOver` and `unlockChunks` returned ok; and
`sendChunk` returns ok exactly when the final status is METACHANGE_DONE. -/
theorem sendChunk_status_sequence (env : Env) (s : Sender)
    (h0 : s.sendstate = .SNAPSHOT_BEGIN) :
    ∃ W : List MigrateSenderStatus,
      statusWrites (sendChunk env s).state.trace = statusWrites s.trace ++ W ∧
      (s.sendstate :: W) <+:
        [.SNAPSHOT_BEGIN, .SNAPSHOT_DONE, .BINLOG_DONE, .METACHANGE_DONE] ∧
      (s.sendstate :: W).getLast? = some (sendChunk env s).state.sendstate ∧
      (.SNAPSHOT_DONE ∈ W → (snapshotPhase env s).1.ok = true) ∧
      (.BINLOG_DONE ∈ W → (binlogPhase env s).result.map Status.ok = some true) ∧
      (.METACHANGE_DONE ∈ W →
        (overPhase env s).1.ok = true ∧ (unlockPhase env s).1.ok = true) ∧
      ((sendChunk env s).result.map Status.ok = some true ↔
        (sendChunk env s).state.sendstate = .METACHANGE_DONE) := by
  obtain ⟨hS, ⟨b1, -, -, -, b5⟩, ⟨o1, -, -, -, o5⟩, ⟨u1, -, u5⟩⟩ := phase_frames env s
  rcases sendChunk_cases env s with
    ⟨h1, hc⟩ | ⟨h1, s2, h2, hc⟩ | ⟨h1, st, s2, h2, h3, hc⟩ |
    ⟨h1, st, s2, h2, h3, h4, st', h5, -, hc⟩ | ⟨h1, st, s2, h2, h3, h4, h5, hc⟩ |
    ⟨h1, st, s2, h2, h3, h4, h5, hc⟩
  · refine ⟨[], ?_, ?_, ?_, ?_, ?_, ?_, ?_⟩
    · simp [hc, Run.state, hS.writes]
    · rw [h0]; exact ⟨[_, _, _], rfl⟩
    · simp [hc, Run.state, hS.sendstate]
    · simp
    · simp
    · simp
    · simp [hc, Run.state, Run.result, h1, hS.sendstate, h0]
  · have hst : (binlogPhase env s).state = s2 := by rw [h2]; rfl
    rw [hst] at b1 b5
    refine ⟨[.SNAPSHOT_DONE], ?_, ?_, ?_, ?_, ?_, ?_, ?_⟩
    · simp [hc, Run.state, b5]
    · rw [h0]; exact ⟨[_, _], rfl⟩
    · simp [hc, Run.state, b1]
    · intro _; exact h1
    · simp
    · simp
    · simp [hc, Run.state, Run.result, b1]
  · have hst : (binlogPhase env s).state = s2 := by rw [h2]; rfl
    rw [hst] at b1 b5
    refine ⟨[.SNAPSHOT_DONE], ?_, ?_, ?_, ?_, ?_, ?_, ?_⟩
    · simp [hc, Run.state, b5]
    · rw [h0]; exact ⟨[_, _], rfl⟩
    · simp [hc, Run.state, b1]
    · intro _; exact h1
    · simp
    · simp
    · simp [hc, Run.state, Run.result, b1, h3]
  · refine ⟨[.SNAPSHOT_DONE, .BINLOG_DONE], ?_, ?_, ?_, ?_, ?_, ?_, ?_⟩
    · simp [hc, Run.state, o5]
    · rw [h0]; exact ⟨[_], rfl⟩
    · simp [hc, Run.state, o1]
    · intro _; exact h1
    · intro _; simp [h2, Run.result, h3]
    · simp
    · simp [hc, Run.state, Run.result, o1, h5]
  · refine ⟨[.SNAPSHOT_DONE, .BINLOG_DONE], ?_, ?_, ?_, ?_, ?_, ?_, ?_⟩
    · simp [hc, Run.state, u5]
    · rw [h0]; exact ⟨[_], rfl⟩
    · simp [hc, Run.state, u1]
    · intro _; exact h1
    · intro _; simp [h2, Run.result, h3]
    · simp
    · simp [hc, Run.state, Run.result, u1, Status.ok]
  · refine ⟨[.SNAPSHOT_DONE, .BINLOG_DONE, .METACHANGE_DONE], ?_, ?_, ?_, ?_, ?_, ?_, ?_⟩
    · rw [hc]
      simp only [Run.state]
      rw [(setSenderStatus_same_fields _ _).2.2.2.2, u5]
      simp
    · rw [h0]
    · simp [hc, Run.state, setSenderStatus]
    · intro _; exact h1
    · intro _; simp [h2, Run.result, h3]
    · intro _; exact ⟨h4, h5⟩
    · simp [hc, Run.state, Run.result, setSenderStatus, Status.ok]

/-- C4 at the quiet scenario, on a freshly constructed sender. -/
theorem sendChunk_status_sequence_witness :
    sender3.sendstate = .SNAPSHOT_BEGIN ∧
    ∃ W : List MigrateSenderStatus,
      statusWrites (sendChunk quietEnv sender3).state.trace = statusWrites sender3.trace ++ W ∧
      (sender3.sendstate :: W) <+:
        [.SNAPSHOT_BEGIN, .SNAPSHOT_DONE, .BINLOG_DONE, .METACHANGE_DONE] ∧
      (sender3.sendstate :: W).getLast? = some (sendChunk quietEnv sender3).state.sendstate ∧
      (.SNAPSHOT_DONE ∈ W → (snapshotPhase quietEnv sender3).1.ok = true) ∧
      (.BINLOG_DONE ∈ W → (binlogPhase quietEnv sender3).result.map Status.ok = some true) ∧
      (.METACHANGE_DONE ∈ W →
        (overPhase quietEnv sender3).1.ok = true ∧ (unlockPhase quietEnv sender3).1.ok = true) ∧
      ((sendChunk quietEnv sender3).result.map Status.ok = some true ↔
        (sendChunk quietEnv sender3).state.sendstate = .METACHANGE_DONE) :=
  ⟨rfl, sendChunk_status_sequence quietEnv sender3 rfl⟩

/-- C5, as stated, fails: when the shard cannot be opened `sendChunk` returns an
internal error and the status is still SNAPSHOT_BEGIN, not `failed(internal)`. -/
theorem sendChunk_error_status_not_failed :
    (sendChunk noDbEnv sender3).result = some ⟨.ERR_INTERNAL, "getDb failed"⟩ ∧
    (sendChunk noDbEnv sender3).state.sendstate = .SNAPSHOT_BEGIN ∧
    (sendChunk noDbEnv sender3).state.sendstate ≠ .failed .ERR_INTERNAL := by
  decide

/-- C5 (amended): when `sendChunk`, started in SNAPSHOT_BEGIN, returns a status that is
not ok, the sender status is never `failed`: it is SNAPSHOT_BEGIN when `sendSnapshot`
failed, SNAPSHOT_DONE when `sendBinlog` failed, and BINLOG_DONE when `sendOver` or
`unlockChunks` failed. -/
theorem sendChunk_error_keeps_phase_status (env : Env) (s : Sender) (st : Status)
    (h0 : s.sendstate = .SNAPSHOT_BEGIN)
    (hr : (sendChunk env s).result = some st) (hst : st.ok = false) :
    (∀ k, (sendChunk env s).state.sendstate ≠ .failed k) ∧
    (((snapshotPhase env s).1.ok = false ∧
        (sendChunk env s).state.sendstate = .SNAPSHOT_BEGIN) ∨
     ((snapshotPhase env s).1.ok = true ∧
        (binlogPhase env s).result.map Status.ok = some false ∧
        (sendChunk env s).state.sendstate = .SNAPSHOT_DONE) ∨
     ((snapshotPhase env s).1.ok = true ∧
        (binlogPhase env s).result.map Status.ok = some true ∧
        ((overPhase env s).1.ok = false ∨ (unlockPhase env s).1.ok = false) ∧
        (sendChunk env s).state.sendstate = .BINLOG_DONE)) := by
  obtain ⟨hS, ⟨b1, -, -, -, -⟩, ⟨o1, -, -, -, -⟩, ⟨u1, -, -⟩⟩ := phase_frames env s
  rcases sendChunk_cases env s with
    ⟨h1, hc⟩ | ⟨h1, s2, h2, hc⟩ | ⟨h1, st2, s2, h2, h3, hc⟩ |
    ⟨h1, st2, s2, h2, h3, h4, st', h5, -, hc⟩ | ⟨h1, st2, s2, h2, h3, h4, h5, hc⟩ |
    ⟨h1, st2, s2, h2, h3, h4, h5, hc⟩
  · have e : (sendChunk env s).state.sendstate = .SNAPSHOT_BEGIN := by
      rw [hc]; exact hS.sendstate.trans h0
    exact ⟨fun k => by rw [e]; simp, Or.inl ⟨h1, e⟩⟩
  · rw [hc] at hr; simp [Run.result] at hr
  · have hst2 : (binlogPhase env s).state = s2 := by rw [h2]; rfl
    have e : (sendChunk env s).state.sendstate = .SNAPSHOT_DONE := by
      rw [hc]; rw [hst2] at b1; exact b1
    exact ⟨fun k => by rw [e]; simp, Or.inr (Or.inl ⟨h1, by simp [h2, Run.result, h3], e⟩)⟩
  · have e : (sendChunk env s).state.sendstate = .BINLOG_DONE := by
      rw [hc]; exact o1
    exact ⟨fun k => by rw [e]; simp,
      Or.inr (Or.inr ⟨h1, by simp [h2, Run.result, h3], Or.inl h4, e⟩)⟩
  · have e : (sendChunk env s).state.sendstate = .BINLOG_DONE := by
      rw [hc]; exact u1
    exact ⟨fun k => by rw [e]; simp,
      Or.inr (Or.inr ⟨h1, by simp [h2, Run.result, h3], Or.inr h5, e⟩)⟩
  · rw [hc] at hr
    simp only [Run.result, Option.some.injEq] at hr
    subst hr
    simp [Status.ok] at hst

/-- C5 (amended) at the scenario S4: the peer nacks `migrateend`, the status stays
BINLOG_DONE. -/
theorem sendChunk_error_keeps_phase_status_witness :
    sender3.sendstate = .SNAPSHOT_BEGIN ∧
    (sendChunk nackEnv sender3).result = some ⟨.ERR_NETWORK, "bad return string"⟩ ∧
    Status.ok ⟨.ERR_NETWORK, "bad return string"⟩ = false ∧
    ((∀ k, (sendChunk nackEnv sender3).state.sendstate ≠ .failed k) ∧
    (((snapshotPhase nackEnv sender3).1.ok = false ∧
        (sendChunk nackEnv sender3).state.sendstate = .SNAPSHOT_BEGIN) ∨
     ((snapshotPhase nackEnv sender3).1.ok = true ∧
        (binlogPhase nackEnv sender3).result.map Status.ok = some false ∧
        (sendChunk nackEnv sender3).state.sendstate = .SNAPSHOT_DONE) ∨
     ((snapshotPhase nackEnv sender3).1.ok = true ∧
        (binlogPhase nackEnv sender3).result.map Status.ok = some true ∧
        ((overPhase nackEnv sender3).1.ok = false ∨ (unlockPhase nackEnv sender3).1.ok = false) ∧
        (sendChunk nackEnv sender3).state.sendstate = .BINLOG_DONE))) :=
  ⟨rfl, by decide, by decide,
    sendChunk_error_keeps_phase_status nackEnv sender3 ⟨.ERR_NETWORK, "bad return string"⟩
      rfl (by decide) (by decide)⟩

/-- C6, as stated, fails: on a slot whose cursor yields 2^32 records, with every write
succeeding and every ack `+OK`, `sendRange` returns 0, not 2^32 (`totalWriteNum` is a
`uint32_t`). -/
theorem sendRange_count_wraps :
    cursorYield (crowdedEnv.createSlotsCursor 0 0 1) = 2 ^ 32 ∧
    (sendRange crowdedEnv 0 0 1 sender0).1 = .value 0 ∧
    (sendRange crowdedEnv 0 0 1 sender0).1 ≠ .value (2 ^ 32) := by
  have h : crowdedEnv.createSlotsCursor 0 0 1 = manyRecords.map Expected.value ++ [] := by
    rw [List.append_nil]; rfl
  have hres := (sendRange_all_ok crowdedEnv 0 0 1 sender0 manyRecords [] h trivial
    (fun _ => rfl) (fun _ => rfl)).1
  rw [manyRecords_length, Nat.mod_self] at hres
  refine ⟨crowded_yield 0 0 1, hres, ?_⟩
  rw [hres]
  intro hc
  injection hc with hc
  exact absurd hc (by norm_num)

/-- C6 (amended): for a cursor that yields the records `recs` and is then exhausted,
with every write succeeding and every ack `+OK`, `sendRange` makes the cursor and
then puts on the wire exactly the frames of the specification: for each record in
order the tag `'0'`, the 4-byte key length, the key, the 4-byte value length and the
value, with the tag `'1'` and one ack read right after every record whose ordinal is a
multiple of 1000, then the tag `'2'` and one ack read; there are `n / 1000 + 1` ack
reads in all; and it returns `n mod 2^32`, where `n` is the number of records. -/
theorem sendRange_frames (env : Env) (txn b e : Nat) (s : Sender) (recs : List Record)
    (tl : List (Expected Record))
    (hcur : env.createSlotsCursor txn b e = recs.map Expected.value ++ tl)
    (htl : Exhausted tl)
    (hw : ∀ k, (env.writeData k).ok = true) (hr : ∀ k, env.read k = .value "+OK") :
    (sendRange env txn b e s).1 = .value (recs.length % 2 ^ 32) ∧
    (∃ Δ, (sendRange env txn b e s).2.trace = s.trace ++ Event.createSlotsCursor txn b e :: Δ ∧
      Δ.map Event.wire = (rangeFrames recs).map some) ∧
    ((rangeFrames recs).filter Wire.isRead).length = recs.length / 1000 + 1 :=
  sendRange_all_ok env txn b e s recs tl hcur htl hw hr

/-- C6 (amended) at the quiet scenario: slot 3 holds two records. -/
theorem sendRange_frames_witness :
    quietEnv.createSlotsCursor 0 3 4 =
      [(⟨"k1", "v1"⟩ : Record), ⟨"k2", "v2"⟩].map Expected.value ++ [] ∧
    Exhausted [] ∧
    (∀ k, (quietEnv.writeData k).ok = true) ∧
    (∀ k, quietEnv.read k = .value "+OK") ∧
    ((sendRange quietEnv 0 3 4 sender3).1 =
        .value ([(⟨"k1", "v1"⟩ : Record), ⟨"k2", "v2"⟩].length % 2 ^ 32) ∧
     (∃ Δ, (sendRange quietEnv 0 3 4 sender3).2.trace =
          sender3.trace ++ Event.createSlotsCursor 0 3 4 :: Δ ∧
        Δ.map Event.wire = (rangeFrames [(⟨"k1", "v1"⟩ : Record), ⟨"k2", "v2"⟩]).map some) ∧
     ((rangeFrames [(⟨"k1", "v1"⟩ : Record), ⟨"k2", "v2"⟩]).filter Wire.isRead).length =
        [(⟨"k1", "v1"⟩ : Record), ⟨"k2", "v2"⟩].length / 1000 + 1) :=
  ⟨rfl, trivial, fun _ => rfl, fun _ => rfl,
    sendRange_frames quietEnv 0 3 4 sender3 [⟨"k1", "v1"⟩, ⟨"k2", "v2"⟩] [] rfl trivial
      (fun _ => rfl) (fun _ => rfl)⟩

/-- C7, as stated, fails: the one set slot yields 2^32 records, `sendSnapshot` returns
ok, and `_snapshotKeyNum` has not grown by 2^32: it is 0 modulo 2^64, as before. -/
theorem sendSnapshot_count_wraps :
    slotsOf crowdedEnv 1 = [0] ∧
    cursorYield (crowdedEnv.createSlotsCursor sender0.nTxn 0 1) = 2 ^ 32 ∧
    (sendSnapshot crowdedEnv 1 sender0).1 = ⟨.ERR_OK, "finish snapshot of bitmap"⟩ ∧
    (sendSnapshot crowdedEnv 1 sender0).2.snapshotKeyNum % 2 ^ 64 = sender0.snapshotKeyNum ∧
    (sendSnapshot crowdedEnv 1 sender0).2.snapshotKeyNum ≠ sender0.snapshotKeyNum + 2 ^ 32 :=
  have hslots : slotsOf crowdedEnv 1 = [0] := by decide
  have hcount : rangeCount crowdedEnv sender0.nTxn 0 = 0 :=
    (rangeCount_of_yield crowdedEnv sender0.nTxn 0 (2 ^ 32) (crowded_yield _ _ _)).trans
      (Nat.mod_self _)
  have hok : (sendSnapshot crowdedEnv 1 sender0).1.ok = true :=
    congrArg Status.ok crowded_snapshot_ok
  ⟨hslots, crowded_yield _ 0 1, crowded_snapshot_ok,
    sendSnapshot_wraps_of crowdedEnv 1 sender0 hslots hcount rfl hok⟩

/-- C7 (amended): a `sendSnapshot` that returns ok has made one cursor for each set
slot `i`, in ascending order of `i`, with the range `[i, i+1)` on its snapshot
transaction, and none for an unset slot; its trace ends with the tag `'3'` and one
ack read answered `+OK`; `_snapshotKeyNum` has grown, modulo 2^64, by the sum over
the set slots of the number of records the cursor yielded modulo 2^32; and for the
empty bitmap the only payload written is the tag `'3'`. -/
theorem sendSnapshot_ok_summary (env : Env) (slots : Nat) (s : Sender)
    (hok : (sendSnapshot env slots s).1.ok = true) :
    cursorCalls (sendSnapshot env slots s).2.trace =
      cursorCalls s.trace ++ (slotsOf env slots).map (fun i => (s.nTxn, i, i + 1)) ∧
    (∃ pre w, (sendSnapshot env slots s).2.trace =
      pre ++ [Event.writeData (.str "3") w, Event.read 3 160 (.value "+OK")]) ∧
    (sendSnapshot env slots s).2.snapshotKeyNum % 2 ^ 64 =
      (s.snapshotKeyNum + ((slotsOf env slots).map (rangeCount env s.nTxn)).sum) % 2 ^ 64 ∧
    (slotsOf env slots = [] →
      written (sendSnapshot env slots s).2.trace = written s.trace ++ [.str "3"]) :=
  sendSnapshot_ok env slots s hok

/-- C7 (amended) at the quiet scenario: only slot 3 is set. -/
theorem sendSnapshot_ok_summary_witness :
    (sendSnapshot quietEnv 8 sender3).1.ok = true ∧
    (cursorCalls (sendSnapshot quietEnv 8 sender3).2.trace =
      cursorCalls sender3.trace ++
        (slotsOf quietEnv 8).map (fun i => (sender3.nTxn, i, i + 1)) ∧
    (∃ pre w, (sendSnapshot quietEnv 8 sender3).2.trace =
      pre ++ [Event.writeData (.str "3") w, Event.read 3 160 (.value "+OK")]) ∧
    (sendSnapshot quietEnv 8 sender3).2.snapshotKeyNum % 2 ^ 64 =
      (sender3.snapshotKeyNum +
        ((slotsOf quietEnv 8).map (rangeCount quietEnv sender3.nTxn)).sum) % 2 ^ 64 ∧
    (slotsOf quietEnv 8 = [] →
      written (sendSnapshot quietEnv 8 sender3).2.trace =
        written sender3.trace ++ [.str "3"])) :=
  ⟨by decide, sendSnapshot_ok_summary quietEnv 8 sender3 (by decide)⟩

/-- C8: in a run of `sendOver` whose `migrateend` write succeeded and in which the
cluster state does not name the destination as owner of every migrated slot: a failed
read of the reply gives the cluster error "missing package", a reply other than
`+OK` gives a network error, and in both cases the run consists of the write and the
read only (no `setSlots`); the reply `+OK` is followed by exactly one
`setSlots(dstNode, slots)`, and `sendOver` returns ok when that succeeds and a
cluster error when it fails. -/
theorem sendOver_reply (env : Env) (s : Sender)
    (hw : (env.writeData s.nWrite).ok = true)
    (hc : ¬ ∀ i, i < env.CLUSTER_SLOTS → s.slots.testBit i = true →
            env.getNodeBySlot i = s.dstNode) :
    (∀ e h, env.readLine s.nReadLine = .error e h →
        (sendOver env s).1 = ⟨.ERR_CLUSTER, "missing package"⟩ ∧
        (sendOver env s).2.trace = s.trace ++
          [Event.writeData (.str (migrateendCommand env s)) (env.writeData s.nWrite),
           Event.readLine env.timeoutSecBinlogWaitRsp (env.readLine s.nReadLine)]) ∧
    (∀ line, env.readLine s.nReadLine = .value line → line ≠ "+OK" →
        (sendOver env s).1.code = .ERR_NETWORK ∧
        (sendOver env s).2.trace = s.trace ++
          [Event.writeData (.str (migrateendCommand env s)) (env.writeData s.nWrite),
           Event.readLine env.timeoutSecBinlogWaitRsp (env.readLine s.nReadLine)]) ∧
    (env.readLine s.nReadLine = .value "+OK" →
        (sendOver env s).2.trace = s.trace ++
          [Event.writeData (.str (migrateendCommand env s)) (env.writeData s.nWrite),
           Event.readLine env.timeoutSecBinlogWaitRsp (env.readLine s.nReadLine),
           Event.setSlots s.dstNode s.slots (env.setSlots s.nSetSlots)] ∧
        ((env.setSlots s.nSetSlots).ok = true → (sendOver env s).1 = ⟨.ERR_OK, ""⟩) ∧
        ((env.setSlots s.nSetSlots).ok = false → (sendOver env s).1.code = .ERR_CLUSTER)) := by
  have hc' : checkSlotsBlongDst env s.dstNode s.slots = false := by
    rw [← Bool.not_eq_true, checkSlotsBlongDst_iff]; exact hc
  refine ⟨?_, ?_, ?_⟩
  · intro e h hr
    simp [sendOver, hw, hc', hr]
  · intro line hr hne
    simp [sendOver, hw, hc', hr, hne]
  · intro hr
    refine ⟨?_, ?_, ?_⟩
    · simp only [sendOver, hw, hc', hr]
      by_cases hs : (env.setSlots s.nSetSlots).ok = true <;> simp [hs]
    · intro hs
      simp [sendOver, hw, hc', hr, hs]
    · intro hs
      simp [sendOver, hw, hc', hr, hs]

/-- C8 at the scenario S4: the peer answers `-ERR`. -/
theorem sendOver_reply_witness :
    (nackEnv.writeData sender3.nWrite).ok = true ∧
    (¬ ∀ i, i < nackEnv.CLUSTER_SLOTS → sender3.slots.testBit i = true →
        nackEnv.getNodeBySlot i = sender3.dstNode) ∧
    ((∀ e h, nackEnv.readLine sender3.nReadLine = .error e h →
        (sendOver nackEnv sender3).1 = ⟨.ERR_CLUSTER, "missing package"⟩ ∧
        (sendOver nackEnv sender3).2.trace = sender3.trace ++
          [Event.writeData (.str (migrateendCommand nackEnv sender3))
             (nackEnv.writeData sender3.nWrite),
           Event.readLine nackEnv.timeoutSecBinlogWaitRsp
             (nackEnv.readLine sender3.nReadLine)]) ∧
    (∀ line, nackEnv.readLine sender3.nReadLine = .value line → line ≠ "+OK" →
        (sendOver nackEnv sender3).1.code = .ERR_NETWORK ∧
        (sendOver nackEnv sender3).2.trace = sender3.trace ++
          [Event.writeData (.str (migrateendCommand nackEnv sender3))
             (nackEnv.writeData sender3.nWrite),
           Event.readLine nackEnv.timeoutSecBinlogWaitRsp
             (nackEnv.readLine sender3.nReadLine)]) ∧
    (nackEnv.readLine sender3.nReadLine = .value "+OK" →
        (sendOver nackEnv sender3).2.trace = sender3.trace ++
          [Event.writeData (.str (migrateendCommand nackEnv sender3))
             (nackEnv.writeData sender3.nWrite),
           Event.readLine nackEnv.timeoutSecBinlogWaitRsp
             (nackEnv.readLine sender3.nReadLine),
           Event.setSlots sender3.dstNode sender3.slots
             (nackEnv.setSlots sender3.nSetSlots)] ∧
        ((nackEnv.setSlots sender3.nSetSlots).ok = true →
          (sendOver nackEnv sender3).1 = ⟨.ERR_OK, ""⟩) ∧
        ((nackEnv.setSlots sender3.nSetSlots).ok = false →
          (sendOver nackEnv sender3).1.code = .ERR_CLUSTER))) :=
  ⟨rfl, fun h => absurd (h 3 (by decide) (by decide)) (by decide),
    sendOver_reply nackEnv sender3 rfl
      (fun h => absurd (h 3 (by decide) (by decide)) (by decide))⟩

/-- C9: in a run of `sendOver` whose `migrateend` write succeeded and in which
`getNodeBySlot(i)` is the destination node for every set slot `i`, `sendOver` returns
ok and the run consists of the write alone: no reply is read and `setSlots` is not
called. -/
theorem sendOver_already_owned (env : Env) (s : Sender)
    (hw : (env.writeData s.nWrite).ok = true)
    (hc : ∀ i, i < env.CLUSTER_SLOTS → s.slots.testBit i = true →
            env.getNodeBySlot i = s.dstNode) :
    sendOver env s =
      (⟨.ERR_OK, ""⟩,
       { s with nWrite := s.nWrite + 1,
                trace := s.trace ++
                  [Event.writeData (.str (migrateendCommand env s)) (env.writeData s.nWrite)] }) := by
  have hc' : checkSlotsBlongDst env s.dstNode s.slots = true :=
    (checkSlotsBlongDst_iff env s.dstNode s.slots).2 hc
  simp [sendOver, hw, hc']

/-- C9 at the scenario S5: the cluster state already names the destination. -/
theorem sendOver_already_owned_witness :
    (ownedEnv.writeData sender3.nWrite).ok = true ∧
    (∀ i, i < ownedEnv.CLUSTER_SLOTS → sender3.slots.testBit i = true →
        ownedEnv.getNodeBySlot i = sender3.dstNode) ∧
    sendOver ownedEnv sender3 =
      (⟨.ERR_OK, ""⟩,
       { sender3 with nWrite := sender3.nWrite + 1,
                      trace := sender3.trace ++
                        [Event.writeData (.str (migrateendCommand ownedEnv sender3))
                          (ownedEnv.writeData sender3.nWrite)] }) :=
  ⟨rfl, fun _ _ _ => rfl, sendOver_already_owned ownedEnv sender3 rfl (fun _ _ _ => rfl)⟩

/-- C10 (the code at the failing input): three binlog ids are left once the lock is
held and `SendSlotsBinlog` fails on them. When `value()` of the failed result does
not return, neither does `sendBinlog`; when it yields 7, `sendBinlog` returns ok and
counts 7 more binlogs. Either way the only locking call is the successful
`lockChunks`: no unlock, no network error. -/
theorem sendBinlog_last_shipment_failure :
    Event.SendSlotsBinlog 5 8 8 (.error ⟨.ERR_NETWORK, "send binlog failed"⟩ rfl) ∈
      (sendBinlog (lastShipmentFailsEnv none) 10 sender3AfterSnapshot).state.trace ∧
    (sendBinlog (lastShipmentFailsEnv none) 10 sender3AfterSnapshot).result = none ∧
    (sendBinlog (lastShipmentFailsEnv none) 10 sender3AfterSnapshot).state.trace.filter
      Event.isLocking = [Event.lockChunks 8 ⟨.ERR_OK, ""⟩] ∧
    Event.SendSlotsBinlog 5 8 8 (.error ⟨.ERR_NETWORK, "send binlog failed"⟩ rfl) ∈
      (sendBinlog (lastShipmentFailsEnv (some 7)) 10 sender3AfterSnapshot).state.trace ∧
    (sendBinlog (lastShipmentFailsEnv (some 7)) 10 sender3AfterSnapshot).result =
      some ⟨.ERR_OK, ""⟩ ∧
    (sendBinlog (lastShipmentFailsEnv (some 7)) 10 sender3AfterSnapshot).state.binlogNum =
      sender3AfterSnapshot.binlogNum + 7 ∧
    (sendBinlog (lastShipmentFailsEnv (some 7)) 10 sender3AfterSnapshot).state.trace.filter
      Event.isLocking = [Event.lockChunks 8 ⟨.ERR_OK, ""⟩] := by
  decide

/-- C11: with a store whose `getHighestBinlogId` never decreases, and the loop of
`pursueBinLog` entered with `_curBinlogid < binlogHigh` where `binlogHigh` is an
earlier answer of the store (as in `sendBinlog`), at every pass boundary, before the
first pass and after each pass, the start `_curBinlogid` is at most the upper bound
`binlogHigh` of the next pass, which is at most whatever `getHighestBinlogId()`
answers from then on. -/
theorem pursueBinLog_pass_bounds (env : Env)
    (hmono : ∀ i j, i ≤ j →
      env.getHighestBinlogId i % 2 ^ 64 ≤ env.getHighestBinlogId j % 2 ^ 64)
    (n high : Nat) (s : Sender) (bh : Nat) (bs : Sender)
    (hb : PassBoundary env n high s bh bs)
    (hentry : s.curBinlogid < high)
    (hhigh : ∃ k, k < s.nHighest ∧ high = env.getHighestBinlogId k % 2 ^ 64) :
    bs.curBinlogid ≤ bh ∧
      ∀ k, bs.nHighest ≤ k → bh ≤ env.getHighestBinlogId k % 2 ^ 64 := by
  obtain ⟨h1, k0, hk0, hk1⟩ :=
    passBoundary_bounds env hmono n high s bh bs hb (Nat.le_of_lt hentry) hhigh
  refine ⟨h1, fun k hk => ?_⟩
  rw [hk1]
  exact hmono k0 k (by omega)

/-- C11 at the quiet scenario: the boundary after the first pass of a sender that is
two ids behind. -/
theorem pursueBinLog_pass_bounds_witness :
    ∃ bs, PassBoundary quietEnv 1 5 lateSender 5 bs ∧ lateSender.curBinlogid < 5 ∧
      bs.curBinlogid ≤ 5 ∧
      ∀ k, bs.nHighest ≤ k → 5 ≤ quietEnv.getHighestBinlogId k % 2 ^ 64 :=
  have hb := PassBoundary.afterPass 0 5 lateSender _ _ _
    (pursuePass_eq quietEnv 5 lateSender 0 5 (by decide) (by decide))
  ⟨_, hb, by decide,
    pursueBinLog_pass_bounds quietEnv (fun _ _ _ => Nat.le_refl _) 1 5 lateSender 5 _ hb
      (by decide) ⟨0, by decide, by decide⟩⟩

/-- C12: for every `maxTime` and all answers of the store (each `value()` taken in
the first `k` passes yielding a number), if `k ≤ maxTime` is such that no pass before
the `k`-th leaves a lag `maxBinlogId - start` (in `uint64_t`) below `migrateDistance`,
and either the `k`-th pass does or `k = maxTime`, then `pursueBinLog` returns after
exactly `k` shipments: pass `j` ships `(start_j, end_j]`, with `start_0` the
sender's `_curBinlogid`, `end_0` the given `binlogHigh`, `start_(j+1) = end_j` and
`end_(j+1)` the store's `getHighestBinlogId()` after pass `j`; `_binlogNum` has grown
by the sum of the counts of the passes (in `uint64_t`); and `_endBinlogid` is the last
pass's `maxBinlogId` on the converged exit and untouched otherwise. -/
theorem pursueBinLog_passes (env : Env) (maxTime high : Nat) (s : Sender) (k : Nat)
    (hk : k ≤ maxTime)
    (hdef : ∀ j, j < k →
      (passCount env s j).isSome = true ∧ (passMax env s j).isSome = true)
    (hnot : ∀ j, j + 1 < k → passConverged env high s j = false)
    (hlast : (0 < k ∧ passConverged env high s (k - 1) = true) ∨ k = maxTime) :
    ∃ s', pursueBinLog env maxTime high s = .ret (true, passEnd env high s k) s' ∧
      shipments s'.trace = shipments s.trace ++
        (List.range k).map (fun j => (passStart env high s j, passEnd env high s j)) ∧
      (∀ j, passStart env high s (j + 1) = passEnd env high s j ∧
        passEnd env high s (j + 1) = env.getHighestBinlogId (s.nHighest + j) % 2 ^ 64) ∧
      s'.binlogNum % 2 ^ 64 =
        (s.binlogNum + ((List.range k).map fun j => (passCount env s j).getD 0).sum)
          % 2 ^ 64 ∧
      s'.curBinlogid = passStart env high s k ∧
      s'.endBinlogid =
        if 0 < k ∧ passConverged env high s (k - 1) = true then
          (passMax env s (k - 1)).getD 0
        else s.endBinlogid := by
  obtain ⟨s', e1, e2, e3, e4, e5⟩ :=
    pursueBinLogLoop_passes env maxTime high s k hk hdef hnot hlast
  exact ⟨s', e1, e2, fun j => ⟨by simp [passStart], by simp [passEnd]⟩, e3, e4, e5⟩

/-- C12 at the quiet scenario: the first of ten allowed passes converges. -/
theorem pursueBinLog_passes_witness :
    passConverged quietEnv 5 lateSender 0 = true ∧
    ∃ s', pursueBinLog quietEnv 10 5 lateSender = .ret (true, 5) s' ∧
      shipments s'.trace = [(3, 5)] ∧ s'.binlogNum % 2 ^ 64 = 0 ∧
      s'.curBinlogid = 5 ∧ s'.endBinlogid = 5 := by
  refine ⟨by decide, ?_⟩
  obtain ⟨s', e1, e2, _, e3, e4, e5⟩ :=
    pursueBinLog_passes quietEnv 10 5 lateSender 1 (by decide) (by decide)
      (fun j hj => absurd hj (by omega)) (Or.inl (by decide))
  exact ⟨s', e1, e2, e3, e4, e5⟩

/-- C19: the lag of a pass is the `uint64_t` difference `maxBinlogId - start`,
compared with the `uint32_t` `migrateDistance`. After a pass that leaves
`maxBinlogId < start` with `start - maxBinlogId ≤ 2^64 - migrateDistance` the
difference is `2^64 - (start - maxBinlogId)`, the pass does not count as converged,
the loop goes on with the remaining passes, and `_endBinlogid` is as before the
pass. -/
theorem pursueBinLog_lag_wraps (env : Env) (n high : Nat) (finishCatchup : Bool)
    (s : Sender) (high' maxBinlogId : Nat) (s3 : Sender)
    (hp : pursuePass env high s = .ret (some (high', maxBinlogId)) s3)
    (hD : env.migrateDistance < 2 ^ 32) (hstart : high < 2 ^ 64)
    (hlt : maxBinlogId < high)
    (hd : high - maxBinlogId ≤ 2 ^ 64 - env.migrateDistance) :
    s3.curBinlogid = high ∧
    (maxBinlogId + 2 ^ 64 - high) % 2 ^ 64 = 2 ^ 64 - (high - maxBinlogId) ∧
    reachedDistance env maxBinlogId s3.curBinlogid = false ∧
    pursueBinLogLoop env (n + 1) high finishCatchup s =
      pursueBinLogLoop env n high' finishCatchup s3 ∧
    s3.endBinlogid = s.endBinlogid := by
  obtain ⟨c, m, hc, hm, he⟩ := pursuePass_ret env high s _ s3 hp
  obtain ⟨t3, hp3, f1, _, _, _, _, f6, _⟩ := pursuePass_facts env high s c m hc hm
  rw [hp] at hp3
  injection hp3 with _ hs
  subst hs
  have hdiff : (maxBinlogId + 2 ^ 64 - high) % 2 ^ 64 = 2 ^ 64 - (high - maxBinlogId) := by
    have : maxBinlogId + 2 ^ 64 - high = 2 ^ 64 - (high - maxBinlogId) := by omega
    rw [this]
    exact Nat.mod_eq_of_lt (by omega)
  have hr : reachedDistance env maxBinlogId s3.curBinlogid = false := by
    rw [f1]
    unfold reachedDistance
    rw [hdiff, Nat.mod_eq_of_lt hD]
    exact decide_eq_false (by omega)
  refine ⟨f1, hdiff, hr, ?_, f6⟩
  rw [pursueBinLogLoop_succ, hp]
  simp [hr]

/-- C19 with an exhausted binlog cursor: `getMaxBinLog` gives 0, the start is 5, and
the only pass allowed ends without convergence. -/
theorem pursueBinLog_lag_wraps_witness :
    ∃ s3, pursuePass drainedEnv 5 lateSender = .ret (some (5, 0)) s3 ∧
      reachedDistance drainedEnv 0 s3.curBinlogid = false ∧
      pursueBinLogLoop drainedEnv 1 5 true lateSender = .ret (true, 5) s3 ∧
      s3.endBinlogid = lateSender.endBinlogid :=
  have hp := pursuePass_eq drainedEnv 5 lateSender 0 0 (by decide) (by decide)
  have h := pursueBinLog_lag_wraps drainedEnv 0 5 true lateSender _ _ _ hp
    (by decide) (by decide) (by decide) (by decide)
  ⟨_, hp, h.2.2.1, h.2.2.2.1, h.2.2.2.2⟩

/-- C13: the first thing `sendOver` does is one write of the command made of the
header of a three-element bulk array followed by three length-prefixed bulk
payloads: the literal `migrateend`, the slot bitmap as `std::bitset::to_string`
gives it, and the decimal digits of the destination shard id; it writes nothing
else. The bit string has exactly `CLUSTER_SLOTS` characters, the one at position `p`
being `1` exactly when slot `CLUSTER_SLOTS - 1 - p` is set and `0` otherwise, and two
bitmaps of `CLUSTER_SLOTS` bits with the same bit string are equal. -/
theorem sendOver_message (env : Env) (s : Sender) :
    (∃ rest, (sendOver env s).2.trace =
      s.trace ++ Event.writeData
        (.str (fmtMultiBulkLen 3 ++ fmtBulk "migrateend" ++
          fmtBulk (bitsetToString env.CLUSTER_SLOTS s.slots) ++
          fmtBulk (String.mk (Nat.toDigits 10 s.dstStoreid))))
        (env.writeData s.nWrite) :: rest ∧ written rest = []) ∧
    (bitsetToString env.CLUSTER_SLOTS s.slots).length = env.CLUSTER_SLOTS ∧
    (∀ p, p < env.CLUSTER_SLOTS →
      (bitsetToString env.CLUSTER_SLOTS s.slots).data.get? p =
        some (if s.slots.testBit (env.CLUSTER_SLOTS - 1 - p) then '1' else '0')) ∧
    (∀ a b, a < 2 ^ env.CLUSTER_SLOTS → b < 2 ^ env.CLUSTER_SLOTS →
      bitsetToString env.CLUSTER_SLOTS a = bitsetToString env.CLUSTER_SLOTS b → a = b) :=
  ⟨sendOver_first_event env s, bitsetToString_length _ _,
    fun p hp => bitsetToString_get _ _ p hp,
    fun a b ha hb h => bitsetToString_inj _ a b ha hb h⟩

/-- C13 at the quiet scenario: four slots, slot 3 migrating to shard 1. -/
theorem sendOver_message_witness :
    (∃ rest, (sendOver quietEnv sender3).2.trace =
      sender3.trace ++ Event.writeData
        (.str "*3\r\n$10\r\nmigrateend\r\n$4\r\n1000\r\n$1\r\n1\r\n") ⟨.ERR_OK, ""⟩
        :: rest ∧ written rest = []) ∧
    (8 < 2 ^ 4 → 4 < 2 ^ 4 → bitsetToString 4 8 = bitsetToString 4 4 → 8 = 4) :=
  ⟨(sendOver_message quietEnv sender3).1,
    (sendOver_message quietEnv sender3).2.2.2 8 4⟩

/-- C14: `deleteChunks` returns true exactly when `deleteChunk` gave a count for
every set slot, whatever the audit says. In a run that returns true on a sender
whose consistency flag was false, `deleteChunk` was called for the set slots in
ascending order, `_delNum` has grown (in `uint64_t`, and exactly when nothing
overflows) by the sum of the counts returned, and the flag afterwards is true if and
only if `_delNum == _snapshotKeyNum + _binlogNum` in `uint64_t`. No run of
`deleteChunks` touches `_snapshotKeyNum`, `_binlogNum` or the status, or calls
`setSlots`: all it does is act on the store. -/
theorem deleteChunks_audit (env : Env) (slots : Nat) (s : Sender) :
    ((deleteChunks env slots s).1 = true ↔
      (deleteChunksCalls env slots (List.range env.CLUSTER_SLOTS) s).length =
        (slotsOf env slots).length) ∧
    ((deleteChunks env slots s).1 = true → s.consistency = false →
      (deleteChunksCalls env slots (List.range env.CLUSTER_SLOTS) s).map Prod.fst =
        slotsOf env slots ∧
      (deleteChunks env slots s).2.delNum % 2 ^ 64 =
        (s.delNum +
          ((deleteChunksCalls env slots (List.range env.CLUSTER_SLOTS) s).map Prod.snd).sum)
          % 2 ^ 64 ∧
      (s.delNum +
          ((deleteChunksCalls env slots (List.range env.CLUSTER_SLOTS) s).map Prod.snd).sum
          < 2 ^ 64 →
        (deleteChunks env slots s).2.delNum = s.delNum +
          ((deleteChunksCalls env slots (List.range env.CLUSTER_SLOTS) s).map Prod.snd).sum) ∧
      ((deleteChunks env slots s).2.consistency = true ↔
        (deleteChunks env slots s).2.delNum =
          ((deleteChunks env slots s).2.snapshotKeyNum +
            (deleteChunks env slots s).2.binlogNum) % 2 ^ 64)) ∧
    (deleteChunks env slots s).2.snapshotKeyNum = s.snapshotKeyNum ∧
    (deleteChunks env slots s).2.binlogNum = s.binlogNum ∧
    (deleteChunks env slots s).2.sendstate = s.sendstate ∧
    (deleteChunks env slots s).2.nSetSlots = s.nSetSlots ∧
    ∃ d, (deleteChunks env slots s).2.trace = s.trace ++ d ∧
      d.all Event.isReclaim = true := by
  refine ⟨?_, ?_, deleteChunksLoop_frame env slots _ s⟩
  · have h := deleteChunksLoop_result env slots (List.range env.CLUSTER_SLOTS) s
    rw [List.length_map] at h
    exact h
  · intro hret hc
    obtain ⟨h1, h2, h3⟩ := deleteChunksLoop_true env slots _ s hret
    refine ⟨h1, h2, ?_, ?_⟩
    · intro hlt
      have hs : s.delNum < 2 ^ 64 := by omega
      have hl := deleteChunksLoop_delNum_lt env slots (List.range env.CLUSTER_SLOTS) s hs
      have h2' : (deleteChunksLoop env slots (List.range env.CLUSTER_SLOTS) s).2.delNum
          % 2 ^ 64 = _ := h2
      rw [Nat.mod_eq_of_lt hl, Nat.mod_eq_of_lt hlt] at h2'
      exact h2'
    · have h3' : (deleteChunks env slots s).2.consistency = _ := h3
      rw [h3', hc, Bool.false_or, decide_eq_true_iff]
      rfl

/-- C14 at the quiet scenario with counters that do not add up: two keys are deleted
from slot 3 while `_snapshotKeyNum + _binlogNum` is 0; `deleteChunks` returns true
and leaves the flag false. -/
theorem deleteChunks_audit_witness :
    (deleteChunks quietEnv 8 sender3).1 = true ∧ sender3.consistency = false ∧
    (deleteChunks quietEnv 8 sender3).2.delNum = 2 ∧
    (deleteChunks quietEnv 8 sender3).2.consistency = false ∧
    (deleteChunksCalls quietEnv 8 (List.range quietEnv.CLUSTER_SLOTS) sender3).map Prod.fst =
      slotsOf quietEnv 8 ∧
    ((deleteChunks quietEnv 8 sender3).2.consistency = true ↔
      (deleteChunks quietEnv 8 sender3).2.delNum =
        ((deleteChunks quietEnv 8 sender3).2.snapshotKeyNum +
          (deleteChunks quietEnv 8 sender3).2.binlogNum) % 2 ^ 64) :=
  have h := (deleteChunks_audit quietEnv 8 sender3).2.1 (by decide) (by decide)
  ⟨by decide, by decide, by decide, by decide, h.1, h.2.2.2⟩

/-- C15 does not hold as stated: on a slot with `2^32` records, every `delKV` and the
commit succeeding, `deleteChunk` returns 0, not the number `2^32` of records whose
`delKV` succeeded. -/
theorem deleteChunk_count_wraps :
    crowdedEnv.createSlotsCursor sender0.nTxn 0 1 = manyRecords.map Expected.value ∧
    manyRecords.length = 2 ^ 32 ∧
    (∀ k, (crowdedEnv.delKV k).ok = true) ∧
    crowdedEnv.commit sender0.nCommit = .value 0 ∧
    (deleteChunk crowdedEnv 0 sender0).1 = .value 0 :=
  ⟨rfl, manyRecords_length, fun _ => rfl, rfl,
    deleteChunk_wraps_of crowdedEnv 0 sender0 manyRecords rfl rfl manyRecords_length
      (fun _ => rfl) 0 rfl⟩

/-- C15 (amended): on a slot whose cursor yields the records `recs` and then reports
exhausted, `deleteChunk` opens the cursor on `[chunkid, chunkid+1)`, calls `delKV` on
the encoded key of every record in cursor order whatever the earlier `delKV` calls
answered, then commits once and does nothing else. If the commit succeeds it returns
the number of successful `delKV` calls (at most the number of records) modulo `2^32`,
and if the commit fails it returns the commit's error status. -/
theorem deleteChunk_deletes (env : Env) (chunkid : Nat) (s : Sender) (recs : List Record)
    (tl : List (Expected Record)) (ht : env.createTransaction s.nTxn = .value ())
    (hcur : env.createSlotsCursor s.nTxn chunkid (chunkid + 1) =
      recs.map Expected.value ++ tl)
    (hex : Exhausted tl) :
    (deleteChunk env chunkid s).2.trace =
      s.trace ++
        [Event.createTransaction (.value ()),
         Event.createSlotsCursor s.nTxn chunkid (chunkid + 1)] ++
        delKVEvents env s.nTxn s.nDelKV recs ++
        [Event.commit s.nTxn (env.commit s.nCommit)] ∧
    (delKVEvents env s.nTxn s.nDelKV recs).length = recs.length ∧
    (deleteChunk env chunkid s).2.nCommit = s.nCommit + 1 ∧
    (deleteChunk env chunkid s).1 =
      (match env.commit s.nCommit with
       | .error st h => .error st h
       | .value _ => .value (delCount env s.nDelKV recs.length % 2 ^ 32)) ∧
    delCount env s.nDelKV recs.length ≤ recs.length := by
  rw [deleteChunk_records env chunkid s recs tl ht hcur,
    deleteChunkLoop_exhausted env s.nTxn tl hex]
  refine ⟨?_, delKVEvents_length env _ recs _, ?_, ?_, delCount_le env _ _⟩
  · unfold deleteChunkCommit
    simp only
    split <;> rfl
  · unfold deleteChunkCommit
    simp only
    split <;> rfl
  · unfold deleteChunkCommit
    simp only
    split
    · rename_i st h heq
      simp only [heq]
    · rename_i v heq
      simp only [heq]

/-- C15 (amended) at the quiet scenario: the two records of slot 3. -/
theorem deleteChunk_deletes_witness :
    quietEnv.createTransaction sender3.nTxn = .value () ∧
    Exhausted ([] : List (Expected Record)) ∧
    (deleteChunk quietEnv 3 sender3).2.trace =
      [Event.createTransaction (.value ()), Event.createSlotsCursor 0 3 4,
       Event.delKV 0 "k1" ⟨.ERR_OK, ""⟩, Event.delKV 0 "k2" ⟨.ERR_OK, ""⟩,
       Event.commit 0 (.value 0)] ∧
    (deleteChunk quietEnv 3 sender3).1 = .value 2 :=
  have h := deleteChunk_deletes quietEnv 3 sender3 [⟨"k1", "v1"⟩, ⟨"k2", "v2"⟩] [] rfl rfl
    trivial
  ⟨rfl, trivial, h.1, h.2.2.2.1⟩

/-- C17: when the slot cursor answers, after the records `recs`, with an error other
than exhausted, `deleteChunk` returns the value 0 (the `false` of `return false`
converted to the `uint64_t` result), having called `delKV` for `recs` and never
`commit`; so the loop of `deleteChunks` does not fail on that slot: it adds 0 to
`_delNum`, counts the slot in `_delSlot` and goes on with the next slots. -/
theorem deleteChunk_cursor_error (env : Env) (chunkid : Nat) (s : Sender)
    (recs : List Record) (st : Status) (hs : st.ok = false)
    (rest : List (Expected Record)) (ht : env.createTransaction s.nTxn = .value ())
    (hcur : env.createSlotsCursor s.nTxn chunkid (chunkid + 1) =
      recs.map Expected.value ++ .error st hs :: rest)
    (hne : st.code ≠ ErrorCodes.ERR_EXHAUST) :
    deleteChunk env chunkid s =
      (.value 0,
        { s with nTxn := s.nTxn + 1, nDelKV := s.nDelKV + recs.length,
                 trace := s.trace ++
                   [Event.createTransaction (.value ()),
                    Event.createSlotsCursor s.nTxn chunkid (chunkid + 1)] ++
                   delKVEvents env s.nTxn s.nDelKV recs }) ∧
    (deleteChunk env chunkid s).2.nCommit = s.nCommit ∧
    ∀ slots more, slots.testBit chunkid = true →
      deleteChunksLoop env slots (chunkid :: more) s =
        deleteChunksLoop env slots more
          { (deleteChunk env chunkid s).2 with
            delNum := (s.delNum + 0) % 2 ^ 64,
            delSlot := (s.delSlot + 1) % 2 ^ 64 } := by
  have h := deleteChunk_records env chunkid s recs (.error st hs :: rest) ht hcur
  rw [deleteChunkLoop_error env s.nTxn st hs rest hne] at h
  refine ⟨h, by rw [h], ?_⟩
  intro slots more hb
  rw [deleteChunksLoop]
  simp only [hb, if_true]
  rw [h]

/-- C17 at a slot whose cursor breaks after one record: one `delKV`, no `commit`,
the value 0, and `deleteChunks` still returns true. -/
theorem deleteChunk_cursor_error_witness :
    brokenCursorEnv.createTransaction sender3.nTxn = .value () ∧
    (deleteChunk brokenCursorEnv 3 sender3).1 = .value 0 ∧
    (deleteChunk brokenCursorEnv 3 sender3).2.trace =
      [Event.createTransaction (.value ()), Event.createSlotsCursor 0 3 4,
       Event.delKV 0 "k1" ⟨.ERR_OK, ""⟩] ∧
    (deleteChunk brokenCursorEnv 3 sender3).2.nCommit = sender3.nCommit ∧
    (deleteChunks brokenCursorEnv 8 sender3).1 = true ∧
    (deleteChunks brokenCursorEnv 8 sender3).2.delNum = 0 :=
  have h := deleteChunk_cursor_error brokenCursorEnv 3 sender3 [⟨"k1", "v1"⟩]
    ⟨.ERR_INTERNAL, "cursor broken"⟩ rfl [.value ⟨"k2", "v2"⟩] rfl rfl (by decide)
  ⟨rfl, congrArg Prod.fst h.1, congrArg (fun p => p.2.trace) h.1, h.2.1, by decide,
    by decide⟩

/-- C16: in every run of `sendSnapshot`, an ack read that brings a line other than
`+OK` is the last thing the run does, and the run returns the internal error
"read +OK failed". When the shard and the transaction open, every write succeeds,
every ack is `+OK`, and `i` is the first set slot whose cursor answers, after the
records `recs`, with an error other than exhausted, `sendSnapshot` returns that
error's status, and after opening that cursor the run has put on the wire the frames
of `recs` and nothing else. A run of `sendSnapshot` consists of steps of the snapshot
phase only and leaves the lock alone; and when `sendSnapshot` does not return ok,
`sendChunk` returns the same status in the same state, having done nothing more. -/
theorem sendSnapshot_failure (env : Env) (slots : Nat) (s : Sender) :
    (∀ pre e post, (sendSnapshot env slots s).2.trace = s.trace ++ pre ++ e :: post →
      e.isBadAck = true →
      post = [] ∧ (sendSnapshot env slots s).1 = ⟨.ERR_INTERNAL, "read +OK failed"⟩) ∧
    (∀ i recs st hst rest,
      env.getDb s.nGetDb = .value () → env.createTransaction s.nTxn = .value () →
      (∀ k, (env.writeData k).ok = true) → (∀ k, env.read k = .value "+OK") →
      i < env.CLUSTER_SLOTS → slots.testBit i = true →
      (∀ j, j < i → slots.testBit j = true →
        CleanCursor (env.createSlotsCursor s.nTxn j (j + 1))) →
      env.createSlotsCursor s.nTxn i (i + 1) =
        recs.map Expected.value ++ .error st hst :: rest →
      st.code ≠ ErrorCodes.ERR_EXHAUST →
      (sendSnapshot env slots s).1 = st ∧
      ∃ pre Δ, (sendSnapshot env slots s).2.trace =
          pre ++ Event.createSlotsCursor s.nTxn i (i + 1) :: Δ ∧
        Δ.map Event.wire = (recordFrames 0 recs).map some) ∧
    (∃ d, (sendSnapshot env slots s).2.trace = s.trace ++ d ∧
      d.all Event.isSnapshotStep = true ∧ (sendSnapshot env slots s).2.nLock = s.nLock) ∧
    ((sendSnapshot env s.slots s).1.ok = false →
      sendChunk env s =
        .ret (sendSnapshot env s.slots s).1 (sendSnapshot env s.slots s).2) := by
  refine ⟨fun pre e post ht he => (sendSnapshot_ack env slots s).last pre e post ht he,
    fun i recs st hst rest hdb htx hw hr hN hi hclean hcur hne =>
      sendSnapshot_cursor_error_of env slots s hdb htx hw hr i hN hi hclean recs st hst rest
        hcur hne,
    sendSnapshot_steps env slots s, ?_⟩
  intro hbad
  unfold sendChunk
  simp [hbad]

/-- C16 at two scenarios: the cursor of slot 3 breaks after its first record, and the
peer answers the first ack with `-ERR`. -/
theorem sendSnapshot_failure_witness :
    (sendSnapshot brokenCursorEnv 8 sender3).1 = ⟨.ERR_INTERNAL, "cursor broken"⟩ ∧
    (Event.read 3 100 (.value "-ERR")).isBadAck = true ∧
    (sendSnapshot badAckEnv 8 sender3).1 = ⟨.ERR_INTERNAL, "read +OK failed"⟩ ∧
    (sendSnapshot badAckEnv sender3.slots sender3).1.ok = false ∧
    sendChunk badAckEnv sender3 =
      .ret (sendSnapshot badAckEnv sender3.slots sender3).1
        (sendSnapshot badAckEnv sender3.slots sender3).2 :=
  ⟨((sendSnapshot_failure brokenCursorEnv 8 sender3).2.1 3 [⟨"k1", "v1"⟩]
      ⟨.ERR_INTERNAL, "cursor broken"⟩ rfl [.value ⟨"k2", "v2"⟩] rfl rfl (fun _ => rfl)
      (fun _ => rfl) (by decide) (by decide)
      (fun j hj hb => absurd hb (by interval_cases j <;> decide)) rfl (by decide)).1,
    by decide,
    ((sendSnapshot_failure badAckEnv 8 sender3).1
      (sendSnapshot badAckEnv 8 sender3).2.trace.dropLast
      (Event.read 3 100 (.value "-ERR")) [] (by decide) (by decide)).2,
    by decide,
    (sendSnapshot_failure badAckEnv 8 sender3).2.2.2 (by decide)⟩

/-- C18: on the empty bitmap `checkSlotsBlongDst` is true whatever the cluster state
and the destination node are; so `sendOver` returns ok as soon as the write of
`migrateend` succeeds, having neither read the reply nor called `setSlots`; and every
run of `sendChunk` that returns ok ends in METACHANGE_DONE without a reply having
been read or `setSlots` called. -/
theorem sendChunk_empty_bitmap (env : Env) (s : Sender) (hs : s.slots = 0) :
    (∀ dstNode, checkSlotsBlongDst env dstNode s.slots = true) ∧
    ((env.writeData s.nWrite).ok = true →
      sendOver env s =
        (⟨.ERR_OK, ""⟩,
          { s with nWrite := s.nWrite + 1,
                   trace := s.trace ++
                     [Event.writeData (.str (migrateendCommand env s))
                       (env.writeData s.nWrite)] })) ∧
    (∀ st, (sendChunk env s).result = some st → st.ok = true →
      (sendChunk env s).state.sendstate = .METACHANGE_DONE ∧
      ∃ d, (sendChunk env s).state.trace = s.trace ++ d ∧
        d.all (fun e => !e.isReply) = true) := by
  have hc : ∀ dstNode, checkSlotsBlongDst env dstNode s.slots = true := by
    intro dstNode
    rw [hs]
    exact checkSlotsBlongDst_empty env dstNode
  refine ⟨hc, fun hw => ?_, fun st hr hok => sendChunk_empty_run env s hs st hr hok⟩
  obtain ⟨h1, h2⟩ := sendOver_owned env s (hc s.dstNode)
  exact Prod.ext (h2 hw) h1

/-- C18 with a peer that never replies: `sendChunk` on the empty bitmap still
returns ok and reaches METACHANGE_DONE. -/
theorem sendChunk_empty_bitmap_witness :
    senderNone.slots = 0 ∧
    (sendChunk deafEnv senderNone).result = some ⟨.ERR_OK, ""⟩ ∧
    (sendChunk deafEnv senderNone).state.sendstate = .METACHANGE_DONE ∧
    ∃ d, (sendChunk deafEnv senderNone).state.trace = senderNone.trace ++ d ∧
      d.all (fun e => !e.isReply) = true :=
  ⟨rfl, by decide,
    (sendChunk_empty_bitmap deafEnv senderNone rfl).2.2 ⟨.ERR_OK, ""⟩ (by decide)
      (by decide)⟩

end Tendis
